import Mathlib

/-!
# Verification of the Ants game engine (`ants_ai` crate)

Shallow embedding of the Rust source under `src/ants_ai/src/` (`entities.rs`,
`map.rs`, `game.rs`) and proofs about the claims of the specification.

Modelling conventions:
* `usize` values are modelled as `Nat`.  Addition is modelled exactly (the
  runs the claims touch stay far below `2^64`); subtraction at the two places
  where the source can underflow a `usize` (`raze_hills`, `rank_stabilized`)
  is modelled as two's-complement wrap `wsub` (the release-profile behaviour;
  in a debug profile those underflows panic — either way the behaviour
  diverges from the claims that touch them, which is recorded there).
* A Rust `panic!`/`unwrap()` failure that is reachable from the public API is
  modelled by returning `none` from the surrounding phase.
* The v4 UUIDs produced by `Uuid::new_v4()` are modelled by an external
  entropy stream `uuidSupply : Nat → Nat` together with a draw counter: the
  n-th UUID drawn by a run is `uuidSupply n`.  The supply is *not* derived
  from the game's seed, exactly as in the source.
* `StdRng` is modelled as a deterministic word stream derived from the seed
  (`rngWord`), consumed one word per `gen_range` call; `choose_multiple` is
  modelled as sampling without replacement driven by that stream.  No claim
  depends on the exact values drawn, only on (a) the draws being a function
  of seed and position and (b) chosen elements being members of the input.
-/

/-- Entities stored in grid cells (`entities.rs`).  An ant's
`onAntHill` field stores the hill snapshot `(player, alive)` it stands on. -/
inductive Entity where
  | ant (antId : Nat) (player : Nat) (alive : Bool) (onAntHill : Option (Nat × Bool))
  | hill (player : Nat) (alive : Bool)
  | food
  | water
deriving DecidableEq, Repr

namespace Entity

/-- `Entity::name()` (via `type_name` in the source). -/
def name : Entity → String
  | .ant _ _ _ _ => "Ant"
  | .hill _ _ => "Hill"
  | .food => "Food"
  | .water => "Water"

/-- `Entity::id()`.  Non-ants return the constant string `"Entity"` in the
source; that value is never used by the phases modelled here, so non-ants
return `0`. -/
def entityId : Entity → Nat
  | .ant i _ _ _ => i
  | _ => 0

/-- `Entity::player()`. -/
def player : Entity → Option Nat
  | .ant _ p _ _ => some p
  | .hill p _ => some p
  | _ => none

/-- `Entity::alive()`. -/
def aliveFlag : Entity → Option Bool
  | .ant _ _ a _ => some a
  | .hill _ a => some a
  | _ => none

/-- `Entity::on_ant_hill()`. -/
def onAntHill : Entity → Option (Nat × Bool)
  | .ant _ _ _ h => h
  | _ => none

/-- `Entity::set_alive()` (no-op on food and water, as the trait default). -/
def setAlive : Entity → Bool → Entity
  | .ant i p _ h, b => .ant i p b h
  | .hill p _, b => .hill p b
  | e, _ => e

/-- `Entity::set_on_ant_hill()` (no-op except on ants). -/
def setOnAntHill : Entity → (Nat × Bool) → Entity
  | .ant i p a _, h => .ant i p a (some h)
  | e, _ => e

end Entity

/-- The grid (`map.rs`): a flat row-major buffer of `height * width`
optional entities. -/
structure GameMap where
  width : Nat
  height : Nat
  players : Nat
  grid : List (Option Entity)
deriving DecidableEq, Repr

namespace GameMap

/-- `Map::get`: bounds-checks only the flat index `row * width + col`. -/
def get (m : GameMap) (row col : Nat) : Option Entity :=
  m.grid.getD (row * m.width + col) none

/-- `Map::set` (the source indexes the buffer directly; an out-of-range
flat index panics there and is a no-op here — no modelled claim reaches it). -/
def set (m : GameMap) (row col : Nat) (e : Entity) : GameMap :=
  { m with grid := m.grid.set (row * m.width + col) (some e) }

/-- `Map::remove`. -/
def remove (m : GameMap) (row col : Nat) : GameMap :=
  { m with grid := m.grid.set (row * m.width + col) none }

/-- Apply `f` to the entity at `(row, col)` if the cell is occupied
(`Map::get_mut` followed by a mutation in the source). -/
def modifyCell (m : GameMap) (row col : Nat) (f : Entity → Entity) : GameMap :=
  let cell := (m.grid.getD (row * m.width + col) none).map f
  { m with grid := m.grid.set (row * m.width + col) cell }

/-- `Map::all`: row-major scan of occupied cells passing a filter. -/
def allEnt (m : GameMap) (filter : Entity → Bool) : List (Entity × Nat × Nat) :=
  m.grid.enum.filterMap fun (index, cell) =>
    match cell with
    | some e => if filter e then some (e, index / m.width, index % m.width) else none
    | none => none

/-- `Map::ant_hills`. -/
def antHills (m : GameMap) : List (Entity × Nat × Nat) :=
  m.allEnt fun e => e.name == "Hill"

/-- `Map::ants`. -/
def ants (m : GameMap) : List (Entity × Nat × Nat) :=
  m.allEnt fun e => e.name == "Ant"

/-- `Map::food`. -/
def food (m : GameMap) : List (Nat × Nat) :=
  (m.allEnt fun e => e.name == "Food").map fun (_, row, col) => (row, col)

/-- `Map::land`: row-major scan of the empty cells. -/
def land (m : GameMap) : List (Nat × Nat) :=
  m.grid.enum.filterMap fun (index, cell) =>
    match cell with
    | none => some (index / m.width, index % m.width)
    | some _ => none

/-- `Map::land_around`: the empty in-bounds cells of the 3×3 block centered
at `(row, col)`, in row-major order.  Note the source's offset loop includes
the offset `(0, 0)`, so the center itself is returned when it is empty. -/
def landAround (m : GameMap) (row col : Nat) : List (Nat × Nat) :=
  ([-1, 0, 1] : List Int).flatMap fun i =>
    ([-1, 0, 1] : List Int).flatMap fun j =>
      let nRow : Int := (row : Int) + i
      let nCol : Int := (col : Int) + j
      if nRow < 0 ∨ nRow ≥ (m.height : Int) ∨ nCol < 0 ∨ nCol ≥ (m.width : Int) then []
      else if (m.get nRow.toNat nCol.toNat).isSome then []
      else [(nRow.toNat, nCol.toNat)]

/-- Floor square root (the source computes `(radius2 as f64).sqrt() as usize`,
which is the floor square root for the integer ranges in play).  Defined via
`Nat.findGreatest` so that the kernel can evaluate it (`Nat.sqrt` is
well-founded); `natSqrt_eq_sqrt` below identifies it with `Nat.sqrt`. -/
def natSqrt (n : Nat) : Nat := Nat.findGreatest (fun r => r * r ≤ n) n

/-- The contribution of cell `(i, j)` to a field-of-vision scan centered at
`(row, col)`: nothing if the exact distance test fails or the cell is empty;
otherwise the underlying hill (if the occupant stands on one) followed by the
occupant itself — except that the center's own occupant is skipped. -/
def fovCell (m : GameMap) (row col radius2 i j : Nat) : List (Entity × Nat × Nat) :=
  if ((i : Int) - (row : Int)) * ((i : Int) - (row : Int)) +
      ((j : Int) - (col : Int)) * ((j : Int) - (col : Int)) ≤ (radius2 : Int) then
    match m.get i j with
    | some e =>
      (match e.onAntHill with
        | some (hp, ha) => [(Entity.hill hp ha, i, j)]
        | none => []) ++
      (if i == row && j == col then [] else [(e, i, j)])
    | none => []
  else []

/-- `Map::field_of_vision`: every entity within squared Euclidean distance
`radius2` of `center`, scanning the bounding square of half-side
`floor (sqrt radius2)` clipped to the grid.  Entities standing on a hill also
yield the underlying hill; the center's own entity is skipped. -/
def fieldOfVision (m : GameMap) (center : Nat × Nat) (radius2 : Nat) :
    List (Entity × Nat × Nat) :=
  let row := center.1
  let col := center.2
  let radius := natSqrt radius2
  let rlo := row - radius
  let rhi := Nat.min (row + radius) (m.height - 1)
  let clo := col - radius
  let chi := Nat.min (col + radius) (m.width - 1)
  (List.range' rlo (rhi + 1 - rlo)).flatMap fun i =>
    (List.range' clo (chi + 1 - clo)).flatMap fun j =>
      m.fovCell row col radius2 i j

/-- `Map::is_valid_move`. -/
def isValidMove (m : GameMap) (mfrom mto : Nat × Nat) : Bool :=
  if mfrom == mto then false
  else if mfrom.1 ≥ m.height ∨ mfrom.2 ≥ m.width ∨ mto.1 ≥ m.height ∨ mto.2 ≥ m.width then
    false
  else
    match m.get mfrom.1 mfrom.2 with
    | none => false
    | some src =>
      if src.name ≠ "Ant" ∨ src.aliveFlag = none ∨ src.aliveFlag = some false then false
      else
        match m.get mto.1 mto.2 with
        | some dst =>
          ¬(dst.name == "Water" ∨ dst.name == "Food" ∨
            (dst.name == "Ant" ∧ dst.aliveFlag == some false))
        | none => true

/-- `Map::move_entity`: returns whether a movement occurred, and the new map. -/
def moveEntity (m : GameMap) (mfrom mto : Nat × Nat) : Bool × GameMap :=
  if ¬m.isValidMove mfrom mto then (false, m)
  else
    let collision :=
      match m.get mto.1 mto.2 with
      | some e => e.name == "Ant" && e.aliveFlag == some true
      | none => false
    if collision then
      -- both ants are marked dead in place; no movement occurs
      (true, (m.modifyCell mfrom.1 mfrom.2 (·.setAlive false)).modifyCell
        mto.1 mto.2 (·.setAlive false))
    else
      match m.get mfrom.1 mfrom.2 with
      | some (.ant i p a _) =>
        let toHill : Option (Nat × Bool) :=
          match m.get mto.1 mto.2 with
          | some (.hill hp ha) => some (hp, ha)
          | _ => none
        let m1 := m.set mto.1 mto.2 (.ant i p a toHill)
        let m2 :=
          match (m1.get mfrom.1 mfrom.2).bind Entity.onAntHill with
          | some (hp, ha) => m1.set mfrom.1 mfrom.2 (.hill hp ha)
          | none => m1.remove mfrom.1 mfrom.2
        (true, m2)
      | _ => (false, m)  -- unreachable: validity guarantees a live ant at the source

end GameMap

/-! ## Spec-side definitions and concrete fixtures for the map-level claims -/

/-- The 3×3 block of coordinates around `(row, col)` in row-major order, as
integer coordinates (the reading used by claim C8). -/
def block3x3 (row col : Nat) : List (Int × Int) :=
  [((row : Int) - 1, (col : Int) - 1), ((row : Int) - 1, (col : Int)),
   ((row : Int) - 1, (col : Int) + 1),
   ((row : Int), (col : Int) - 1), ((row : Int), (col : Int)),
   ((row : Int), (col : Int) + 1),
   ((row : Int) + 1, (col : Int) - 1), ((row : Int) + 1, (col : Int)),
   ((row : Int) + 1, (col : Int) + 1)]

/-- Spec-side reading of C8 as amended: the empty, in-bounds cells of the 3×3
block centered at `(row, col)`, in row-major order; the center cell is kept
exactly when it is itself empty. -/
def specLandAround (m : GameMap) (row col : Nat) : List (Nat × Nat) :=
  (block3x3 row col).flatMap fun rc =>
    if 0 ≤ rc.1 ∧ rc.1 < (m.height : Int) ∧ 0 ≤ rc.2 ∧ rc.2 < (m.width : Int) ∧
        m.get rc.1.toNat rc.2.toNat = none
    then [(rc.1.toNat, rc.2.toNat)] else []

/-- C7 spec-side: the preconditions of the movement primitive exactly as the
claim lists them: `from ≠ to`, both endpoints in bounds, the source cell holds
a live ant, and the destination is not water, not food, not a dead ant. -/
def movePre (m : GameMap) (f t : Nat × Nat) : Prop :=
  f ≠ t ∧ f.1 < m.height ∧ f.2 < m.width ∧ t.1 < m.height ∧ t.2 < m.width ∧
  (∃ i p h, m.get f.1 f.2 = some (.ant i p true h)) ∧
  (∀ e, m.get t.1 t.2 = some e →
    e ≠ .water ∧ e ≠ .food ∧ ∀ i p h, e ≠ .ant i p false h)

/-- Fixture for C8: an entirely empty 3×3 map. -/
def c8Map : GameMap :=
  ⟨3, 3, 1, [none, none, none, none, none, none, none, none, none]⟩

/-- Fixture for C7: a 3×3 map with live ants at `(1,1)` and `(2,1)`
(the collision scenario of the repository's own `map.rs` test). -/
def c7Map : GameMap :=
  ⟨3, 3, 1, [none, none, none,
             none, some (.ant 1 0 true none), none,
             none, some (.ant 2 0 true none), none]⟩

/-- Fixture for C10: a 2×2 map whose cell `(1,0)` holds water. -/
def c10Map : GameMap :=
  ⟨2, 2, 1, [none, none, some .water, none]⟩

/-! ## Turn-phase definitions (`game.rs`) -/

/-- `Direction` (game.rs). -/
inductive Direction where
  | north | east | south | west
deriving DecidableEq, Repr

/-- `Action` (game.rs): the ant's row, column and direction.  (Named
`AntAction` here because Mathlib already declares `Action`.) -/
structure AntAction where
  row : Nat
  col : Nat
  direction : Direction
deriving DecidableEq, Repr

/-- `FinishedReason` (game.rs). -/
inductive FinishedReason where
  | loneSurvivor | rankStabilized | tooMuchFood | turnLimitReached
deriving DecidableEq, Repr

/-- Two's-complement wrap of `usize` subtraction (the release-profile
behaviour of Rust's `-=` on underflow; a debug build panics instead).  For
`b ≤ a < 2^64` this is ordinary subtraction. -/
def wsub (a b : Nat) : Nat := (a + (2 ^ 64 - b % 2 ^ 64)) % 2 ^ 64

/-- The move target of an action (`Game::move_ants`): `saturating_sub` at
zero for north/west, as in the source. -/
def moveTarget (a : AntAction) : Nat × Nat :=
  match a.direction with
  | .north => (a.row - 1, a.col)
  | .east => (a.row, a.col + 1)
  | .south => (a.row + 1, a.col)
  | .west => (a.row, a.col - 1)

/-- `Game::move_ants` (the map-level part; replay logging is not modelled).
The source reads `self.map.get(action.row, action.col).unwrap().id()` before
moving, so an action naming an EMPTY cell panics — modelled by `none`.  A
non-ant occupant does not panic (`id()` has a default) and the move is then
rejected by `is_valid_move`. -/
def moveAntsCore (m : GameMap) (actions : List AntAction) : Option GameMap :=
  actions.foldlM
    (fun acc a =>
      match acc.get a.row a.col with
      | none => none
      | some _ => some (acc.moveEntity (a.row, a.col) (moveTarget a)).2)
    m

/-- `Game::live_ants` (reads only the map). -/
def liveAnts (m : GameMap) : List (Entity × Nat × Nat) :=
  m.ants.filter fun x => x.1.aliveFlag == some true

/-- `Game::enemies`: the entries of a field of vision that are ants of a
different player.  NOTE: the source does not require the ant to be alive. -/
def enemiesOf (fov : List (Entity × Nat × Nat)) (player : Nat) :
    List (Entity × Nat × Nat) :=
  fov.filter fun x =>
    x.1.name == "Ant" && x.1.player.isSome && x.1.player != some player

/-- Association-list lookup keyed by ant id, modelling the `HashMap` of
`Game::attack` (in any reachable state all live ants have distinct ids, so
first-match lookup agrees with the hash map). -/
def lookupId {A : Type} (k : Nat) : List (Nat × A) → Option A
  | [] => none
  | (k', v) :: rest => if k == k' then some v else lookupId k rest

/-- `Game::attack`.  Enemies are precomputed per live ant from the live-ant
list at phase start; an ant dies iff its focus (enemy count) is positive and
at least the minimum focus among its enemies; all deaths are applied after
the scan.  The two `.unwrap()`s — the focus lookup of each enemy (which FAILS
when a dead ant, present on the grid after a move-phase collision, is within
attack range) and the `.min()` — are modelled in the `Option` monad. -/
def attackCore (m : GameMap) (attackRadius2 : Nat) : Option GameMap := do
  let antList := liveAnts m
  let emap := antList.map fun x =>
    (x.1.entityId, enemiesOf (m.fieldOfVision (x.2.1, x.2.2) attackRadius2)
      (x.1.player.getD 0))
  let toKill ← antList.foldlM
    (fun acc x => do
      let aEnemies ← lookupId x.1.entityId emap
      let focus := aEnemies.length
      if focus == 0 then
        pure acc
      else do
        let focuses ← aEnemies.mapM fun en => do
          let l ← lookupId en.1.entityId emap
          pure l.length
        let minFocus ← focuses.min?
        if focus ≥ minFocus then pure (acc ++ [(x.2.1, x.2.2)]) else pure acc)
    ([] : List (Nat × Nat))
  pure (toKill.foldl (fun mm rc => mm.modifyCell rc.1 rc.2 (·.setAlive false)) m)

/-- `Game::raze_hills` on map and scores.  The source checks only that a live
ant stands on a hill of another player — NOT that the hill is still alive —
and then transfers `razePts`/`lossPts` and marks the snapshot razed; the
subtraction is a `usize` `-=` (see `wsub`). -/
def razeHillsCore (razePts lossPts : Nat) (m : GameMap) (scores : List Nat) :
    GameMap × List Nat :=
  let toRaze := (liveAnts m).filterMap fun x =>
    match x.1.onAntHill with
    | some (hp, _) =>
      if x.1.player.getD 0 ≠ hp then some (hp, x.1.player.getD 0, x.2.1, x.2.2) else none
    | none => none
  toRaze.foldl
    (fun acc y =>
      let scores1 := acc.2.set y.2.1 (acc.2.getD y.2.1 0 + razePts)
      let scores2 := scores1.set y.1 (wsub (scores1.getD y.1 0) lossPts)
      (acc.1.modifyCell y.2.2.1 y.2.2.2 (·.setOnAntHill (y.1, false)), scores2))
    (m, scores)

/-- The ants — alive or dead — within `radius2` of a food cell, as
`(row, col, player)` triples (`Game::harvest_food`). -/
def antsAroundFood (m : GameMap) (pos : Nat × Nat) (radius2 : Nat) :
    List (Nat × Nat × Nat) :=
  (m.fieldOfVision pos radius2).filterMap fun x =>
    if x.1.name == "Ant" then some (x.2.1, x.2.2, x.1.player.getD 0) else none

/-- One iteration of `Game::harvest_food` for a single food position, over
(map, hive, harvested-this-turn positions). -/
def harvestOne (radius2 : Nat) (st : GameMap × List Nat × List (Nat × Nat))
    (pos : Nat × Nat) : GameMap × List Nat × List (Nat × Nat) :=
  let m := st.1
  let hive := st.2.1
  let harvested := st.2.2
  let around := antsAroundFood m pos radius2
  if around.isEmpty then st
  else
    let uniquePlayers := (around.map fun x => x.2.2).dedup
    if uniquePlayers.length == 1 then
      match around.find? fun x => !harvested.contains (x.1, x.2.1) with
      | some a =>
        (m.remove pos.1 pos.2, hive.set a.2.2 (hive.getD a.2.2 0 + 1),
          (a.1, a.2.1) :: harvested)
      | none => st
    else
      (m.remove pos.1 pos.2, hive, harvested)

/-- `Game::harvest_food`: fold the single-food step over the snapshot of food
positions, starting from an empty harvested-this-turn set. -/
def harvestFoodCore (radius2 : Nat) (m : GameMap) (hive : List Nat) :
    GameMap × List Nat × List (Nat × Nat) :=
  m.food.foldl (harvestOne radius2) (m, hive, [])

/-- One comparison step of Rust's `max_by_key` reduction: keep the
accumulator only when strictly greater, so the LAST maximum wins. -/
def argmaxStep (acc x : Nat × Nat) : Nat × Nat :=
  if acc.2 > x.2 then acc else x

/-- `Iterator::max_by_key` over the enumerated scores: index of the maximal
score, keeping the LAST one on ties (Rust's `max_by_key` semantics). -/
def lastArgmax (scores : List Nat) : Nat :=
  (scores.enum.foldl argmaxStep (0, scores.headD 0)).1

/-- The inner loop body of `Game::rank_stabilized`: give challenger `p` the
hills of `oh.1` (unless `oh.1 = p`): `+ razePts` each to `p`, `- lossPts`
each to the owner (a `usize` subtraction, see `wsub`). -/
def rankHypStep (razePts lossPts p : Nat) (sc : List Nat)
    (oh : Nat × List (Nat × Nat × Nat)) : List Nat :=
  if oh.1 == p then sc
  else
    let sc1 := sc.set p (sc.getD p 0 + oh.2.length * razePts)
    sc1.set oh.1 (wsub (sc1.getD oh.1 0) (oh.2.length * lossPts))

/-- `Game::rank_stabilized` over player count, scores, and live hills per
player.  All-tied scores are not stabilized; otherwise every non-leader is
given all other players' hills hypothetically and the rank is stabilized iff
no such challenger exceeds the leader's score. -/
def rankStabilizedCore (razePts lossPts players : Nat) (scores : List Nat)
    (hillsPerPlayer : List (List (Nat × Nat × Nat))) : Bool :=
  if scores.all fun sc => sc == scores.headD 0 then false
  else
    let leader := lastArgmax scores
    let leaderScore := scores.getD leader 0
    (List.range players).all fun p =>
      if p == leader then true
      else
        let hyp := hillsPerPlayer.enum.foldl (rankHypStep razePts lossPts p) scores
        decide (hyp.getD p 0 ≤ leaderScore)

/-! ## Spec-side definitions and fixtures for the phase claims -/

/-- Well-formed grid: the buffer has exactly `height * width` cells and the
dimensions are positive (guaranteed for every parsed map). -/
def WFMap (m : GameMap) : Prop :=
  m.grid.length = m.height * m.width ∧ 0 < m.width ∧ 0 < m.height

/-- C2 spec-side: squared Euclidean distance between two cells. -/
def distSq (a b : Nat × Nat) : Int :=
  ((a.1 : Int) - (b.1 : Int)) * ((a.1 : Int) - (b.1 : Int)) +
    ((a.2 : Int) - (b.2 : Int)) * ((a.2 : Int) - (b.2 : Int))

/-- C1 fixture: a 1×4 map after the move phase of a turn in which the two
player-1 ants collided (action: move `(0,0)` east): both are dead on the
grid, and the live player-0 ant at `(0,3)` has the dead ant at `(0,1)`
within attack radius squared 5. -/
def c1Map : GameMap :=
  ⟨4, 1, 2, [some (.ant 10 1 true none), some (.ant 11 1 true none), none,
             some (.ant 12 0 true none)]⟩

/-- The move action that produces the C1 collision. -/
def c1Action : AntAction := ⟨0, 0, .east⟩

/-- C2 fixture: a 1×2 map with food at `(0,0)` and a DEAD ant of player 0 at
`(0,1)`; no live ant is anywhere near. -/
def c2Map : GameMap :=
  ⟨2, 1, 1, [some .food, some (.ant 5 0 false none)]⟩

/-- C3 fixture: a 1×1 map holding a live player-1 ant standing on player 0's
(initially alive) hill. -/
def c3Map : GameMap :=
  ⟨1, 1, 2, [some (.ant 3 1 true (some (0, true)))]⟩

/-- C4 fixture: a 1×2 map with a single live ant at `(0,0)`; cell `(0,1)` is
empty. -/
def c4Map : GameMap :=
  ⟨2, 1, 1, [some (.ant 4 0 true none), none]⟩

/-- An action that names the empty cell `(0,1)` of `c4Map`. -/
def c4Action : AntAction := ⟨0, 1, .east⟩

/-- C5 fixture: one live hill for EACH of the four players (the claim's
"one live hill per player" topology). -/
def c5Hills : List (List (Nat × Nat × Nat)) :=
  [[(0, 0, 0)], [(1, 0, 2)], [(2, 2, 0)], [(3, 2, 2)]]

/-- C5 spec-side: the total number of live hills of all players other than
`p` (the hills the claim's hypothetical challenger razes). -/
def otherHills (hillsPerPlayer : List (List (Nat × Nat × Nat))) (p : Nat) : Nat :=
  (hillsPerPlayer.enum.map fun oh => if oh.1 = p then 0 else oh.2.length).sum

/-- C2 witness fixture: the plus-sign harvest scenario of the repository's
tests — one live ant at the center, food on all four sides. -/
def c2PlusMap : GameMap :=
  ⟨3, 3, 1, [none, some .food, none,
             some .food, some (.ant 1 0 true none), some .food,
             none, some .food, none]⟩

/-! ## Map text, RNG, and the engine state (`game.rs`) -/

/-- The map-text cell alphabet (§6): `.` land, `%` water, `*` food, a digit
is a hill of that player, a lowercase letter an ant, an uppercase letter an
ant standing on its own hill.  Any other character is a construction-time
panic (a spec "misuse" error), outside every claim, hence unrepresentable
here; the regex header extraction is likewise presentation only. -/
inductive MapChar where
  | land
  | water
  | food
  | hill (p : Nat)
  | ant (p : Nat)
  | antOnHill (p : Nat)
deriving DecidableEq, Repr

/-- A map text: the `rows`/`cols`/`players` header and the cell rows. -/
structure MapContents where
  rows : Nat
  cols : Nat
  players : Nat
  cells : List (List MapChar)
deriving DecidableEq, Repr

/-- `entities::from_char`: ants draw a fresh v4 UUID (`supply n`, advancing
the draw counter); other cells draw nothing. -/
def fromChar (supply : Nat → Nat) (n : Nat) : MapChar → Option Entity × Nat
  | .land => (none, n)
  | .water => (some .water, n)
  | .food => (some .food, n)
  | .hill p => (some (.hill p true), n)
  | .ant p => (some (.ant (supply n) p true none), n + 1)
  | .antOnHill p => (some (.ant (supply n) p true (some (p, true))), n + 1)

/-- One cell of `Map::parse`: write the entity (if any) at `(row, col)`. -/
def parseCell (supply : Nat → Nat) (row : Nat) (acc : GameMap × Nat)
    (colPair : Nat × MapChar) : GameMap × Nat :=
  match fromChar supply acc.2 colPair.2 with
  | (some e, n2) => (acc.1.set row colPair.1 e, n2)
  | (none, n2) => (acc.1, n2)

/-- One row of `Map::parse`. -/
def parseRow (supply : Nat → Nat) (acc : GameMap × Nat)
    (rowPair : Nat × List MapChar) : GameMap × Nat :=
  rowPair.2.enum.foldl (parseCell supply rowPair.1) acc

/-- `Map::parse`: an all-empty `rows × cols` grid, then every non-land cell
written row by row.  Returns the map together with the advanced UUID draw
counter. -/
def parseMap (mc : MapContents) (supply : Nat → Nat) (n : Nat) : GameMap × Nat :=
  mc.cells.enum.foldl (parseRow supply)
    (⟨mc.cols, mc.rows, mc.players, List.replicate (mc.rows * mc.cols) none⟩, n)

/-- Model of `StdRng`: a word stream determined by the seed, one word per
draw.  The mixing function is arbitrary; no claim depends on the values
drawn, only on their being a function of (seed, position) and on the
position advancing (and NOT being reset by `start`). -/
structure Rng where
  seed : Nat
  pos : Nat
deriving DecidableEq, Repr

/-- The drawn word at a given position of the seed's stream. -/
def rngWord (seed pos : Nat) : Nat :=
  ((seed + 1) * 2654435761 + (pos + 1) * 40503) % 4294967296

/-- `Rng::gen_range(0..n)` (callers guarantee `n > 0`). -/
def Rng.genBelow (r : Rng) (n : Nat) : Nat × Rng :=
  (rngWord r.seed r.pos % n, ⟨r.seed, r.pos + 1⟩)

/-- Sampling without replacement (model of rand's `index::sample` driving
`SliceRandom::choose_multiple`): draw a random index, take that element,
recurse on the rest. -/
def chooseMultipleGo {A : Type} : Nat → List A → Rng → List A × Rng
  | 0, _, rng => ([], rng)
  | _ + 1, [], rng => ([], rng)
  | k + 1, x :: xs, rng =>
    let pick := rng.genBelow (x :: xs).length
    match (x :: xs)[pick.1]? with
    | some y =>
      let rest := chooseMultipleGo k ((x :: xs).take pick.1 ++ (x :: xs).drop (pick.1 + 1))
        pick.2
      (y :: rest.1, rest.2)
    | none => ([], pick.2)

/-- `SliceRandom::choose_multiple`: up to `min amount len` distinct elements. -/
def chooseMultiple {A : Type} (xs : List A) (amount : Nat) (rng : Rng) :
    List A × Rng :=
  chooseMultipleGo (Nat.min amount xs.length) xs rng

/-- Append `x` to the `i`-th bucket (`acc[i].push(x)` in the source; an
out-of-range index panics there and is a no-op here — reachable only from
maps whose ant/hill players exceed the header's player count). -/
def pushAt {A : Type} (ls : List (List A)) (i : Nat) (x : A) : List (List A) :=
  ls.set i (ls.getD i [] ++ [x])

/-- The engine state (`Game`), plus the two modelled randomness sources: the
seeded `StdRng` (`rng`) and the process-level UUID entropy
(`uuidSupply` with draw counter `nextId`) which the seed does NOT control. -/
structure Game where
  map : GameMap
  mapContents : MapContents
  fovRadius2 : Nat
  attackRadius2 : Nat
  foodRadius2 : Nat
  turn : Nat
  scores : List Nat
  hive : List Nat
  foodPerTurn : Nat
  started : Bool
  finished : Bool
  finishedReason : Option FinishedReason
  cutoffThreshold : Nat
  turnsWithTooMuchFood : Nat
  pointsForRazingHill : Nat
  pointsForLosingHill : Nat
  maxTurns : Nat
  rng : Rng
  uuidSupply : Nat → Nat
  nextId : Nat

/-- `Game::new`. -/
def Game.new (mc : MapContents) (fovRadius2 attackRadius2 foodRadius2
    foodRate maxTurns seed : Nat) (uuidSupply : Nat → Nat) : Game :=
  let parsed := parseMap mc uuidSupply 0
  { map := parsed.1
    mapContents := mc
    fovRadius2 := fovRadius2
    attackRadius2 := attackRadius2
    foodRadius2 := foodRadius2
    turn := 0
    scores := List.replicate parsed.1.players 0
    hive := List.replicate parsed.1.players 0
    foodPerTurn := foodRate * parsed.1.players
    started := false
    finished := false
    finishedReason := none
    cutoffThreshold := 150
    turnsWithTooMuchFood := 0
    pointsForRazingHill := 2
    pointsForLosingHill := 1
    maxTurns := maxTurns
    rng := ⟨seed, 0⟩
    uuidSupply := uuidSupply
    nextId := parsed.2 }

/-- `Game::live_ant_hills`. -/
def Game.liveAntHills (g : Game) : List (Nat × Nat × Nat) :=
  g.map.antHills.filterMap fun x =>
    if x.1.aliveFlag == some true then some (x.1.player.getD 0, x.2.1, x.2.2) else none

/-- `Game::live_ant_hills_per_player`. -/
def Game.liveAntHillsPerPlayer (g : Game) : List (List (Nat × Nat × Nat)) :=
  g.liveAntHills.foldl (fun acc hill => pushAt acc hill.1 hill)
    (List.replicate g.map.players [])

/-- `Game::compute_initial_scores`: one point per live hill. -/
def Game.computeInitialScores (g : Game) : Game :=
  let sc := g.liveAntHillsPerPlayer.enum.foldl
    (fun sc ph => sc.set ph.1 ph.2.length) g.scores
  { g with scores := sc }

/-- `Game::spawn_food`. -/
def Game.spawnFood (g : Game) (locations : List (Nat × Nat)) : Game :=
  let m2 := locations.foldl (fun mm rc => mm.set rc.1 rc.2 .food) g.map
  { g with map := m2 }

/-- `Game::spawn_food_around_hills`: up to 3 random land cells around each
live hill, drawn per hill from the shared RNG, then food on all of them. -/
def Game.spawnFoodAroundHills (g : Game) : Game :=
  let picked := g.liveAntHills.foldl
    (fun acc hill =>
      let ch := chooseMultiple (g.map.landAround hill.2.1 hill.2.2) 3 acc.2
      (acc.1 ++ ch.1, ch.2))
    (([] : List (Nat × Nat)), g.rng)
  ({ g with rng := picked.2 }).spawnFood picked.1

/-- `Game::spawn_ants`: a fresh ant (new UUID) on each given hill cell, its
underlying hill a live hill of that player. -/
def Game.spawnAnts (g : Game) (antHills : List (Nat × Nat × Nat)) : Game :=
  antHills.foldl
    (fun gg hill =>
      let m2 := gg.map.set hill.2.1 hill.2.2
        (.ant (gg.uuidSupply gg.nextId) hill.1 true (some (hill.1, true)))
      { gg with map := m2, nextId := gg.nextId + 1 })
    g

/-- `Game::spawn_ants_all_hills`. -/
def Game.spawnAntsAllHills (g : Game) : Game :=
  g.spawnAnts g.liveAntHills

/-- `Game::spawn_ants_from_hive`: per player, choose up to `hive[p]` of
their live hills without replacement, pay for and spawn ants there. -/
def Game.spawnAntsFromHive (g : Game) : Game :=
  let hillsByPlayer := g.liveAntHillsPerPlayer
  (List.range g.map.players).foldl
    (fun gg p =>
      let availableFood := gg.hive.getD p 0
      if availableFood == 0 then gg
      else
        let ch := chooseMultiple (hillsByPlayer.getD p []) availableFood gg.rng
        let hive2 := gg.hive.set p (gg.hive.getD p 0 - ch.1.length)
        let gg2 := { gg with rng := ch.2, hive := hive2 }
        gg2.spawnAnts ch.1)
    g

/-- `Game::move_ants` at engine level. -/
def Game.moveAnts (g : Game) (actions : List AntAction) : Option Game :=
  (moveAntsCore g.map actions).map fun m => { g with map := m }

/-- `Game::attack` at engine level. -/
def Game.attack (g : Game) : Option Game :=
  (attackCore g.map g.attackRadius2).map fun m => { g with map := m }

/-- `Game::raze_hills` at engine level. -/
def Game.razeHills (g : Game) : Game :=
  let res := razeHillsCore g.pointsForRazingHill g.pointsForLosingHill g.map g.scores
  { g with map := res.1, scores := res.2 }

/-- `Game::harvest_food` at engine level. -/
def Game.harvestFood (g : Game) : Game :=
  let res := harvestFoodCore g.foodRadius2 g.map g.hive
  { g with map := res.1, hive := res.2.1 }

/-- `Game::spawn_food_randomly`: top up to `food_per_turn` on random land. -/
def Game.spawnFoodRandomly (g : Game) : Game :=
  let currentFood := g.map.food.length
  if g.foodPerTurn ≤ currentFood then g
  else
    let ch := chooseMultiple g.map.land (g.foodPerTurn - currentFood) g.rng
    ({ g with rng := ch.2 }).spawnFood ch.1

/-- `Game::remove_dead_ants`: dead ants leave the grid; a dead ant on a hill
restores the hill from its snapshot. -/
def Game.removeDeadAnts (g : Game) : Game :=
  let dead := g.map.ants.filterMap fun x =>
    if x.1.aliveFlag == some false then some (x.2.1, x.2.2) else none
  let m2 := dead.foldl
    (fun mm rc =>
      match (mm.get rc.1 rc.2).bind Entity.onAntHill with
      | some (hp, ha) => mm.set rc.1 rc.2 (.hill hp ha)
      | none => mm.remove rc.1 rc.2)
    g.map
  { g with map := m2 }

/-- An observation entry (`StateEntity`). -/
structure StateEntity where
  name : String
  row : Nat
  col : Nat
  player : Option Nat
  alive : Option Bool
deriving DecidableEq, Repr

/-- An observed ant (`PlayerAnt`): its UUID, position, owner, aliveness and
field of vision. -/
structure PlayerAnt where
  id : Nat
  row : Nat
  col : Nat
  player : Nat
  alive : Bool
  fieldOfVision : List StateEntity
deriving DecidableEq, Repr

/-- An observation (`GameState`). -/
structure GameState where
  turn : Nat
  scores : List Nat
  ants : List (List PlayerAnt)
  finished : Bool
  finishedReason : Option FinishedReason
deriving DecidableEq, Repr

/-- `Game::to_state_entity`. -/
def toStateEntity (e : Entity) (row col : Nat) : StateEntity :=
  ⟨e.name, row, col, e.player, e.aliveFlag⟩

/-- The observed form of one live ant. -/
def toPlayerAnt (g : Game) (x : Entity × Nat × Nat) : PlayerAnt :=
  { id := x.1.entityId
    row := x.2.1
    col := x.2.2
    player := x.1.player.getD 0
    alive := x.1.aliveFlag.getD false
    fieldOfVision := (g.map.fieldOfVision (x.2.1, x.2.2) g.fovRadius2).map
      fun y => toStateEntity y.1 y.2.1 y.2.2 }

/-- `Game::game_state`: the live ants, observed and grouped by player. -/
def Game.gameState (g : Game) : GameState :=
  let grouped := (liveAnts g.map).foldl
    (fun acc x => pushAt acc (x.1.player.getD 0) (toPlayerAnt g x))
    (List.replicate g.map.players [])
  { turn := g.turn
    scores := g.scores
    ants := grouped
    finished := g.finished
    finishedReason := g.finishedReason }

/-- `Game::check_for_food_not_being_gathered`.  The source computes
`food / (food + ants)` in `f64` and compares `≥ 0.85`; with an empty map the
division is NaN and the comparison false.  Modelled by the exact rational
comparison with an explicit zero-denominator guard (0.85 itself is not a
binary float; the difference is invisible at these integer sizes). -/
def Game.checkForFoodNotBeingGathered (g : Game) : Game :=
  let totalFood := g.map.food.length
  let totalAnts := g.map.ants.length
  if totalFood + totalAnts ≠ 0 ∧ 85 * (totalFood + totalAnts) ≤ 100 * totalFood then
    { g with turnsWithTooMuchFood := g.turnsWithTooMuchFood + 1 }
  else
    { g with turnsWithTooMuchFood := 0 }

/-- `Game::remaining_players`: distinct owners among live ants. -/
def Game.remainingPlayers (g : Game) : Nat :=
  ((liveAnts g.map).map fun x => x.1.player.getD 0).dedup.length

/-- `Game::rank_stabilized` (see `rankStabilizedCore`). -/
def Game.rankStabilized (g : Game) : Bool :=
  rankStabilizedCore g.pointsForRazingHill g.pointsForLosingHill g.map.players
    g.scores g.liveAntHillsPerPlayer

/-- `Game::check_for_endgame`: the four termination predicates in order. -/
def Game.checkForEndgame (g : Game) : Game :=
  let g1 := g.checkForFoodNotBeingGathered
  if g1.cutoffThreshold ≤ g1.turnsWithTooMuchFood then
    { g1 with finished := true, finishedReason := some .tooMuchFood }
  else if g1.remainingPlayers == 1 then
    { g1 with finished := true, finishedReason := some .loneSurvivor }
  else if g1.rankStabilized then
    { g1 with finished := true, finishedReason := some .rankStabilized }
  else if g1.maxTurns ≤ g1.turn then
    { g1 with finished := true, finishedReason := some .turnLimitReached }
  else g1

/-- `Game::start`: reset turn/flags/hive, re-parse the map (fresh UUIDs for
any map-text ants), recompute initial scores, spawn food around hills and an
ant on every live hill.  NOTE: neither the RNG position nor the UUID draw
counter is reset. -/
def Game.start (g : Game) : GameState × Game :=
  let parsed := parseMap g.mapContents g.uuidSupply g.nextId
  let g1 : Game := { g with
    turn := 0
    started := true
    finished := false
    finishedReason := none
    turnsWithTooMuchFood := 0
    hive := List.replicate g.map.players 0
    map := parsed.1
    nextId := parsed.2 }
  let g2 := (g1.computeInitialScores.spawnFoodAroundHills).spawnAntsAllHills
  (g2.gameState, g2)

/-- `Game::update`: the seven phases in order; `none` models the source's
panics (update before start / after finish, and the reachable panics inside
`move_ants` and `attack`).  The observation is built before dead-ant
cleanup. -/
def Game.update (g : Game) (actions : List AntAction) : Option (GameState × Game) :=
  if ¬g.started then none
  else if g.finished then none
  else
    let g0 := { g with turn := g.turn + 1 }
    (g0.moveAnts actions).bind fun g1 =>
      g1.attack.map fun g2 =>
        let g7 := ((((g2.razeHills).spawnAntsFromHive).harvestFood).spawnFoodRandomly).checkForEndgame
        (g7.gameState, g7.removeDeadAnts)

/-- Drive a started game through a list of turns, collecting observations. -/
def runStatesGo : Game → List (List AntAction) → List GameState →
    Option (List GameState)
  | _, [], acc => some acc
  | g, a :: rest, acc =>
    match g.update a with
    | none => none
    | some (st, g2) => runStatesGo g2 rest (acc ++ [st])

/-- The full observation stream of a run: `start`, then one update per entry
of `turns`. -/
def Game.runStates (g : Game) (turns : List (List AntAction)) :
    Option (List GameState) :=
  let s := g.start
  runStatesGo s.2 turns [s.1]

/-! ## Identifier erasure and observation cores (spec-side for C6/C9) -/

/-- Erase an ant's UUID (spec-side device for "identical up to ant ids"). -/
def eraseEnt : Entity → Entity
  | .ant _ p al hh => .ant 0 p al hh
  | e => e

/-- A map with every ant's UUID erased. -/
def GameMap.eraseIds (m : GameMap) : GameMap :=
  { m with grid := m.grid.map (Option.map eraseEnt) }

/-- The id-free view of a cell's ant, if any: (player, alive). -/
def cellAntCore : Option Entity → Option (Nat × Bool)
  | some (.ant _ p al _) => some (p, al)
  | _ => none

/-- The view of a cell's hill, if any: (player, alive). -/
def cellHillView : Option Entity → Option (Nat × Bool)
  | some (.hill p a) => some (p, a)
  | _ => none

/-- The id-free core of a live ant as the grid scan sees it. -/
def liveAntCores (m : GameMap) : List (Nat × Nat × Nat × Bool) :=
  (liveAnts m).map fun x => (x.1.player.getD 0, x.2.1, x.2.2, x.1.aliveFlag.getD false)

/-- The id-free, FOV-free core of an observed ant. -/
def PlayerAnt.core (a : PlayerAnt) : Nat × Nat × Nat × Bool :=
  (a.player, a.row, a.col, a.alive)

/-- The per-player id-free ant cores of an observation. -/
def GameState.antCores (st : GameState) : List (List (Nat × Nat × Nat × Bool)) :=
  st.ants.map (List.map PlayerAnt.core)

/-- An observation with the ant UUIDs erased (everything else kept,
including each ant's full field of vision). -/
def GameState.eraseIds (st : GameState) : GameState :=
  { st with ants := st.ants.map (List.map fun a => { a with id := 0 }) }

/-- The id-free per-cell view of a map's grid: each cell's ant core and hill
view (the data of the grid that determines scores, hill structure and the
id-free observed ants, but not ant UUIDs and not food). -/
def GameMap.viewGrid (m : GameMap) : List (Option (Nat × Bool) × Option (Nat × Bool)) :=
  m.grid.map fun c => (cellAntCore c, cellHillView c)

/-- C6 fixture: a 2×2 one-player map with a single hill at `(0,0)`. -/
def c6Contents : MapContents :=
  ⟨2, 2, 1, [[.hill 0, .land], [.land, .land]]⟩

/-- C6 fixture: the game on `c6Contents` with seed 0 and the identity UUID
stream. -/
def c6Game : Game := Game.new c6Contents 4 5 1 5 1500 0 (fun n => n)

/-! ## Identifier relabeling (spec-side for C9) -/

/-- Relabel an entity's UUID through `ρ` (only ants carry ids). -/
def mapEntIds (ρ : Nat → Nat) : Entity → Entity
  | .ant i p a h => .ant (ρ i) p a h
  | e => e

/-- Relabel every ant id on a map. -/
def GameMap.mapIds (ρ : Nat → Nat) (m : GameMap) : GameMap :=
  { m with grid := m.grid.map (Option.map (mapEntIds ρ)) }

/-- Relabel a field-of-vision entry. -/
def liftEnt (ρ : Nat → Nat) (x : Entity × Nat × Nat) : Entity × Nat × Nat :=
  (mapEntIds ρ x.1, x.2)

/-- Relabel the whole engine state: every ant id on the grid, and the UUID
entropy stream (so every future draw is relabeled as well). -/
def Game.relabel (ρ : Nat → Nat) (g : Game) : Game :=
  { g with map := g.map.mapIds ρ, uuidSupply := fun n => ρ (g.uuidSupply n) }

/-- Relabel an observed ant's id. -/
def PlayerAnt.relabel (ρ : Nat → Nat) (a : PlayerAnt) : PlayerAnt :=
  { a with id := ρ a.id }

/-- Relabel the ant ids of an observation. -/
def GameState.relabel (ρ : Nat → Nat) (st : GameState) : GameState :=
  { st with ants := st.ants.map (List.map (PlayerAnt.relabel ρ)) }

/-- C9 fixture: the identity UUID stream. -/
def idSupply : Nat → Nat := fun n => n

/-- C9 fixture: a shifted UUID stream (a different process-level entropy). -/
def shiftSupply : Nat → Nat := fun n => n + 100

/-! ## Helper lemmas -/

theorem natSqrt_eq_sqrt (n : Nat) : GameMap.natSqrt n = Nat.sqrt n := by
  have h1 : GameMap.natSqrt n * GameMap.natSqrt n ≤ n :=
    Nat.findGreatest_spec (P := fun r => r * r ≤ n) (m := 0) (Nat.zero_le n) (by simp)
  apply Nat.le_antisymm
  · exact Nat.le_sqrt.2 h1
  · exact Nat.le_findGreatest (Nat.sqrt_le_self n) (Nat.sqrt_le n)

theorem flatIdx_inj {w r c r' c' : Nat} (hc : c < w) (hc' : c' < w)
    (h : r * w + c = r' * w + c') : r = r' ∧ c = c' := by
  have hcc : c = c' := by
    have h0 : c + r * w = c' + r' * w := by omega
    have h1 := congrArg (· % w) h0
    simp only [Nat.add_mul_mod_self_right] at h1
    rwa [Nat.mod_eq_of_lt hc, Nat.mod_eq_of_lt hc'] at h1
  subst hcc
  have hw : 0 < w := Nat.lt_of_le_of_lt (Nat.zero_le _) hc
  have : r * w = r' * w := by omega
  exact ⟨Nat.eq_of_mul_eq_mul_right hw this, rfl⟩

theorem flatMap_length_le_of_le_one {α β : Type} {f : α → List β} :
    ∀ l : List α, (∀ a, (f a).length ≤ 1) → (l.flatMap f).length ≤ l.length := by
  intro l h
  induction l with
  | nil => simp
  | cons a tl ih =>
    have := h a
    simp only [List.flatMap_cons, List.length_append, List.length_cons]
    omega

theorem landAround_pick (m : GameMap) (i j : Int) :
    (if i < 0 ∨ i ≥ (m.height : Int) ∨ j < 0 ∨ j ≥ (m.width : Int) then ([] : List (Nat × Nat))
     else if (m.get i.toNat j.toNat).isSome then [] else [(i.toNat, j.toNat)]) =
    (if 0 ≤ i ∧ i < (m.height : Int) ∧ 0 ≤ j ∧ j < (m.width : Int) ∧
        m.get i.toNat j.toNat = none then [(i.toNat, j.toNat)] else []) := by
  by_cases hb : i < 0 ∨ i ≥ (m.height : Int) ∨ j < 0 ∨ j ≥ (m.width : Int)
  · rw [if_pos hb, if_neg]
    rintro ⟨h1, h2, h3, h4, -⟩
    omega
  · rw [if_neg hb]
    push_neg at hb
    obtain ⟨hb1, hb2, hb3, hb4⟩ := hb
    rcases hs : m.get i.toNat j.toNat with _ | e
    · rw [if_neg (by simp [hs]), if_pos ⟨hb1, hb2, hb3, hb4, rfl⟩]
    · rw [if_pos (by simp [hs]), if_neg]
      rintro ⟨-, -, -, -, hnone⟩
      exact Option.noConfusion hnone

/-! ## C10 -/

/-- C10: `Map::get` bounds-checks only the flat index `row * width + col`,
so an out-of-range column aliases the in-bounds cell
`(row + col / width, col % width)` whenever the flat index is in range. -/
theorem c10_get_aliases (m : GameMap) (r c : Nat) (hw : 0 < m.width)
    (hin : r * m.width + c < m.height * m.width) :
    m.get r c = m.get (r + c / m.width) (c % m.width) ∧
    r + c / m.width < m.height ∧ c % m.width < m.width := by
  have hidx : (r + c / m.width) * m.width + c % m.width = r * m.width + c := by
    rw [Nat.add_mul, Nat.add_assoc, Nat.mul_comm (c / m.width) m.width, Nat.div_add_mod]
  refine ⟨by simp only [GameMap.get, hidx], ?_, Nat.mod_lt _ hw⟩
  have h1 : (r + c / m.width) * m.width < m.height * m.width := by
    calc (r + c / m.width) * m.width ≤ (r + c / m.width) * m.width + c % m.width :=
          Nat.le_add_right _ _
    _ = r * m.width + c := hidx
    _ < m.height * m.width := hin
  exact Nat.lt_of_mul_lt_mul_right h1

/-- Witness for C10: on a 2×2 map whose cell `(1,0)` is water, the
out-of-bounds query `get 0 2` returns that water instead of `none`. -/
theorem c10_witness :
    0 < c10Map.width ∧ 0 * c10Map.width + 2 < c10Map.height * c10Map.width ∧
    c10Map.get 0 2 = c10Map.get 1 0 ∧ c10Map.get 0 2 = some Entity.water := by
  refine ⟨by decide, by decide, ?_, by decide⟩
  have h := (c10_get_aliases c10Map 0 2 (by decide) (by decide)).1
  simpa using h

/-! ## C8 -/

/-- C8 counterexample: on an all-land 3×3 map, `land_around 1 1` returns the
center `(1,1)` itself, refuting the claim that the result never contains
`(r,c)` regardless of whether `(r,c)` is empty. -/
theorem c8_counterexample : (1, 1) ∈ c8Map.landAround 1 1 := by decide

/-- C8 amended: `land_around (r,c)` returns exactly the empty, in-bounds cells
of the 3×3 block centered at `(r,c)` in row-major order, where the center
`(r,c)` itself is included exactly when it is empty; hence at most 9 cells. -/
theorem c8_landAround_spec (m : GameMap) (row col : Nat) :
    m.landAround row col = specLandAround m row col ∧
    (m.landAround row col).length ≤ 9 := by
  have he : m.landAround row col = specLandAround m row col := by
    simp only [GameMap.landAround, specLandAround, block3x3, List.flatMap_cons,
      List.flatMap_nil, List.append_nil, ← sub_eq_add_neg, add_zero]
    rw [landAround_pick, landAround_pick, landAround_pick, landAround_pick,
      landAround_pick, landAround_pick, landAround_pick, landAround_pick,
      landAround_pick]
    simp only [List.append_assoc]
  refine ⟨he, ?_⟩
  rw [he]
  have hle : (block3x3 row col).length = 9 := rfl
  calc (specLandAround m row col).length ≤ (block3x3 row col).length := by
        apply flatMap_length_le_of_le_one
        intro a
        split
        · simp
        · simp
  _ = 9 := hle

/-! ## Cell access lemmas -/

@[simp] theorem width_set (m : GameMap) (r c : Nat) (e : Entity) :
    (m.set r c e).width = m.width := rfl

@[simp] theorem width_remove (m : GameMap) (r c : Nat) :
    (m.remove r c).width = m.width := rfl

@[simp] theorem width_modifyCell (m : GameMap) (r c : Nat) (g : Entity → Entity) :
    (m.modifyCell r c g).width = m.width := rfl

@[simp] theorem grid_length_modifyCell (m : GameMap) (r c : Nat) (g : Entity → Entity) :
    (m.modifyCell r c g).grid.length = m.grid.length := by
  simp [GameMap.modifyCell]

@[simp] theorem grid_length_set (m : GameMap) (r c : Nat) (e : Entity) :
    (m.set r c e).grid.length = m.grid.length := by
  simp [GameMap.set]

@[simp] theorem grid_length_remove (m : GameMap) (r c : Nat) :
    (m.remove r c).grid.length = m.grid.length := by
  simp [GameMap.remove]

theorem get_isSome_lt (m : GameMap) (r c : Nat) (e : Entity)
    (h : m.get r c = some e) : r * m.width + c < m.grid.length := by
  by_contra hlen
  push_neg at hlen
  rw [GameMap.get, List.getD_eq_getElem?_getD, List.getElem?_eq_none hlen] at h
  exact Option.noConfusion h

theorem get_modifyCell (m : GameMap) (r c r' c' : Nat) (g : Entity → Entity) :
    (m.modifyCell r c g).get r' c' =
      if r * m.width + c = r' * m.width + c' then
        (if r * m.width + c < m.grid.length then (m.get r c).map g else m.get r' c')
      else m.get r' c' := by
  show ((m.grid.set (r * m.width + c) _).getD (r' * m.width + c') none) = _
  rw [List.getD_eq_getElem?_getD, List.getElem?_set]
  by_cases h : r * m.width + c = r' * m.width + c'
  · rw [if_pos h, if_pos h]
    by_cases hl : r * m.width + c < m.grid.length
    · simp [hl, GameMap.get, List.getD_eq_getElem?_getD]
    · rw [if_neg hl, if_neg hl]
      push_neg at hl
      simp [GameMap.get, List.getD_eq_getElem?_getD, ← h, List.getElem?_eq_none hl]
  · simp [h, GameMap.get, List.getD_eq_getElem?_getD]

theorem get_set (m : GameMap) (r c r' c' : Nat) (e : Entity) :
    (m.set r c e).get r' c' =
      if r * m.width + c = r' * m.width + c' ∧ r * m.width + c < m.grid.length
      then some e else m.get r' c' := by
  show ((m.grid.set (r * m.width + c) (some e)).getD (r' * m.width + c') none) = _
  rw [List.getD_eq_getElem?_getD, List.getElem?_set]
  by_cases h : r * m.width + c = r' * m.width + c'
  · rw [if_pos h]
    by_cases hl : r * m.width + c < m.grid.length
    · rw [if_pos hl, if_pos ⟨h, hl⟩]
      rfl
    · rw [if_neg hl, if_neg (by tauto)]
      push_neg at hl
      rw [GameMap.get, List.getD_eq_getElem?_getD, ← h, List.getElem?_eq_none hl]
  · rw [if_neg h, if_neg (by tauto)]
    rw [GameMap.get, List.getD_eq_getElem?_getD]

theorem get_remove (m : GameMap) (r c r' c' : Nat) :
    (m.remove r c).get r' c' =
      if r * m.width + c = r' * m.width + c' then none else m.get r' c' := by
  show ((m.grid.set (r * m.width + c) none).getD (r' * m.width + c') none) = _
  rw [List.getD_eq_getElem?_getD, List.getElem?_set]
  by_cases h : r * m.width + c = r' * m.width + c'
  · rw [if_pos h, if_pos h]
    by_cases hl : r * m.width + c < m.grid.length
    · rw [if_pos hl]
      rfl
    · rw [if_neg hl]
      rfl
  · rw [if_neg h, if_neg h]
    rw [GameMap.get, List.getD_eq_getElem?_getD]

/-! ## C7 -/

theorem isValidMove_iff (m : GameMap) (f t : Nat × Nat) :
    m.isValidMove f t = true ↔ movePre m f t := by
  unfold GameMap.isValidMove movePre
  by_cases hft : f = t
  · simp [hft]
  · rw [if_neg (by simpa using hft)]
    by_cases hb : f.1 ≥ m.height ∨ f.2 ≥ m.width ∨ t.1 ≥ m.height ∨ t.2 ≥ m.width
    · rw [if_pos hb]
      simp only [Bool.false_eq_true, false_iff]
      rintro ⟨-, h1, h2, h3, h4, -, -⟩
      rcases hb with hb | hb | hb | hb <;> omega
    · rw [if_neg hb]
      push_neg at hb
      obtain ⟨hb1, hb2, hb3, hb4⟩ := hb
      rcases hf : m.get f.1 f.2 with _ | ef
      · simp [hf, hft, hb1, hb2, hb3, hb4]
      · cases ef with
        | ant i p a hh =>
          cases a
          · simp [hf, hft, hb1, hb2, hb3, hb4, Entity.name, Entity.aliveFlag]
          · rcases ht : m.get t.1 t.2 with _ | et
            · simp [hf, ht, hft, hb1, hb2, hb3, hb4, Entity.name, Entity.aliveFlag]
            · cases et with
              | ant i' p' a' hh' =>
                cases a' <;>
                  simp [hf, ht, hft, hb1, hb2, hb3, hb4, Entity.name, Entity.aliveFlag]
              | hill p' a' =>
                simp [hf, ht, hft, hb1, hb2, hb3, hb4, Entity.name, Entity.aliveFlag]
              | food =>
                simp [hf, ht, hft, hb1, hb2, hb3, hb4, Entity.name, Entity.aliveFlag]
              | water =>
                simp [hf, ht, hft, hb1, hb2, hb3, hb4, Entity.name, Entity.aliveFlag]
        | hill p a => simp [hf, hft, hb1, hb2, hb3, hb4, Entity.name, Entity.aliveFlag]
        | food => simp [hf, hft, hb1, hb2, hb3, hb4, Entity.name, Entity.aliveFlag]
        | water => simp [hf, hft, hb1, hb2, hb3, hb4, Entity.name, Entity.aliveFlag]

/-- C7: the movement primitive's contract.  If the preconditions fail,
`move_entity` returns `false` and changes nothing.  If they hold and the
destination holds an alive ant (of any player), both ants are marked dead in
their current cells — identities and underlying-hill fields preserved — no
cell's occupant moves, and the call returns `true`. -/
theorem c7_moveEntity_contract (m : GameMap) (f t : Nat × Nat) :
    (¬movePre m f t → m.moveEntity f t = (false, m)) ∧
    (movePre m f t →
      ∀ i' p' h', m.get t.1 t.2 = some (.ant i' p' true h') →
        (m.moveEntity f t).1 = true ∧
        (∀ i p h, m.get f.1 f.2 = some (.ant i p true h) →
          (m.moveEntity f t).2.get f.1 f.2 = some (.ant i p false h)) ∧
        (m.moveEntity f t).2.get t.1 t.2 = some (.ant i' p' false h') ∧
        ∀ r c, r < m.height → c < m.width → (r, c) ≠ f → (r, c) ≠ t →
          (m.moveEntity f t).2.get r c = m.get r c) := by
  constructor
  · intro hpre
    have hv : m.isValidMove f t = false := by
      cases h : m.isValidMove f t
      · rfl
      · exact absurd ((isValidMove_iff m f t).1 h) hpre
    unfold GameMap.moveEntity
    simp [hv]
  · intro hpre i' p' h' ht
    have hv : m.isValidMove f t = true := (isValidMove_iff m f t).2 hpre
    obtain ⟨hne, hf1, hf2, ht1, ht2, ⟨i, p, hh, hfget⟩, -⟩ := hpre
    have hlenF := get_isSome_lt m f.1 f.2 _ hfget
    have hlenT := get_isSome_lt m t.1 t.2 _ ht
    have hidx : f.1 * m.width + f.2 ≠ t.1 * m.width + t.2 := by
      intro hcontra
      obtain ⟨h1, h2⟩ := flatIdx_inj hf2 ht2 hcontra
      exact hne (Prod.ext h1 h2)
    have hcol :
        m.moveEntity f t =
          (true, (m.modifyCell f.1 f.2 (·.setAlive false)).modifyCell
            t.1 t.2 (·.setAlive false)) := by
      unfold GameMap.moveEntity
      rw [if_neg (by simp [hv])]
      rw [if_pos (by rw [ht]; simp [Entity.name, Entity.aliveFlag])]
    rw [hcol]
    refine ⟨rfl, ?_, ?_, ?_⟩
    · intro i0 p0 h0 hfget0
      rw [hfget0] at hfget
      injection hfget with hfa
      injection hfa with e1 e2 e3 e4
      subst e1; subst e2; subst e4
      rw [get_modifyCell]
      rw [if_neg (by simpa using fun hcontra => hidx hcontra.symm)]
      rw [get_modifyCell, if_pos rfl, if_pos hlenF, hfget0]
      rfl
    · rw [get_modifyCell, if_pos rfl, if_pos (by simpa using hlenT)]
      have : (m.modifyCell f.1 f.2 (·.setAlive false)).get t.1 t.2 = m.get t.1 t.2 := by
        rw [get_modifyCell, if_neg hidx]
      rw [this, ht]
      rfl
    · intro r c hr hc hrf hrt
      have hidxF : f.1 * m.width + f.2 ≠ r * m.width + c := by
        intro hcontra
        obtain ⟨h1, h2⟩ := flatIdx_inj hf2 hc hcontra
        exact hrf (Prod.ext h1.symm h2.symm)
      have hidxT : t.1 * m.width + t.2 ≠ r * m.width + c := by
        intro hcontra
        obtain ⟨h1, h2⟩ := flatIdx_inj ht2 hc hcontra
        exact hrt (Prod.ext h1.symm h2.symm)
      rw [get_modifyCell, if_neg (by simpa using hidxT), get_modifyCell,
        if_neg (by simpa using hidxF)]

/-- Witness for C7: on the two-ant fixture, moving `(1,1)` onto `(2,1)`
kills both ants in place and returns `true`. -/
theorem c7_witness :
    movePre c7Map (1, 1) (2, 1) ∧
    (c7Map.moveEntity (1, 1) (2, 1)).1 = true ∧
    (c7Map.moveEntity (1, 1) (2, 1)).2.get 1 1 = some (.ant 1 0 false none) ∧
    (c7Map.moveEntity (1, 1) (2, 1)).2.get 2 1 = some (.ant 2 0 false none) := by
  have hpre : movePre c7Map (1, 1) (2, 1) := by
    refine ⟨by decide, by decide, by decide, by decide, by decide,
      ⟨1, 0, none, rfl⟩, ?_⟩
    intro e he
    have he' : e = Entity.ant 2 0 true none := by
      have : c7Map.get 2 1 = some (Entity.ant 2 0 true none) := rfl
      rw [this] at he
      exact (Option.some_inj.1 he).symm
    subst he'
    refine ⟨by simp, by simp, ?_⟩
    intro i p h heq
    exact Bool.noConfusion (Entity.ant.inj heq).2.2.1
  have h2 := (c7_moveEntity_contract c7Map (1, 1) (2, 1)).2 hpre 2 0 none rfl
  exact ⟨hpre, h2.1, h2.2.1 1 0 none rfl, h2.2.2.1⟩

/-! ## C1 -/

/-- C1 (code bug): on a 1×4 map, the single update action moves the player-1
ant at `(0,0)` east into its teammate at `(0,1)`: a collision kill leaves two
DEAD ants on the grid.  The subsequent attack phase (attack radius² = 5)
computes the live player-0 ant's enemies WITHOUT an aliveness filter, finds
the dead ant at `(0,1)`, and then looks its focus up in a map keyed only by
live ants — the source's `.unwrap()` panics, modelled by `none`.  Under the
claim the dead ant is no enemy, the live ant has focus 0, and the phase
completes with no deaths. -/
theorem c1_attack_panics_on_dead_enemy :
    (moveAntsCore c1Map [c1Action]).bind (fun m => attackCore m 5) = none ∧
    moveAntsCore c1Map [c1Action] =
      some ⟨4, 1, 2, [some (.ant 10 1 false none), some (.ant 11 1 false none), none,
        some (.ant 12 0 true none)]⟩ := by decide

/-! ## C3 -/

/-- C3 (code bug): `raze_hills` never checks that the hill under the ant is
still alive.  A live enemy ant standing on the hill transfers score on EVERY
call: from scores `[5,5]` the first raze gives `[4,7]` and marks the snapshot
razed, and a second raze — the next turn, the ant not having moved — gives
`[3,9]` even though the hill was already razed. -/
theorem c3_raze_repeats_on_razed_hill :
    razeHillsCore 2 1 c3Map [5, 5] =
      (⟨1, 1, 2, [some (.ant 3 1 true (some (0, false)))]⟩, [4, 7]) ∧
    (razeHillsCore 2 1 (razeHillsCore 2 1 c3Map [5, 5]).1
        (razeHillsCore 2 1 c3Map [5, 5]).2).2 = [3, 9] := by decide

/-! ## C4 -/

/-- C4 (code bug): an action naming an EMPTY cell makes `move_ants` panic
(`self.map.get(row, col).unwrap()`), modelled by `none` — the engine halts
instead of silently ignoring the action.  An action naming a non-ant
occupant (water here) is indeed silently ignored, as the claim says. -/
theorem c4_move_empty_cell_panics :
    moveAntsCore c4Map [c4Action] = none ∧ c4Map.get 0 1 = none ∧
    moveAntsCore (⟨2, 1, 1, [some (.ant 4 0 true none), some .water]⟩ : GameMap) [c4Action] =
      some ⟨2, 1, 1, [some (.ant 4 0 true none), some .water]⟩ := by decide

/-! ## C2 counterexample -/

/-- C2 counterexample: the only ant within `food_radius2 = 1` of the food at
`(0,0)` is DEAD, so by the claim (case (i): no live ants in range) the food
must be unchanged; the code instead counts the dead ant, credits player 0's
hive and removes the food. -/
theorem c2_counterexample :
    liveAnts c2Map = [] ∧
    harvestFoodCore 1 c2Map [0] =
      (⟨2, 1, 1, [none, some (.ant 5 0 false none)]⟩, [1], [(0, 1)]) := by decide

/-! ## C5 counterexample -/

/-- C5 counterexample: with scores `{5,0,0,1}` and one live hill per player
(as the claim words it), `rank_stabilized` returns FALSE — challenger 1's
hypothetical score is `0 + 2·3 = 6 > 5` — not true as the claim asserts.
(The repository's own test uses live hills only for players 0 and 3.) -/
theorem c5_counterexample :
    rankStabilizedCore 2 1 4 [5, 0, 0, 1] c5Hills = false := by decide

/-! ## C5 amended -/

theorem rankHypStep_length (razePts lossPts p : Nat) (sc : List Nat)
    (oh : Nat × List (Nat × Nat × Nat)) :
    (rankHypStep razePts lossPts p sc oh).length = sc.length := by
  unfold rankHypStep
  split <;> simp

theorem rankHypStep_getD_p (razePts lossPts p : Nat) (sc : List Nat)
    (oh : Nat × List (Nat × Nat × Nat)) (hp : p < sc.length) :
    (rankHypStep razePts lossPts p sc oh).getD p 0 =
      if oh.1 = p then sc.getD p 0 else sc.getD p 0 + oh.2.length * razePts := by
  unfold rankHypStep
  by_cases h : oh.1 = p
  · simp [h]
  · rw [if_neg (by simpa using h), if_neg h]
    rw [List.getD_eq_getElem?_getD, List.getElem?_set_ne h]
    rw [List.getElem?_set_self (by simpa using hp)]
    rfl

theorem rankHyp_fold_getD (razePts lossPts p : Nat) :
    ∀ (l : List (List (Nat × Nat × Nat))) (n : Nat) (sc : List Nat), p < sc.length →
      ((List.enumFrom n l).foldl (rankHypStep razePts lossPts p) sc).getD p 0 =
        sc.getD p 0 +
          ((List.enumFrom n l).map fun oh => if oh.1 = p then 0 else oh.2.length).sum
            * razePts := by
  intro l
  induction l with
  | nil => intro n sc hp; simp
  | cons x xs ih =>
    intro n sc hp
    simp only [List.enumFrom_cons, List.foldl_cons, List.map_cons, List.sum_cons]
    rw [ih (n + 1) _ (by rw [rankHypStep_length]; exact hp)]
    rw [rankHypStep_getD_p _ _ _ _ _ hp]
    by_cases hn : n = p
    · rw [if_pos hn, if_pos hn]
      ring
    · rw [if_neg hn, if_neg hn]
      ring

theorem argmax_fold_le :
    ∀ (l : List (Nat × Nat)) (acc : Nat × Nat),
      acc.2 ≤ (l.foldl argmaxStep acc).2 ∧
      (∀ x ∈ l, x.2 ≤ (l.foldl argmaxStep acc).2) ∧
      (l.foldl argmaxStep acc = acc ∨ l.foldl argmaxStep acc ∈ l) := by
  intro l
  induction l with
  | nil => intro acc; exact ⟨le_refl _, by simp, Or.inl rfl⟩
  | cons x xs ih =>
    intro acc
    rw [List.foldl_cons]
    obtain ⟨h1, h2, h3⟩ := ih (argmaxStep acc x)
    have hstep : acc.2 ≤ (argmaxStep acc x).2 ∧ x.2 ≤ (argmaxStep acc x).2 := by
      unfold argmaxStep
      split <;> omega
    refine ⟨le_trans hstep.1 h1, ?_, ?_⟩
    · intro y hy
      rcases List.mem_cons.1 hy with hy | hy
      · subst hy
        exact le_trans hstep.2 h1
      · exact h2 y hy
    · rcases h3 with h3 | h3
      · rw [h3]
        unfold argmaxStep
        split
        · exact Or.inl rfl
        · exact Or.inr (List.mem_cons_self x xs)
      · exact Or.inr (List.mem_cons_of_mem x h3)

theorem mem_enumFrom_of_getElem {α : Type} :
    ∀ (xs : List α) (j i : Nat) (h : i < xs.length), (j + i, xs[i]) ∈ List.enumFrom j xs
  | x :: xs, j, 0, h => by simp [List.enumFrom_cons]
  | x :: xs, j, i + 1, h => by
    have h2 : i < xs.length := by simpa using h
    rw [List.enumFrom_cons]
    refine List.mem_cons_of_mem _ ?_
    have hrec := mem_enumFrom_of_getElem xs (j + 1) i h2
    have hx : (x :: xs)[i + 1] = xs[i] := by simp
    rw [hx]
    have harith : j + (i + 1) = j + 1 + i := by omega
    rw [harith]
    exact hrec

theorem lastArgmax_le (scores : List Nat) :
    ∀ s ∈ scores, s ≤ scores.getD (lastArgmax scores) 0 := by
  intro s hs
  obtain ⟨i, hi, hieq⟩ := List.mem_iff_getElem.1 hs
  have hmem : (0 + i, scores[i]) ∈ List.enumFrom 0 scores :=
    mem_enumFrom_of_getElem scores 0 i hi
  obtain ⟨h1, h2, h3⟩ := argmax_fold_le (List.enumFrom 0 scores) (0, scores.headD 0)
  have henum : List.enum scores = List.enumFrom 0 scores := rfl
  have hres : scores.getD (lastArgmax scores) 0 =
      ((List.enumFrom 0 scores).foldl argmaxStep (0, scores.headD 0)).2 := by
    unfold lastArgmax
    rw [henum]
    rcases h3 with h3 | h3
    · rw [h3]
      cases scores with
      | nil => simp at hs
      | cons a t => simp
    · obtain ⟨-, hlt, hx⟩ :=
        List.mem_enumFrom (show (((List.enumFrom 0 scores).foldl argmaxStep
          (0, scores.headD 0)).1, ((List.enumFrom 0 scores).foldl argmaxStep
          (0, scores.headD 0)).2) ∈ List.enumFrom 0 scores from by simpa using h3)
      rw [hx]
      rw [List.getD_eq_getElem?_getD, List.getElem?_eq_getElem (by omega)]
      simp
  rw [hres, ← hieq]
  exact h2 _ hmem

/-- C5 amended: `rank_stabilized` returns false when all scores are equal;
otherwise — with the leader taken as the code takes it, the LAST index of
maximal score, which indeed carries the maximum — it returns true iff no
other player `p` satisfies `scores[p] + 2·(hills of everyone else) >
leader_score`.  (The claim's `{5,0,0,1}`-with-one-hill-per-player instance is
false — see the counterexample; the repository's test topology, hills only
for players 0 and 3, does return true — see the witness.) -/
theorem c5_rank_spec (players : Nat) (scores : List Nat)
    (hills : List (List (Nat × Nat × Nat))) (hlen : scores.length = players) :
    (∀ s ∈ scores, s ≤ scores.getD (lastArgmax scores) 0) ∧
    (rankStabilizedCore 2 1 players scores hills = true ↔
      (¬ ∀ s ∈ scores, s = scores.headD 0) ∧
      ∀ p, p < players → p ≠ lastArgmax scores →
        scores.getD p 0 + 2 * otherHills hills p ≤ scores.getD (lastArgmax scores) 0) := by
  refine ⟨lastArgmax_le scores, ?_⟩
  unfold rankStabilizedCore
  by_cases hall : ∀ s ∈ scores, s = scores.headD 0
  · rw [if_pos ?hc]
    case hc =>
      rw [List.all_eq_true]
      intro x hx
      rw [beq_iff_eq]
      exact hall x hx
    exact iff_of_false (by simp) fun hc => hc.1 hall
  · rw [if_neg ?hc]
    case hc =>
      rw [List.all_eq_true]
      intro hcon
      exact hall fun s hsmem => beq_iff_eq.1 (hcon s hsmem)
    rw [List.all_eq_true]
    have henum : List.enum hills = List.enumFrom 0 hills := rfl
    constructor
    · intro h
      refine ⟨hall, ?_⟩
      intro p hp hne
      have hthis := h p (List.mem_range.2 hp)
      rw [if_neg (by simpa using hne), decide_eq_true_iff] at hthis
      rw [henum, rankHyp_fold_getD 2 1 p hills 0 scores (by omega)] at hthis
      have hcomm : (2 : Nat) * otherHills hills p =
          ((List.enumFrom 0 hills).map fun oh => if oh.1 = p then 0 else oh.2.length).sum
            * 2 := by
        rw [otherHills, henum, Nat.mul_comm]
      rw [hcomm]
      exact hthis
    · rintro ⟨-, h⟩ p hpmem
      rw [List.mem_range] at hpmem
      by_cases hne : p = lastArgmax scores
      · rw [if_pos (by simpa using hne)]
      · rw [if_neg (by simpa using hne), decide_eq_true_iff]
        rw [henum, rankHyp_fold_getD 2 1 p hills 0 scores (by omega)]
        have hthis := h p hpmem hne
        have hcomm : (2 : Nat) * otherHills hills p =
            ((List.enumFrom 0 hills).map fun oh => if oh.1 = p then 0 else oh.2.length).sum
              * 2 := by
          rw [otherHills, henum, Nat.mul_comm]
        rw [hcomm] at hthis
        exact hthis

/-- Witness for C5: on the repository's own test topology — scores
`{5,0,0,1}`, live hills only for players 0 and 3 — the rank IS stabilized. -/
theorem c5_witness :
    rankStabilizedCore 2 1 4 [5, 0, 0, 1] [[(0, 0, 0)], [], [], [(3, 2, 2)]] = true := by
  have h := (c5_rank_spec 4 [5, 0, 0, 1] [[(0, 0, 0)], [], [], [(3, 2, 2)]] (by decide)).2
  exact h.2 (by decide)

/-! ## C2 amended -/

theorem sq_le_of_sum_sq_le {a b : Int} {r2 : Nat} (h : a * a + b * b ≤ (r2 : Int)) :
    a.natAbs ≤ Nat.sqrt r2 ∧ b.natAbs ≤ Nat.sqrt r2 := by
  have ha : a * a ≤ (r2 : Int) := by nlinarith [mul_self_nonneg b]
  have hb : b * b ≤ (r2 : Int) := by nlinarith [mul_self_nonneg a]
  constructor
  · refine Nat.le_sqrt.2 ?_
    have h2 : ((a.natAbs * a.natAbs : Nat) : Int) = a * a := Int.natAbs_mul_self
    rw [← h2] at ha
    exact_mod_cast ha
  · refine Nat.le_sqrt.2 ?_
    have h2 : ((b.natAbs * b.natAbs : Nat) : Int) = b * b := Int.natAbs_mul_self
    rw [← h2] at hb
    exact_mod_cast hb

theorem ant_mem_fovCell {m : GameMap} {row col radius2 i j : Nat} {e : Entity}
    {ai aj : Nat} (hfood : m.get row col = some .food) (hant : e.name = "Ant") :
    (e, ai, aj) ∈ m.fovCell row col radius2 i j ↔
      ai = i ∧ aj = j ∧ m.get i j = some e ∧
      ((i : Int) - (row : Int)) * ((i : Int) - (row : Int)) +
        ((j : Int) - (col : Int)) * ((j : Int) - (col : Int)) ≤ (radius2 : Int) := by
  unfold GameMap.fovCell
  by_cases hcond : ((i : Int) - (row : Int)) * ((i : Int) - (row : Int)) +
      ((j : Int) - (col : Int)) * ((j : Int) - (col : Int)) ≤ (radius2 : Int)
  case neg =>
    rw [if_neg hcond]
    simp only [List.not_mem_nil, false_iff]
    rintro ⟨-, -, -, hc⟩
    exact hcond hc
  rw [if_pos hcond]
  rcases hget : m.get i j with _ | ge
  · simp only [List.not_mem_nil, false_iff]
    rintro ⟨rfl, rfl, hsome, -⟩
    exact Option.noConfusion hsome
  constructor
  · intro hmem
    rcases List.mem_append.1 hmem with hmem | hmem
    · rcases hh : ge.onAntHill with _ | hpair
      · rw [hh] at hmem
        exact absurd hmem (List.not_mem_nil _)
      · rw [hh] at hmem
        rcases hpair with ⟨hp, ha⟩
        simp only [List.mem_singleton, Prod.mk.injEq] at hmem
        obtain ⟨rfl, -, -⟩ := hmem
        simp [Entity.name] at hant
    · by_cases hcenter : i == row && j == col
      · rw [if_pos hcenter] at hmem
        exact absurd hmem (List.not_mem_nil _)
      · rw [if_neg hcenter] at hmem
        simp only [List.mem_singleton, Prod.mk.injEq] at hmem
        obtain ⟨rfl, rfl, rfl⟩ := hmem
        exact ⟨rfl, rfl, rfl, hcond⟩
  · rintro ⟨rfl, rfl, hsome, -⟩
    obtain rfl := (Option.some_inj.1 hsome).symm
    show (e, ai, aj) ∈
      (match e.onAntHill with
        | some (hp, ha) => [(Entity.hill hp ha, ai, aj)]
        | none => []) ++
      (if ai == row && aj == col then [] else [(e, ai, aj)])
    refine List.mem_append.2 (Or.inr ?_)
    have hcenter : (ai == row && aj == col) = false := by
      by_contra hcon
      have hb : (ai == row && aj == col) = true := by
        cases hcb : (ai == row && aj == col)
        · exact absurd hcb hcon
        · rfl
      obtain ⟨h1, h2⟩ := Bool.and_eq_true_iff.1 hb
      rw [beq_iff_eq] at h1 h2
      subst h1
      subst h2
      rw [hget] at hfood
      obtain rfl := (Option.some_inj.1 hfood).symm
      simp [Entity.name] at hant
    rw [hcenter]
    simp

theorem mem_antsAroundFood (m : GameMap) (pos : Nat × Nat) (radius2 : Nat)
    (hwf : WFMap m) (hfood : m.get pos.1 pos.2 = some .food) (r c p : Nat) :
    (r, c, p) ∈ antsAroundFood m pos radius2 ↔
      r < m.height ∧ c < m.width ∧ distSq (r, c) pos ≤ (radius2 : Int) ∧
      ∃ i al hh, m.get r c = some (.ant i p al hh) := by
  obtain ⟨hwl, hww, hwh⟩ := hwf
  rw [antsAroundFood, List.mem_filterMap]
  simp only [GameMap.fieldOfVision, List.mem_flatMap, List.mem_range'_1]
  constructor
  · rintro ⟨⟨e, ei, ej⟩, ⟨i, hi, j, hj, hcell⟩, hcnd⟩
    by_cases hname : e.name == "Ant"
    case neg =>
      rw [if_neg hname] at hcnd
      exact absurd hcnd (by simp)
    rw [if_pos hname] at hcnd
    rw [beq_iff_eq] at hname
    rw [ant_mem_fovCell hfood hname] at hcell
    obtain ⟨rfl, rfl, hget, hdist⟩ := hcell
    simp only [Option.some_inj, Prod.mk.injEq] at hcnd
    obtain ⟨rfl, rfl, hp⟩ := hcnd
    have hminr : Nat.min (pos.1 + GameMap.natSqrt radius2) (m.height - 1) ≤
        m.height - 1 := Nat.min_le_right _ _
    have hminc : Nat.min (pos.2 + GameMap.natSqrt radius2) (m.width - 1) ≤
        m.width - 1 := Nat.min_le_right _ _
    cases e with
    | ant i0 p0 al hh =>
      simp only [Entity.player, Option.getD_some] at hp
      subst hp
      exact ⟨by omega, by omega, hdist, ⟨i0, al, hh, hget⟩⟩
    | hill hp0 ha0 => simp [Entity.name] at hname
    | food => simp [Entity.name] at hname
    | water => simp [Entity.name] at hname
  · rintro ⟨hr, hc, hdist, i0, al, hh, hget⟩
    have hdist' : ((r : Int) - (pos.1 : Int)) * ((r : Int) - (pos.1 : Int)) +
        ((c : Int) - (pos.2 : Int)) * ((c : Int) - (pos.2 : Int)) ≤ (radius2 : Int) :=
      hdist
    obtain ⟨habs1, habs2⟩ := sq_le_of_sum_sq_le hdist'
    rw [← natSqrt_eq_sqrt] at habs1 habs2
    have hrow1 : r ≤ pos.1 + GameMap.natSqrt radius2 := by omega
    have hcol1 : c ≤ pos.2 + GameMap.natSqrt radius2 := by omega
    have hrmin : r ≤ Nat.min (pos.1 + GameMap.natSqrt radius2) (m.height - 1) :=
      Nat.le_min.2 ⟨hrow1, by omega⟩
    have hcmin : c ≤ Nat.min (pos.2 + GameMap.natSqrt radius2) (m.width - 1) :=
      Nat.le_min.2 ⟨hcol1, by omega⟩
    have hminr : Nat.min (pos.1 + GameMap.natSqrt radius2) (m.height - 1) ≤
        m.height - 1 := Nat.min_le_right _ _
    have hminc : Nat.min (pos.2 + GameMap.natSqrt radius2) (m.width - 1) ≤
        m.width - 1 := Nat.min_le_right _ _
    refine ⟨(Entity.ant i0 p al hh, r, c), ⟨r, by omega, c, by omega, ?_⟩, ?_⟩
    · rw [ant_mem_fovCell hfood (by simp [Entity.name])]
      exact ⟨rfl, rfl, hget, hdist'⟩
    · simp [Entity.name, Entity.player]

theorem getD_set_self (l : List Nat) (i v : Nat) (h : i < l.length) :
    (l.set i v).getD i 0 = v := by
  rw [List.getD_eq_getElem?_getD, List.getElem?_set_self h]
  rfl

theorem getD_set_ne (l : List Nat) (i j v : Nat) (h : i ≠ j) :
    (l.set i v).getD j 0 = l.getD j 0 := by
  rw [List.getD_eq_getElem?_getD, List.getElem?_set_ne h, ← List.getD_eq_getElem?_getD]

/-- C2 amended: the harvest step for one food position, with "ants" read as
the source reads it — ants on the grid whether ALIVE OR DEAD.  First
conjunct: the considered ants are exactly the grid's ants within squared
distance `radius2` of the food.  Then: (i) no ants → state unchanged;
(ii) ants of exactly one player `p` → if some considered ant has not yet
harvested this turn, `p`'s hive gains exactly 1, exactly that ant's position
is added to the harvested set, and the food is removed (all other cells and
hive entries untouched), otherwise the food stays and nothing changes;
(iii) ants of two or more players → the food is removed, the hive and the
harvested set are unchanged. -/
theorem c2_harvest_spec (radius2 : Nat) (m : GameMap) (hive : List Nat)
    (harvested : List (Nat × Nat)) (pos : Nat × Nat) (hwf : WFMap m)
    (hfood : m.get pos.1 pos.2 = some .food)
    (hpr : pos.1 < m.height) (hpc : pos.2 < m.width) :
    (∀ r c p, (r, c, p) ∈ antsAroundFood m pos radius2 ↔
        r < m.height ∧ c < m.width ∧ distSq (r, c) pos ≤ (radius2 : Int) ∧
        ∃ i al hh, m.get r c = some (.ant i p al hh)) ∧
    (antsAroundFood m pos radius2 = [] →
      harvestOne radius2 (m, hive, harvested) pos = (m, hive, harvested)) ∧
    (∀ p, ((antsAroundFood m pos radius2).map fun x => x.2.2).dedup = [p] →
      p < hive.length →
      (∀ a, (antsAroundFood m pos radius2).find?
          (fun x => !harvested.contains (x.1, x.2.1)) = some a →
        a ∈ antsAroundFood m pos radius2 ∧ (a.1, a.2.1) ∉ harvested ∧ a.2.2 = p ∧
        (harvestOne radius2 (m, hive, harvested) pos).1.get pos.1 pos.2 = none ∧
        (∀ r c, (r, c) ≠ pos → r < m.height → c < m.width →
          (harvestOne radius2 (m, hive, harvested) pos).1.get r c = m.get r c) ∧
        (harvestOne radius2 (m, hive, harvested) pos).2.1.getD p 0 =
          hive.getD p 0 + 1 ∧
        (∀ q, q ≠ p →
          (harvestOne radius2 (m, hive, harvested) pos).2.1.getD q 0 =
            hive.getD q 0) ∧
        (harvestOne radius2 (m, hive, harvested) pos).2.2 =
          (a.1, a.2.1) :: harvested) ∧
      ((antsAroundFood m pos radius2).find?
          (fun x => !harvested.contains (x.1, x.2.1)) = none →
        harvestOne radius2 (m, hive, harvested) pos = (m, hive, harvested))) ∧
    (2 ≤ ((antsAroundFood m pos radius2).map fun x => x.2.2).dedup.length →
      (harvestOne radius2 (m, hive, harvested) pos).1.get pos.1 pos.2 = none ∧
      (∀ r c, (r, c) ≠ pos → r < m.height → c < m.width →
        (harvestOne radius2 (m, hive, harvested) pos).1.get r c = m.get r c) ∧
      (harvestOne radius2 (m, hive, harvested) pos).2.1 = hive ∧
      (harvestOne radius2 (m, hive, harvested) pos).2.2 = harvested) := by
  obtain ⟨hwl, hww, hwh⟩ := hwf
  refine ⟨fun r c p => mem_antsAroundFood m pos radius2 ⟨hwl, hww, hwh⟩ hfood r c p,
    ?_, ?_, ?_⟩
  · intro hempty
    rw [harvestOne]
    dsimp only
    rw [if_pos (by simpa [List.isEmpty_iff] using hempty)]
  · intro p hdedup hp
    have hne : antsAroundFood m pos radius2 ≠ [] := by
      intro hcon
      rw [hcon] at hdedup
      simp at hdedup
    have hlenidx := get_isSome_lt m pos.1 pos.2 _ hfood
    constructor
    · intro a hfind
      have hres : harvestOne radius2 (m, hive, harvested) pos =
          (m.remove pos.1 pos.2, hive.set a.2.2 (hive.getD a.2.2 0 + 1),
            (a.1, a.2.1) :: harvested) := by
        rw [harvestOne]
        dsimp only
        rw [if_neg (by simp [List.isEmpty_eq_false.2 hne])]
        rw [if_pos (by rw [hdedup]; rfl)]
        rw [hfind]
      have hmem : a ∈ antsAroundFood m pos radius2 := List.mem_of_find?_eq_some hfind
      have hnotin : (a.1, a.2.1) ∉ harvested := by
        have := List.find?_some hfind
        simpa using this
      have hap : a.2.2 = p := by
        have h1 : a.2.2 ∈ ((antsAroundFood m pos radius2).map fun x => x.2.2) :=
          List.mem_map_of_mem _ hmem
      
        have h2 := List.mem_dedup.2 h1
        rw [hdedup] at h2
        simpa using h2
      subst hap
      refine ⟨hmem, hnotin, rfl, ?_, ?_, ?_, ?_, ?_⟩
      · rw [hres]
        rw [get_remove, if_pos rfl]
      · intro r c hrc hr hc
        rw [hres]
        rw [get_remove, if_neg ?hidx]
        case hidx =>
          intro hcon
          obtain ⟨h1, h2⟩ := flatIdx_inj hpc hc hcon
          exact hrc (Prod.ext h1.symm h2.symm)
      · rw [hres]
        exact getD_set_self hive a.2.2 _ hp
      · intro q hq
        rw [hres]
        exact getD_set_ne hive a.2.2 q _ (fun hcon => hq hcon.symm)
      · rw [hres]
    · intro hfind
      rw [harvestOne]
      dsimp only
      rw [if_neg (by simp [List.isEmpty_eq_false.2 hne])]
      rw [if_pos (by rw [hdedup]; rfl)]
      rw [hfind]
  · intro hlen2
    have hne : antsAroundFood m pos radius2 ≠ [] := by
      intro hcon
      rw [hcon] at hlen2
      simp at hlen2
    have hlenidx := get_isSome_lt m pos.1 pos.2 _ hfood
    have hres : harvestOne radius2 (m, hive, harvested) pos =
        (m.remove pos.1 pos.2, hive, harvested) := by
      rw [harvestOne]
      dsimp only
      rw [if_neg (by simp [List.isEmpty_eq_false.2 hne])]
      rw [if_neg ?hlen]
      case hlen =>
        intro hcon
        rw [beq_iff_eq] at hcon
        omega
    refine ⟨?_, ?_, ?_, ?_⟩
    · rw [hres]
      rw [get_remove, if_pos rfl]
    · intro r c hrc hr hc
      rw [hres]
      rw [get_remove, if_neg ?hidx2]
      case hidx2 =>
        intro hcon
        obtain ⟨h1, h2⟩ := flatIdx_inj hpc hc hcon
        exact hrc (Prod.ext h1.symm h2.symm)
    · rw [hres]
    · rw [hres]

/-- Witness for C2: the plus-sign scenario from the repository's tests — a
single live ant at `(1,1)`, food at `(0,1)`: the ant's player hive gains 1,
the food at `(0,1)` is removed, the cell `(1,0)` (another food) is
untouched. -/
theorem c2_witness :
    (harvestOne 1 (c2PlusMap, [0], []) (0, 1)).1.get 0 1 = none ∧
    (harvestOne 1 (c2PlusMap, [0], []) (0, 1)).1.get 1 0 = c2PlusMap.get 1 0 ∧
    (harvestOne 1 (c2PlusMap, [0], []) (0, 1)).2.1.getD 0 0 = 1 ∧
    (harvestOne 1 (c2PlusMap, [0], []) (0, 1)).2.2 = [(1, 1)] := by
  have h := (c2_harvest_spec 1 c2PlusMap [0] [] (0, 1)
    (by refine ⟨by decide, by decide, by decide⟩) (by decide) (by decide)
    (by decide)).2.2.1 0 (by decide) (by decide)
  have h2 := h.1 (1, 1, 0) (by decide)
  exact ⟨h2.2.2.2.1, h2.2.2.2.2.1 1 0 (by decide) (by decide) (by decide),
    h2.2.2.2.2.2.1, h2.2.2.2.2.2.2.2⟩

/-! ## C6 counterexample -/

/-- C6 counterexample: on a concrete 2×2 one-hill game, the observations of
two consecutive `start()` calls differ — the single ant's UUID is `0` in the
first and `1` in the second, because the UUID entropy is NOT reset (nor is
the RNG).  The claim asserts they are identical. -/
theorem c6_counterexample :
    ((c6Game.start).2.start).1 ≠ (c6Game.start).1 ∧
    ((c6Game.start).1.ants.getD 0 []).map (fun a => a.id) = [0] ∧
    (((c6Game.start).2.start).1.ants.getD 0 []).map (fun a => a.id) = [1] := by
  have h1 : ((c6Game.start).1.ants.getD 0 []).map (fun a => a.id) = [0] := by decide
  have h2 : (((c6Game.start).2.start).1.ants.getD 0 []).map (fun a => a.id) = [1] := by
    decide
  refine ⟨?_, h1, h2⟩
  intro hcon
  rw [hcon, h1] at h2
  exact absurd h2 (by decide)

/-! ## C6 amended: identifier-erasure machinery -/

theorem foldl_rel {A C : Type} {R : A → A → Prop} {f1 f2 : A → C → A}
    (hstep : ∀ a1 a2 b, R a1 a2 → R (f1 a1 b) (f2 a2 b)) :
    ∀ (l : List C) {a1 a2 : A}, R a1 a2 → R (l.foldl f1 a1) (l.foldl f2 a2) := by
  intro l
  induction l with
  | nil => intro a1 a2 h; exact h
  | cons x xs ih =>
    intro a1 a2 h
    exact ih (hstep _ _ x h)

theorem set_of_getElem?_eq {A : Type} :
    ∀ (l : List A) (i : Nat) (a : A), l[i]? = some a → l.set i a = l
  | [], i, a, h => by simp at h
  | x :: xs, 0, a, h => by
    simp only [List.getElem?_cons_zero, Option.some_inj] at h
    rw [← h]
    rfl
  | x :: xs, i + 1, a, h => by
    simp only [List.getElem?_cons_succ] at h
    simp only [List.set_cons_succ]
    rw [set_of_getElem?_eq xs i a h]

@[simp] theorem eraseIds_width (m : GameMap) : m.eraseIds.width = m.width := rfl

@[simp] theorem eraseIds_height (m : GameMap) : m.eraseIds.height = m.height := rfl

@[simp] theorem eraseIds_players (m : GameMap) : m.eraseIds.players = m.players := rfl

theorem eraseIds_set (m : GameMap) (r c : Nat) (e : Entity) :
    (m.set r c e).eraseIds = m.eraseIds.set r c (eraseEnt e) := by
  unfold GameMap.eraseIds GameMap.set
  simp [List.map_set]

theorem width_of_eraseIds_eq {m1 m2 : GameMap} (h : m1.eraseIds = m2.eraseIds) :
    m1.width = m2.width := by
  have := congrArg GameMap.width h
  simpa using this

theorem parseCell_erase (s1 s2 : Nat → Nat) (row : Nat) :
    ∀ (a1 a2 : GameMap × Nat) (cp : Nat × MapChar), a1.1.eraseIds = a2.1.eraseIds →
      (parseCell s1 row a1 cp).1.eraseIds = (parseCell s2 row a2 cp).1.eraseIds := by
  rintro ⟨m1, n1⟩ ⟨m2, n2⟩ ⟨col, ch⟩ h
  cases ch with
  | land => exact h
  | water =>
    show (m1.set row col .water).eraseIds = (m2.set row col .water).eraseIds
    rw [eraseIds_set, eraseIds_set, h]
  | food =>
    show (m1.set row col .food).eraseIds = (m2.set row col .food).eraseIds
    rw [eraseIds_set, eraseIds_set, h]
  | hill p =>
    show (m1.set row col (.hill p true)).eraseIds =
      (m2.set row col (.hill p true)).eraseIds
    rw [eraseIds_set, eraseIds_set, h]
  | ant p =>
    show (m1.set row col (.ant (s1 n1) p true none)).eraseIds =
      (m2.set row col (.ant (s2 n2) p true none)).eraseIds
    rw [eraseIds_set, eraseIds_set, h]
    rfl
  | antOnHill p =>
    show (m1.set row col (.ant (s1 n1) p true (some (p, true)))).eraseIds =
      (m2.set row col (.ant (s2 n2) p true (some (p, true)))).eraseIds
    rw [eraseIds_set, eraseIds_set, h]
    rfl

theorem parseMap_erase (mc : MapContents) (s1 s2 : Nat → Nat) (n1 n2 : Nat) :
    (parseMap mc s1 n1).1.eraseIds = (parseMap mc s2 n2).1.eraseIds := by
  unfold parseMap
  refine foldl_rel
    (R := fun (a b : GameMap × Nat) => a.1.eraseIds = b.1.eraseIds) ?_ mc.cells.enum rfl
  intro a1 a2 rp h
  unfold parseRow
  exact foldl_rel (R := fun (a b : GameMap × Nat) => a.1.eraseIds = b.1.eraseIds)
    (fun b1 b2 cp hb => parseCell_erase s1 s2 rp.1 b1 b2 cp hb) rp.2.enum h

theorem viewGrid_eraseIds (m : GameMap) : m.eraseIds.viewGrid = m.viewGrid := by
  unfold GameMap.viewGrid GameMap.eraseIds
  rw [List.map_map]
  apply List.map_congr_left
  intro c _
  cases c with
  | none => rfl
  | some e => cases e <;> rfl

theorem viewGrid_set (m : GameMap) (r c : Nat) (e : Entity) :
    (m.set r c e).viewGrid =
      m.viewGrid.set (r * m.width + c) (cellAntCore (some e), cellHillView (some e)) := by
  unfold GameMap.viewGrid GameMap.set
  simp [List.map_set]

theorem antHills_view (m : GameMap) :
    m.antHills = (List.enumFrom 0 m.viewGrid).filterMap
      (fun iv => match iv.2.2 with
        | some (p, a) => some (Entity.hill p a, iv.1 / m.width, iv.1 % m.width)
        | none => none) := by
  unfold GameMap.antHills GameMap.allEnt GameMap.viewGrid
  have go : ∀ (l : List (Option Entity)) (n : Nat),
      (List.enumFrom n l).filterMap (fun (x : Nat × Option Entity) =>
        match x.2 with
        | some e => if e.name == "Hill" then some (e, x.1 / m.width, x.1 % m.width) else none
        | none => none) =
      (List.enumFrom n (l.map (fun c => (cellAntCore c, cellHillView c)))).filterMap
        (fun iv => match iv.2.2 with
          | some (p, a) => some (Entity.hill p a, iv.1 / m.width, iv.1 % m.width)
          | none => none) := by
    intro l
    induction l with
    | nil => intro n; rfl
    | cons c cs ih =>
      intro n
      rw [List.map_cons, List.enumFrom_cons, List.enumFrom_cons, List.filterMap_cons,
        List.filterMap_cons, ih (n + 1)]
      cases c with
      | none => rfl
      | some e => cases e <;> rfl
  have hfun : (fun (x : Nat × Option Entity) =>
      match x with
      | (index, cell) =>
        match cell with
        | some e => if e.name == "Hill" then some (e, index / m.width, index % m.width) else none
        | none => none) =
      (fun (x : Nat × Option Entity) =>
        match x.2 with
        | some e => if e.name == "Hill" then some (e, x.1 / m.width, x.1 % m.width) else none
        | none => none) := by
    funext x
    obtain ⟨i, c⟩ := x
    rfl
  rw [show m.grid.enum = List.enumFrom 0 m.grid from rfl, hfun, go]

theorem liveAntCores_view (m : GameMap) :
    liveAntCores m = (List.enumFrom 0 m.viewGrid).filterMap
      (fun iv => match iv.2.1 with
        | some (p, true) => some (p, iv.1 / m.width, iv.1 % m.width, true)
        | _ => none) := by
  unfold liveAntCores liveAnts GameMap.ants GameMap.allEnt GameMap.viewGrid
  have go : ∀ (l : List (Option Entity)) (n : Nat),
      ((((List.enumFrom n l).filterMap (fun (x : Nat × Option Entity) =>
          match x.2 with
          | some e => if e.name == "Ant" then some (e, x.1 / m.width, x.1 % m.width) else none
          | none => none)).filter
            (fun x => x.1.aliveFlag == some true)).map
        (fun x => (x.1.player.getD 0, x.2.1, x.2.2, x.1.aliveFlag.getD false))) =
      (List.enumFrom n (l.map (fun c => (cellAntCore c, cellHillView c)))).filterMap
        (fun iv => match iv.2.1 with
          | some (p, true) => some (p, iv.1 / m.width, iv.1 % m.width, true)
          | _ => none) := by
    intro l
    induction l with
    | nil => intro n; rfl
    | cons c cs ih =>
      intro n
      rw [List.map_cons, List.enumFrom_cons, List.enumFrom_cons, List.filterMap_cons,
        List.filterMap_cons]
      cases c with
      | none => exact ih (n + 1)
      | some e =>
        cases e with
        | ant i p al h =>
          cases al with
          | true => exact congrArg (List.cons (p, n / m.width, n % m.width, true)) (ih (n + 1))
          | false => exact ih (n + 1)
        | hill p a => exact ih (n + 1)
        | food => exact ih (n + 1)
        | water => exact ih (n + 1)
  have hfun : (fun (x : Nat × Option Entity) =>
      match x with
      | (index, cell) =>
        match cell with
        | some e => if e.name == "Ant" then some (e, index / m.width, index % m.width) else none
        | none => none) =
      (fun (x : Nat × Option Entity) =>
        match x.2 with
        | some e => if e.name == "Ant" then some (e, x.1 / m.width, x.1 % m.width) else none
        | none => none) := by
    funext x
    obtain ⟨i, c⟩ := x
    rfl
  rw [show m.grid.enum = List.enumFrom 0 m.grid from rfl, hfun, go]

theorem foldl_set_enumFrom_lower {B : Type} (v : B → Nat) :
    ∀ (l : List B) (k j : Nat) (t : List Nat) (w : Nat), j < k →
      (List.enumFrom k l).foldl (fun sc ph => sc.set ph.1 (v ph.2)) (t.set j w) =
      ((List.enumFrom k l).foldl (fun sc ph => sc.set ph.1 (v ph.2)) t).set j w := by
  intro l
  induction l with
  | nil => intro k j t w h; rfl
  | cons x xs ih =>
    intro k j t w h
    rw [List.enumFrom_cons, List.foldl_cons, List.foldl_cons]
    show (List.enumFrom (k + 1) xs).foldl _ ((t.set j w).set k (v x)) = _
    rw [List.set_comm w (v x) t (Nat.ne_of_lt h), ih (k + 1) j _ w (Nat.lt_succ_of_lt h)]

theorem foldl_set_enumFrom_idem {B : Type} (v : B → Nat) :
    ∀ (l : List B) (k : Nat) (s : List Nat),
      (List.enumFrom k l).foldl (fun sc ph => sc.set ph.1 (v ph.2))
        ((List.enumFrom k l).foldl (fun sc ph => sc.set ph.1 (v ph.2)) s) =
      (List.enumFrom k l).foldl (fun sc ph => sc.set ph.1 (v ph.2)) s := by
  intro l
  induction l with
  | nil => intro k s; rfl
  | cons x xs ih =>
    intro k s
    rw [List.enumFrom_cons, List.foldl_cons, List.foldl_cons]
    show (List.enumFrom (k + 1) xs).foldl _
      (((List.enumFrom (k + 1) xs).foldl _ (s.set k (v x))).set k (v x)) = _
    rw [← foldl_set_enumFrom_lower v xs (k + 1) k _ (v x) (Nat.lt_succ_self k),
      List.set_set, ih (k + 1) (s.set k (v x))]

theorem getD_map_nil {A B : Type} (c : A → B) (ls : List (List A)) (i : Nat) :
    (ls.map (List.map c)).getD i [] = List.map c (ls.getD i []) := by
  rw [List.getD_eq_getElem?_getD, List.getD_eq_getElem?_getD, List.getElem?_map]
  cases h : ls[i]? <;> rfl

theorem map_pushAt {A B : Type} (c : A → B) (ls : List (List A)) (i : Nat) (x : A) :
    (pushAt ls i x).map (List.map c) = pushAt (ls.map (List.map c)) i (c x) := by
  unfold pushAt
  rw [List.map_set, List.map_append, getD_map_nil]
  rfl

theorem foldl_pushAt_map {A B C : Type} (c : A → B) (key : C → Nat) (val : C → A) :
    ∀ (l : List C) (init : List (List A)),
      (l.foldl (fun acc x => pushAt acc (key x) (val x)) init).map (List.map c) =
      l.foldl (fun acc x => pushAt acc (key x) (c (val x))) (init.map (List.map c)) := by
  intro l
  induction l with
  | nil => intro init; rfl
  | cons x xs ih =>
    intro init
    rw [List.foldl_cons, List.foldl_cons, ih, map_pushAt]

theorem antCores_gameState (g : Game) :
    (g.gameState).antCores =
      (liveAntCores g.map).foldl (fun acc y => pushAt acc y.1 y)
        (List.replicate g.map.players []) := by
  have h1 := foldl_pushAt_map PlayerAnt.core
    (fun x : Entity × Nat × Nat => x.1.player.getD 0) (toPlayerAnt g)
    (liveAnts g.map) (List.replicate g.map.players [])
  have h2 := List.foldl_map
    (fun x : Entity × Nat × Nat => (x.1.player.getD 0, x.2.1, x.2.2, x.1.aliveFlag.getD false))
    (fun (acc : List (List (Nat × Nat × Nat × Bool))) (y : Nat × Nat × Nat × Bool) =>
      pushAt acc y.1 y)
    (liveAnts g.map) (List.replicate g.map.players [])
  have e : (List.replicate g.map.players ([] : List PlayerAnt)).map
      (List.map PlayerAnt.core) = List.replicate g.map.players [] := by
    simp
  exact h1.trans ((congrArg
    (fun init => (liveAnts g.map).foldl
      (fun acc x => pushAt acc (x.1.player.getD 0) (PlayerAnt.core (toPlayerAnt g x))) init)
    e).trans h2.symm)

theorem antHills_congr {m1 m2 : GameMap} (hw : m1.width = m2.width)
    (hv : m1.viewGrid = m2.viewGrid) : m1.antHills = m2.antHills := by
  rw [antHills_view, antHills_view, hw, hv]

theorem liveAntCores_congr {m1 m2 : GameMap} (hw : m1.width = m2.width)
    (hv : m1.viewGrid = m2.viewGrid) : liveAntCores m1 = liveAntCores m2 := by
  rw [liveAntCores_view, liveAntCores_view, hw, hv]

theorem foldl_food_view :
    ∀ (locs : List (Nat × Nat)) (m : GameMap),
      (∀ rc ∈ locs, m.get rc.1 rc.2 = none ∨ m.get rc.1 rc.2 = some .food) →
      (locs.foldl (fun mm rc => mm.set rc.1 rc.2 .food) m).viewGrid = m.viewGrid ∧
      (locs.foldl (fun mm rc => mm.set rc.1 rc.2 .food) m).width = m.width ∧
      (locs.foldl (fun mm rc => mm.set rc.1 rc.2 .food) m).height = m.height ∧
      (locs.foldl (fun mm rc => mm.set rc.1 rc.2 .food) m).players = m.players := by
  intro locs
  induction locs with
  | nil => intro m h; exact ⟨rfl, rfl, rfl, rfl⟩
  | cons rc rest ih =>
    intro m h
    rw [List.foldl_cons]
    have hview : (m.set rc.1 rc.2 .food).viewGrid = m.viewGrid := by
      rw [viewGrid_set]
      have hmem := h rc (List.mem_cons_self rc rest)
      by_cases hl : rc.1 * m.width + rc.2 < m.grid.length
      · apply set_of_getElem?_eq
        unfold GameMap.viewGrid
        rw [List.getElem?_map]
        rcases hmem with hm | hm
        · unfold GameMap.get at hm
          rw [List.getD_eq_getElem?_getD] at hm
          rcases hg : m.grid[rc.1 * m.width + rc.2]? with _ | v
          · exact absurd hg (by rw [List.getElem?_eq_none_iff]; omega)
          · rw [hg] at hm
            cases v with
            | none => rfl
            | some e => exact absurd hm (by simp)
        · unfold GameMap.get at hm
          rw [List.getD_eq_getElem?_getD] at hm
          rcases hg : m.grid[rc.1 * m.width + rc.2]? with _ | v
          · exact absurd hg (by rw [List.getElem?_eq_none_iff]; omega)
          · rw [hg] at hm
            cases v with
            | none => exact absurd hm (by simp)
            | some e =>
              simp only [Option.getD_some, Option.some_inj] at hm
              rw [hm]
              rfl
      · apply List.set_eq_of_length_le
        unfold GameMap.viewGrid
        rw [List.length_map]
        omega
    have hrest : ∀ rc' ∈ rest, (m.set rc.1 rc.2 .food).get rc'.1 rc'.2 = none ∨
        (m.set rc.1 rc.2 .food).get rc'.1 rc'.2 = some .food := by
      intro rc' hmem
      rw [get_set]
      by_cases hc : rc.1 * m.width + rc.2 = rc'.1 * m.width + rc'.2 ∧
          rc.1 * m.width + rc.2 < m.grid.length
      · rw [if_pos hc]
        exact Or.inr rfl
      · rw [if_neg hc]
        exact h rc' (List.mem_cons_of_mem rc hmem)
    obtain ⟨hv, hw, hh, hp⟩ := ih (m.set rc.1 rc.2 .food) hrest
    exact ⟨hv.trans hview, hw, hh, hp⟩

theorem mem_landAround_empty (m : GameMap) (r c : Nat) :
    ∀ rc ∈ m.landAround r c, m.get rc.1 rc.2 = none := by
  intro rc hmem
  unfold GameMap.landAround at hmem
  simp only [List.mem_flatMap] at hmem
  obtain ⟨i, hi, j, hj, hx⟩ := hmem
  split at hx
  · exact absurd hx (List.not_mem_nil rc)
  · split at hx
    · exact absurd hx (List.not_mem_nil rc)
    · rename_i hocc
      rw [List.mem_singleton] at hx
      subst hx
      rcases ho : m.get (((r : Int) + i).toNat) (((c : Int) + j).toNat) with _ | e
      · rfl
      · rw [ho] at hocc
        simp at hocc

theorem chooseMultipleGo_subset {A : Type} :
    ∀ (k : Nat) (xs : List A) (r : Rng) (y : A),
      y ∈ (chooseMultipleGo k xs r).1 → y ∈ xs := by
  intro k
  induction k with
  | zero => intro xs r y h; simp [chooseMultipleGo] at h
  | succ n ih =>
    intro xs r y h
    cases xs with
    | nil => simp [chooseMultipleGo] at h
    | cons x rest =>
      rw [chooseMultipleGo] at h
      rcases hg : (x :: rest)[(Rng.genBelow r (x :: rest).length).1]? with _ | z
      · rw [hg] at h
        exact absurd h (List.not_mem_nil y)
      · rw [hg] at h
        rcases List.mem_cons.1 h with h1 | h2
        · subst h1
          exact List.getElem?_mem hg
        · have hsub := ih _ _ y h2
          rcases List.mem_append.1 hsub with ht | hd
          · exact List.take_subset _ _ ht
          · exact List.drop_subset _ _ hd

theorem chooseMultiple_subset {A : Type} (xs : List A) (amount : Nat) (rng : Rng)
    (y : A) (h : y ∈ (chooseMultiple xs amount rng).1) : y ∈ xs :=
  chooseMultipleGo_subset _ xs rng y h

theorem foldl_picked_empty (m : GameMap) :
    ∀ (hills : List (Nat × Nat × Nat)) (acc : List (Nat × Nat) × Rng),
      (∀ rc ∈ acc.1, m.get rc.1 rc.2 = none) →
      ∀ rc ∈ (hills.foldl (fun acc hill =>
          let ch := chooseMultiple (m.landAround hill.2.1 hill.2.2) 3 acc.2
          (acc.1 ++ ch.1, ch.2)) acc).1,
        m.get rc.1 rc.2 = none := by
  intro hills
  induction hills with
  | nil => intro acc h rc hmem; exact h rc hmem
  | cons hill rest ih =>
    intro acc h rc hmem
    rw [List.foldl_cons] at hmem
    refine ih _ ?_ rc hmem
    intro rc' hmem'
    rcases List.mem_append.1 hmem' with h1 | h2
    · exact h rc' h1
    · exact mem_landAround_empty m hill.2.1 hill.2.2 rc'
        (chooseMultiple_subset _ _ _ rc' h2)

theorem spawnFoodAroundHills_map (g : Game) :
    (g.spawnFoodAroundHills).map.viewGrid = g.map.viewGrid ∧
    (g.spawnFoodAroundHills).map.width = g.map.width ∧
    (g.spawnFoodAroundHills).map.players = g.map.players := by
  have hpick := foldl_picked_empty g.map g.liveAntHills (([], g.rng))
    (by intro rc h; exact absurd h (List.not_mem_nil rc))
  have hfv := foldl_food_view
    ((g.liveAntHills.foldl (fun acc hill =>
      let ch := chooseMultiple (g.map.landAround hill.2.1 hill.2.2) 3 acc.2
      (acc.1 ++ ch.1, ch.2)) ([], g.rng)).1) g.map
    (by intro rc h; exact Or.inl (hpick rc h))
  exact ⟨hfv.1, hfv.2.1, hfv.2.2.2⟩

theorem spawnAnts_fields :
    ∀ (l : List (Nat × Nat × Nat)) (g : Game),
      (g.spawnAnts l).turn = g.turn ∧ (g.spawnAnts l).scores = g.scores ∧
      (g.spawnAnts l).finished = g.finished ∧
      (g.spawnAnts l).finishedReason = g.finishedReason ∧
      (g.spawnAnts l).map.players = g.map.players ∧
      (g.spawnAnts l).mapContents = g.mapContents := by
  intro l
  induction l with
  | nil => intro g; exact ⟨rfl, rfl, rfl, rfl, rfl, rfl⟩
  | cons hill rest ih =>
    intro g
    have ihs := ih { g with
      map := g.map.set hill.2.1 hill.2.2
        (.ant (g.uuidSupply g.nextId) hill.1 true (some (hill.1, true)))
      nextId := g.nextId + 1 }
    exact ⟨ihs.1, ihs.2.1, ihs.2.2.1, ihs.2.2.2.1, ihs.2.2.2.2.1, ihs.2.2.2.2.2⟩

theorem spawnAnts_view_rel :
    ∀ (l : List (Nat × Nat × Nat)) (g1 g2 : Game),
      g1.map.width = g2.map.width → g1.map.viewGrid = g2.map.viewGrid →
      (g1.spawnAnts l).map.width = (g2.spawnAnts l).map.width ∧
      (g1.spawnAnts l).map.viewGrid = (g2.spawnAnts l).map.viewGrid := by
  intro l
  induction l with
  | nil => intro g1 g2 hw hv; exact ⟨hw, hv⟩
  | cons hill rest ih =>
    intro g1 g2 hw hv
    refine ih _ _ ?_ ?_
    · exact hw
    · show (g1.map.set hill.2.1 hill.2.2 _).viewGrid = (g2.map.set hill.2.1 hill.2.2 _).viewGrid
      rw [viewGrid_set, viewGrid_set, hv, hw]
      rfl

theorem pipe_obs (g1 g2 : Game)
    (hw : g1.map.width = g2.map.width)
    (hp : g1.map.players = g2.map.players)
    (hv : g1.map.viewGrid = g2.map.viewGrid)
    (hsc : g2.scores = (g1.computeInitialScores).scores)
    (hturn : g2.turn = g1.turn)
    (hfin : g2.finished = g1.finished)
    (hfr : g2.finishedReason = g1.finishedReason) :
    (((g2.computeInitialScores.spawnFoodAroundHills).spawnAntsAllHills).gameState.turn =
      ((g1.computeInitialScores.spawnFoodAroundHills).spawnAntsAllHills).gameState.turn) ∧
    (((g2.computeInitialScores.spawnFoodAroundHills).spawnAntsAllHills).gameState.scores =
      ((g1.computeInitialScores.spawnFoodAroundHills).spawnAntsAllHills).gameState.scores) ∧
    (((g2.computeInitialScores.spawnFoodAroundHills).spawnAntsAllHills).gameState.finished =
      ((g1.computeInitialScores.spawnFoodAroundHills).spawnAntsAllHills).gameState.finished) ∧
    (((g2.computeInitialScores.spawnFoodAroundHills).spawnAntsAllHills).gameState.finishedReason =
      ((g1.computeInitialScores.spawnFoodAroundHills).spawnAntsAllHills).gameState.finishedReason) ∧
    (((g2.computeInitialScores.spawnFoodAroundHills).spawnAntsAllHills).gameState.antCores =
      ((g1.computeInitialScores.spawnFoodAroundHills).spawnAntsAllHills).gameState.antCores) := by
  have hlah : g1.liveAntHills = g2.liveAntHills := by
    unfold Game.liveAntHills
    rw [antHills_congr hw hv]
  have hpp : g1.liveAntHillsPerPlayer = g2.liveAntHillsPerPlayer := by
    unfold Game.liveAntHillsPerPlayer
    rw [hlah, hp]
  have hidem := foldl_set_enumFrom_idem List.length g1.liveAntHillsPerPlayer 0 g1.scores
  have hcis : (g2.computeInitialScores).scores = (g1.computeInitialScores).scores := by
    show g2.liveAntHillsPerPlayer.enum.foldl (fun sc ph => sc.set ph.1 ph.2.length) g2.scores =
      g1.liveAntHillsPerPlayer.enum.foldl (fun sc ph => sc.set ph.1 ph.2.length) g1.scores
    rw [← hpp, hsc]
    exact hidem
  have hB1 := spawnFoodAroundHills_map g1.computeInitialScores
  have hB2 := spawnFoodAroundHills_map g2.computeInitialScores
  have hwB : (g2.computeInitialScores.spawnFoodAroundHills).map.width =
      (g1.computeInitialScores.spawnFoodAroundHills).map.width := by
    rw [hB1.2.1, hB2.2.1]
    exact hw.symm
  have hpB : (g2.computeInitialScores.spawnFoodAroundHills).map.players =
      (g1.computeInitialScores.spawnFoodAroundHills).map.players := by
    rw [hB1.2.2, hB2.2.2]
    exact hp.symm
  have hvB : (g2.computeInitialScores.spawnFoodAroundHills).map.viewGrid =
      (g1.computeInitialScores.spawnFoodAroundHills).map.viewGrid := by
    rw [hB1.1, hB2.1]
    exact hv.symm
  have hlahB : (g2.computeInitialScores.spawnFoodAroundHills).liveAntHills =
      (g1.computeInitialScores.spawnFoodAroundHills).liveAntHills := by
    unfold Game.liveAntHills
    rw [antHills_congr hwB hvB]
  have hC := spawnAnts_view_rel
    ((g1.computeInitialScores.spawnFoodAroundHills).liveAntHills)
    (g2.computeInitialScores.spawnFoodAroundHills)
    (g1.computeInitialScores.spawnFoodAroundHills) hwB hvB
  have hfl2 := spawnAnts_fields ((g2.computeInitialScores.spawnFoodAroundHills).liveAntHills)
    (g2.computeInitialScores.spawnFoodAroundHills)
  have hfl1 := spawnAnts_fields ((g1.computeInitialScores.spawnFoodAroundHills).liveAntHills)
    (g1.computeInitialScores.spawnFoodAroundHills)
  have hgA2 : ((g2.computeInitialScores.spawnFoodAroundHills).spawnAntsAllHills) =
      (g2.computeInitialScores.spawnFoodAroundHills).spawnAnts
        ((g1.computeInitialScores.spawnFoodAroundHills).liveAntHills) := by
    show (g2.computeInitialScores.spawnFoodAroundHills).spawnAnts
      ((g2.computeInitialScores.spawnFoodAroundHills).liveAntHills) = _
    rw [hlahB]
  have ht2 : ((g2.computeInitialScores.spawnFoodAroundHills).spawnAntsAllHills).gameState.turn =
      g2.turn := hfl2.1
  have ht1 : ((g1.computeInitialScores.spawnFoodAroundHills).spawnAntsAllHills).gameState.turn =
      g1.turn := hfl1.1
  have hs2 : ((g2.computeInitialScores.spawnFoodAroundHills).spawnAntsAllHills).gameState.scores =
      (g2.computeInitialScores).scores := hfl2.2.1
  have hs1 : ((g1.computeInitialScores.spawnFoodAroundHills).spawnAntsAllHills).gameState.scores =
      (g1.computeInitialScores).scores := hfl1.2.1
  have hfin2 : ((g2.computeInitialScores.spawnFoodAroundHills).spawnAntsAllHills).gameState.finished =
      g2.finished := hfl2.2.2.1
  have hfin1 : ((g1.computeInitialScores.spawnFoodAroundHills).spawnAntsAllHills).gameState.finished =
      g1.finished := hfl1.2.2.1
  have hfr2 : ((g2.computeInitialScores.spawnFoodAroundHills).spawnAntsAllHills).gameState.finishedReason =
      g2.finishedReason := hfl2.2.2.2.1
  have hfr1 : ((g1.computeInitialScores.spawnFoodAroundHills).spawnAntsAllHills).gameState.finishedReason =
      g1.finishedReason := hfl1.2.2.2.1
  have ha2 := antCores_gameState ((g2.computeInitialScores.spawnFoodAroundHills).spawnAntsAllHills)
  have ha1 := antCores_gameState ((g1.computeInitialScores.spawnFoodAroundHills).spawnAntsAllHills)
  have hcores : liveAntCores ((g2.computeInitialScores.spawnFoodAroundHills).spawnAntsAllHills).map =
      liveAntCores ((g1.computeInitialScores.spawnFoodAroundHills).spawnAntsAllHills).map := by
    rw [hgA2]
    exact liveAntCores_congr hC.1 hC.2
  have hplayersA : ((g2.computeInitialScores.spawnFoodAroundHills).spawnAntsAllHills).map.players =
      ((g1.computeInitialScores.spawnFoodAroundHills).spawnAntsAllHills).map.players := by
    have h2 : ((g2.computeInitialScores.spawnFoodAroundHills).spawnAntsAllHills).map.players =
        (g2.computeInitialScores.spawnFoodAroundHills).map.players := hfl2.2.2.2.2.1
    have h1 : ((g1.computeInitialScores.spawnFoodAroundHills).spawnAntsAllHills).map.players =
        (g1.computeInitialScores.spawnFoodAroundHills).map.players := hfl1.2.2.2.2.1
    rw [h1, h2, hpB]
  refine ⟨?_, ?_, ?_, ?_, ?_⟩
  · rw [ht2, ht1, hturn]
  · rw [hs2, hs1, hcis]
  · rw [hfin2, hfin1, hfin]
  · rw [hfr2, hfr1, hfr]
  · rw [ha2, ha1, hcores, hplayersA]

theorem pipe_mapContents (g1 : Game) :
    ((g1.computeInitialScores.spawnFoodAroundHills).spawnAntsAllHills).mapContents =
      g1.mapContents := by
  have h := spawnAnts_fields ((g1.computeInitialScores.spawnFoodAroundHills).liveAntHills)
    (g1.computeInitialScores.spawnFoodAroundHills)
  exact h.2.2.2.2.2

theorem pipe_scores (g1 : Game) :
    ((g1.computeInitialScores.spawnFoodAroundHills).spawnAntsAllHills).scores =
      (g1.computeInitialScores).scores := by
  have h := spawnAnts_fields ((g1.computeInitialScores.spawnFoodAroundHills).liveAntHills)
    (g1.computeInitialScores.spawnFoodAroundHills)
  exact h.2.1

theorem parse_facts {m1 m2 : GameMap} (h : m1.eraseIds = m2.eraseIds) :
    m1.width = m2.width ∧ m1.players = m2.players ∧ m1.viewGrid = m2.viewGrid := by
  refine ⟨width_of_eraseIds_eq h, ?_, ?_⟩
  · have hp := congrArg GameMap.players h
    simpa using hp
  · calc m1.viewGrid = m1.eraseIds.viewGrid := (viewGrid_eraseIds m1).symm
      _ = m2.eraseIds.viewGrid := by rw [h]
      _ = m2.viewGrid := viewGrid_eraseIds m2

theorem start_unfold (g : Game) :
    g.start =
      ((({ g with
        turn := 0
        started := true
        finished := false
        finishedReason := none
        turnsWithTooMuchFood := 0
        hive := List.replicate g.map.players 0
        map := (parseMap g.mapContents g.uuidSupply g.nextId).1
        nextId := (parseMap g.mapContents g.uuidSupply g.nextId).2 } :
          Game).computeInitialScores.spawnFoodAroundHills.spawnAntsAllHills).gameState,
      (({ g with
        turn := 0
        started := true
        finished := false
        finishedReason := none
        turnsWithTooMuchFood := 0
        hive := List.replicate g.map.players 0
        map := (parseMap g.mapContents g.uuidSupply g.nextId).1
        nextId := (parseMap g.mapContents g.uuidSupply g.nextId).2 } :
          Game).computeInitialScores.spawnFoodAroundHills.spawnAntsAllHills)) := rfl

/-- C6 (amended): `start()` is idempotent up to randomness that is NOT reset
(the seeded RNG position advances across starts, so food placement may
differ, and ant UUIDs are freshly drawn, so ids always differ).  Two
consecutive `start()` calls produce observations that agree on the turn
counter, the scores, the finished flag and reason, and the id-free ants
(player, position, aliveness) grouped by player. -/
theorem c6_start_spec (g : Game) :
    ((g.start.2).start.1).turn = (g.start.1).turn ∧
    ((g.start.2).start.1).scores = (g.start.1).scores ∧
    ((g.start.2).start.1).finished = (g.start.1).finished ∧
    ((g.start.2).start.1).finishedReason = (g.start.1).finishedReason ∧
    ((g.start.2).start.1).antCores = (g.start.1).antCores := by
  rw [start_unfold g]
  dsimp only
  rw [start_unfold]
  dsimp only
  refine pipe_obs _ _ ?hw ?hp ?hv ?hsc rfl rfl rfl
  case hw =>
    dsimp only
    refine width_of_eraseIds_eq ?_
    rw [pipe_mapContents]
    dsimp only
    exact parseMap_erase g.mapContents _ _ _ _
  case hp =>
    dsimp only
    refine (parse_facts ?_).2.1
    rw [pipe_mapContents]
    dsimp only
    exact parseMap_erase g.mapContents _ _ _ _
  case hv =>
    dsimp only
    refine (parse_facts ?_).2.2
    rw [pipe_mapContents]
    dsimp only
    exact parseMap_erase g.mapContents _ _ _ _
  case hsc =>
    dsimp only
    exact pipe_scores _

/-! ## C9: relabeling commutes with every phase -/

@[simp] theorem mapIds_width (ρ : Nat → Nat) (m : GameMap) :
    (m.mapIds ρ).width = m.width := rfl

@[simp] theorem mapIds_height (ρ : Nat → Nat) (m : GameMap) :
    (m.mapIds ρ).height = m.height := rfl

@[simp] theorem mapIds_players (ρ : Nat → Nat) (m : GameMap) :
    (m.mapIds ρ).players = m.players := rfl

theorem name_mapEntIds (ρ : Nat → Nat) (e : Entity) :
    (mapEntIds ρ e).name = e.name := by cases e <;> rfl

theorem player_mapEntIds (ρ : Nat → Nat) (e : Entity) :
    (mapEntIds ρ e).player = e.player := by cases e <;> rfl

theorem aliveFlag_mapEntIds (ρ : Nat → Nat) (e : Entity) :
    (mapEntIds ρ e).aliveFlag = e.aliveFlag := by cases e <;> rfl

theorem onAntHill_mapEntIds (ρ : Nat → Nat) (e : Entity) :
    (mapEntIds ρ e).onAntHill = e.onAntHill := by cases e <;> rfl

theorem setAlive_mapEntIds (ρ : Nat → Nat) (e : Entity) (b : Bool) :
    mapEntIds ρ (e.setAlive b) = (mapEntIds ρ e).setAlive b := by cases e <;> rfl

theorem setOnAntHill_mapEntIds (ρ : Nat → Nat) (e : Entity) (h : Nat × Bool) :
    mapEntIds ρ (e.setOnAntHill h) = (mapEntIds ρ e).setOnAntHill h := by cases e <;> rfl

theorem get_mapIds (ρ : Nat → Nat) (m : GameMap) (r c : Nat) :
    (m.mapIds ρ).get r c = (m.get r c).map (mapEntIds ρ) := by
  show (m.grid.map (Option.map (mapEntIds ρ))).getD (r * m.width + c) none =
    (m.grid.getD (r * m.width + c) none).map (mapEntIds ρ)
  rw [List.getD_eq_getElem?_getD, List.getD_eq_getElem?_getD, List.getElem?_map]
  cases m.grid[r * m.width + c]? <;> rfl

theorem set_mapIds (ρ : Nat → Nat) (m : GameMap) (r c : Nat) (e : Entity) :
    (m.set r c e).mapIds ρ = (m.mapIds ρ).set r c (mapEntIds ρ e) := by
  unfold GameMap.mapIds GameMap.set
  simp [List.map_set]

theorem remove_mapIds (ρ : Nat → Nat) (m : GameMap) (r c : Nat) :
    (m.remove r c).mapIds ρ = (m.mapIds ρ).remove r c := by
  unfold GameMap.mapIds GameMap.remove
  simp [List.map_set]

theorem modifyCell_mapIds (ρ : Nat → Nat) (m : GameMap) (r c : Nat)
    (f f' : Entity → Entity) (hff : ∀ e, mapEntIds ρ (f e) = f' (mapEntIds ρ e)) :
    (m.modifyCell r c f).mapIds ρ = (m.mapIds ρ).modifyCell r c f' := by
  unfold GameMap.mapIds GameMap.modifyCell
  simp only [List.map_set]
  have hval : Option.map (mapEntIds ρ) ((m.grid.getD (r * m.width + c) none).map f) =
      ((m.grid.map (Option.map (mapEntIds ρ))).getD (r * m.width + c) none).map f' := by
    rw [List.getD_eq_getElem?_getD, List.getD_eq_getElem?_getD, List.getElem?_map]
    cases h : m.grid[r * m.width + c]? with
    | none => rfl
    | some cell =>
      cases cell with
      | none => rfl
      | some e =>
        show some (mapEntIds ρ (f e)) = some (f' (mapEntIds ρ e))
        rw [hff e]
  rw [hval]

theorem filterMap_enumFrom_map {α β γ δ : Type} (f : α → β)
    (F : Nat × β → Option γ) (G : Nat × α → Option δ) (L : δ → γ)
    (hpt : ∀ i a, F (i, f a) = (G (i, a)).map L) :
    ∀ (l : List α) (n : Nat),
      (List.enumFrom n (l.map f)).filterMap F = ((List.enumFrom n l).filterMap G).map L := by
  intro l
  induction l with
  | nil => intro n; rfl
  | cons x xs ih =>
    intro n
    rw [List.map_cons, List.enumFrom_cons, List.enumFrom_cons, List.filterMap_cons,
      List.filterMap_cons, hpt n x, ih (n + 1)]
    cases hG : G (n, x) with
    | none => rfl
    | some d => rfl

theorem allEnt_mapIds (ρ : Nat → Nat) (m : GameMap) (filt : Entity → Bool)
    (hf : ∀ e, filt (mapEntIds ρ e) = filt e) :
    (m.mapIds ρ).allEnt filt = (m.allEnt filt).map (liftEnt ρ) := by
  have hpt : ∀ (i : Nat) (c : Option Entity),
      (fun (x : Nat × Option Entity) => match x.2 with
        | some e => if filt e then some (e, x.1 / m.width, x.1 % m.width) else none
        | none => none) (i, Option.map (mapEntIds ρ) c) =
      ((fun (x : Nat × Option Entity) => match x.2 with
        | some e => if filt e then some (e, x.1 / m.width, x.1 % m.width) else none
        | none => none) (i, c)).map (liftEnt ρ) := by
    intro i c
    cases c with
    | none => rfl
    | some e =>
      show (if filt (mapEntIds ρ e) then
          some (mapEntIds ρ e, i / m.width, i % m.width) else none) =
        (if filt e then some (e, i / m.width, i % m.width) else none).map (liftEnt ρ)
      rw [hf e]
      cases hb : filt e
      · simp
      · simp [liftEnt]
  exact filterMap_enumFrom_map (Option.map (mapEntIds ρ))
    (fun (x : Nat × Option Entity) => match x.2 with
      | some e => if filt e then some (e, x.1 / m.width, x.1 % m.width) else none
      | none => none)
    (fun (x : Nat × Option Entity) => match x.2 with
      | some e => if filt e then some (e, x.1 / m.width, x.1 % m.width) else none
      | none => none)
    (liftEnt ρ) hpt m.grid 0

theorem mem_allEnt_filter (m : GameMap) (filt : Entity → Bool)
    (x : Entity × Nat × Nat) (h : x ∈ m.allEnt filt) : filt x.1 = true := by
  unfold GameMap.allEnt at h
  rw [List.mem_filterMap] at h
  obtain ⟨a, ha, hfa⟩ := h
  obtain ⟨i, c⟩ := a
  cases c with
  | none => simp at hfa
  | some e =>
    dsimp only at hfa
    split at hfa
    · rename_i hb
      rw [Option.some_inj] at hfa
      rw [← hfa]
      exact hb
    · exact absurd hfa (by simp)

theorem ants_mapIds (ρ : Nat → Nat) (m : GameMap) :
    (m.mapIds ρ).ants = m.ants.map (liftEnt ρ) := by
  unfold GameMap.ants
  exact allEnt_mapIds ρ m _ (fun e => by rw [name_mapEntIds])

theorem mem_ants_shape (m : GameMap) (x : Entity × Nat × Nat) (h : x ∈ m.ants) :
    ∃ i p al hh, x.1 = .ant i p al hh := by
  have hn := mem_allEnt_filter m _ x h
  rw [beq_iff_eq] at hn
  cases hx : x.1 with
  | ant i p al hh => exact ⟨i, p, al, hh, rfl⟩
  | hill p a => rw [hx] at hn; exact absurd hn (by simp [Entity.name])
  | food => rw [hx] at hn; exact absurd hn (by simp [Entity.name])
  | water => rw [hx] at hn; exact absurd hn (by simp [Entity.name])

theorem liveAnts_mapIds (ρ : Nat → Nat) (m : GameMap) :
    liveAnts (m.mapIds ρ) = (liveAnts m).map (liftEnt ρ) := by
  unfold liveAnts
  rw [ants_mapIds, List.filter_map]
  have hq : ((fun x : Entity × Nat × Nat => x.1.aliveFlag == some true) ∘ liftEnt ρ) =
      (fun x : Entity × Nat × Nat => x.1.aliveFlag == some true) := by
    funext x
    show ((mapEntIds ρ x.1).aliveFlag == some true) = _
    rw [aliveFlag_mapEntIds]
  rw [hq]

theorem mem_liveAnts_shape (m : GameMap) (x : Entity × Nat × Nat) (h : x ∈ liveAnts m) :
    ∃ i p hh, x.1 = .ant i p true hh := by
  unfold liveAnts at h
  rw [List.mem_filter] at h
  obtain ⟨i, p, al, hh, hx⟩ := mem_ants_shape m x h.1
  have halive := h.2
  rw [hx] at halive ⊢
  simp only [Entity.aliveFlag, beq_iff_eq, Option.some_inj] at halive
  rw [halive]
  exact ⟨i, p, hh, rfl⟩

theorem antHills_mapIds (ρ : Nat → Nat) (m : GameMap) :
    (m.mapIds ρ).antHills = m.antHills := by
  unfold GameMap.antHills
  rw [allEnt_mapIds ρ m _ (fun e => by rw [name_mapEntIds])]
  have hid : ∀ x ∈ m.allEnt (fun e => e.name == "Hill"), liftEnt ρ x = x := by
    intro x hx
    have hn := mem_allEnt_filter m _ x hx
    rw [beq_iff_eq] at hn
    obtain ⟨e, r, c⟩ := x
    cases e with
    | ant i p al hh => exact absurd hn (by simp [Entity.name])
    | hill p a => rfl
    | food => exact absurd hn (by simp [Entity.name])
    | water => exact absurd hn (by simp [Entity.name])
  rw [List.map_congr_left hid]
  simp

theorem food_mapIds (ρ : Nat → Nat) (m : GameMap) :
    (m.mapIds ρ).food = m.food := by
  unfold GameMap.food
  rw [allEnt_mapIds ρ m _ (fun e => by rw [name_mapEntIds]), List.map_map]
  rfl

theorem land_mapIds (ρ : Nat → Nat) (m : GameMap) :
    (m.mapIds ρ).land = m.land := by
  have hpt : ∀ (i : Nat) (c : Option Entity),
      (fun (x : Nat × Option Entity) => match x.2 with
        | none => some (x.1 / m.width, x.1 % m.width)
        | some _ => none) (i, Option.map (mapEntIds ρ) c) =
      ((fun (x : Nat × Option Entity) => match x.2 with
        | none => some (x.1 / m.width, x.1 % m.width)
        | some _ => none) (i, c)).map (fun y => y) := by
    intro i c
    cases c <;> rfl
  have h := filterMap_enumFrom_map (Option.map (mapEntIds ρ))
    (fun (x : Nat × Option Entity) => match x.2 with
      | none => some (x.1 / m.width, x.1 % m.width)
      | some _ => none)
    (fun (x : Nat × Option Entity) => match x.2 with
      | none => some (x.1 / m.width, x.1 % m.width)
      | some _ => none)
    (fun y => y) hpt m.grid 0
  unfold GameMap.land
  refine h.trans ?_
  show List.map (fun y => y) (List.filterMap _ (List.enumFrom 0 m.grid)) = _
  rw [show (List.map (fun (y : Nat × Nat) => y)) = List.map id from rfl, List.map_id]
  rfl

theorem fovCell_mapIds (ρ : Nat → Nat) (m : GameMap) (row col radius2 i j : Nat) :
    (m.mapIds ρ).fovCell row col radius2 i j =
      (m.fovCell row col radius2 i j).map (liftEnt ρ) := by
  unfold GameMap.fovCell
  rw [get_mapIds]
  split
  · cases hg : m.get i j with
    | none => rfl
    | some e =>
      show (match (mapEntIds ρ e).onAntHill with
          | some (hp, ha) => [(Entity.hill hp ha, i, j)]
          | none => []) ++
          (if i == row && j == col then [] else [(mapEntIds ρ e, i, j)]) = _
      rw [onAntHill_mapEntIds, List.map_append]
      congr 1
      · cases e.onAntHill with
        | none => rfl
        | some hv => obtain ⟨hp, ha⟩ := hv; rfl
      · cases hc : (i == row && j == col) <;> rfl
  · rfl

theorem fieldOfVision_mapIds (ρ : Nat → Nat) (m : GameMap) (center : Nat × Nat)
    (radius2 : Nat) :
    (m.mapIds ρ).fieldOfVision center radius2 =
      (m.fieldOfVision center radius2).map (liftEnt ρ) := by
  unfold GameMap.fieldOfVision
  show (List.range' (center.1 - GameMap.natSqrt radius2)
      (Nat.min (center.1 + GameMap.natSqrt radius2) (m.height - 1) + 1 -
        (center.1 - GameMap.natSqrt radius2))).flatMap
      (fun i => (List.range' (center.2 - GameMap.natSqrt radius2)
        (Nat.min (center.2 + GameMap.natSqrt radius2) (m.width - 1) + 1 -
          (center.2 - GameMap.natSqrt radius2))).flatMap
        (fun j => (m.mapIds ρ).fovCell center.1 center.2 radius2 i j)) = _
  rw [List.map_flatMap]
  apply congrArg
  funext i
  rw [List.map_flatMap]
  apply congrArg
  funext j
  exact fovCell_mapIds ρ m center.1 center.2 radius2 i j

theorem enemiesOf_map (ρ : Nat → Nat) (fov : List (Entity × Nat × Nat)) (p : Nat) :
    enemiesOf (fov.map (liftEnt ρ)) p = (enemiesOf fov p).map (liftEnt ρ) := by
  unfold enemiesOf
  rw [List.filter_map]
  have hq : ((fun x : Entity × Nat × Nat =>
      x.1.name == "Ant" && x.1.player.isSome && x.1.player != some p) ∘ liftEnt ρ) =
      (fun x : Entity × Nat × Nat =>
        x.1.name == "Ant" && x.1.player.isSome && x.1.player != some p) := by
    funext x
    show ((mapEntIds ρ x.1).name == "Ant" && (mapEntIds ρ x.1).player.isSome &&
      (mapEntIds ρ x.1).player != some p) = _
    rw [name_mapEntIds, player_mapEntIds]
  rw [hq]

theorem antsAroundFood_mapIds (ρ : Nat → Nat) (m : GameMap) (pos : Nat × Nat)
    (radius2 : Nat) :
    antsAroundFood (m.mapIds ρ) pos radius2 = antsAroundFood m pos radius2 := by
  unfold antsAroundFood
  rw [fieldOfVision_mapIds, List.filterMap_map]
  have hq : ((fun x : Entity × Nat × Nat =>
      if x.1.name == "Ant" then some (x.2.1, x.2.2, x.1.player.getD 0) else none) ∘
        liftEnt ρ) =
      (fun x : Entity × Nat × Nat =>
        if x.1.name == "Ant" then some (x.2.1, x.2.2, x.1.player.getD 0) else none) := by
    funext x
    show (if (mapEntIds ρ x.1).name == "Ant" then
        some (x.2.1, x.2.2, (mapEntIds ρ x.1).player.getD 0) else none) = _
    rw [name_mapEntIds, player_mapEntIds]
  rw [hq]

theorem isValidMove_mapIds (ρ : Nat → Nat) (m : GameMap) (f t : Nat × Nat) :
    (m.mapIds ρ).isValidMove f t = m.isValidMove f t := by
  unfold GameMap.isValidMove
  simp only [mapIds_height, mapIds_width, get_mapIds]
  cases hsrc : m.get f.1 f.2 with
  | none => rfl
  | some src =>
    cases hdst : m.get t.1 t.2 with
    | none => cases src <;> rfl
    | some dst => cases src <;> cases dst <;> rfl

theorem moveEntity_mapIds (ρ : Nat → Nat) (m : GameMap) (f t : Nat × Nat) :
    (m.mapIds ρ).moveEntity f t =
      ((m.moveEntity f t).1, ((m.moveEntity f t).2).mapIds ρ) := by
  have hcol : (match (m.mapIds ρ).get t.1 t.2 with
      | some e => e.name == "Ant" && e.aliveFlag == some true
      | none => false) = (match m.get t.1 t.2 with
      | some e => e.name == "Ant" && e.aliveFlag == some true
      | none => false) := by
    rw [get_mapIds]
    cases m.get t.1 t.2 with
    | none => rfl
    | some e =>
      show ((mapEntIds ρ e).name == "Ant" && (mapEntIds ρ e).aliveFlag == some true) = _
      rw [name_mapEntIds, aliveFlag_mapEntIds]
  by_cases hv : m.isValidMove f t
  · by_cases hc : (match m.get t.1 t.2 with
        | some e => e.name == "Ant" && e.aliveFlag == some true
        | none => false) = true
    · have hR : m.moveEntity f t = (true,
          (m.modifyCell f.1 f.2 (·.setAlive false)).modifyCell t.1 t.2
            (·.setAlive false)) := by
        unfold GameMap.moveEntity
        rw [if_neg (by simp [hv])]
        dsimp only
        rw [if_pos hc]
      have hL : (m.mapIds ρ).moveEntity f t = (true,
          ((m.mapIds ρ).modifyCell f.1 f.2 (·.setAlive false)).modifyCell t.1 t.2
            (·.setAlive false)) := by
        unfold GameMap.moveEntity
        rw [isValidMove_mapIds, if_neg (by simp [hv])]
        dsimp only
        rw [hcol, if_pos hc]
      rw [hL, hR]
      show (true, _) = (true, _)
      rw [← modifyCell_mapIds ρ m f.1 f.2 (·.setAlive false) (·.setAlive false)
        (fun e => setAlive_mapEntIds ρ e false),
        ← modifyCell_mapIds ρ (m.modifyCell f.1 f.2 (·.setAlive false)) t.1 t.2
        (·.setAlive false) (·.setAlive false) (fun e => setAlive_mapEntIds ρ e false)]
    · have hR : m.moveEntity f t = (match m.get f.1 f.2 with
          | some (.ant i p a _) =>
            (true,
              match (((m.set t.1 t.2 (.ant i p a
                  (match m.get t.1 t.2 with
                    | some (.hill hp ha) => some (hp, ha)
                    | _ => none))).get f.1 f.2).bind Entity.onAntHill) with
              | some (hp, ha) => (m.set t.1 t.2 (.ant i p a
                  (match m.get t.1 t.2 with
                    | some (.hill hp ha) => some (hp, ha)
                    | _ => none))).set f.1 f.2 (.hill hp ha)
              | none => (m.set t.1 t.2 (.ant i p a
                  (match m.get t.1 t.2 with
                    | some (.hill hp ha) => some (hp, ha)
                    | _ => none))).remove f.1 f.2)
          | _ => (false, m)) := by
        unfold GameMap.moveEntity
        rw [if_neg (by simp [hv])]
        dsimp only
        rw [if_neg hc]
      have hLcol : ¬((match (m.mapIds ρ).get t.1 t.2 with
          | some e => e.name == "Ant" && e.aliveFlag == some true
          | none => false) = true) := by
        rw [hcol]
        exact hc
      have hL : (m.mapIds ρ).moveEntity f t = (match (m.mapIds ρ).get f.1 f.2 with
          | some (.ant i p a _) =>
            (true,
              match ((((m.mapIds ρ).set t.1 t.2 (.ant i p a
                  (match (m.mapIds ρ).get t.1 t.2 with
                    | some (.hill hp ha) => some (hp, ha)
                    | _ => none))).get f.1 f.2).bind Entity.onAntHill) with
              | some (hp, ha) => ((m.mapIds ρ).set t.1 t.2 (.ant i p a
                  (match (m.mapIds ρ).get t.1 t.2 with
                    | some (.hill hp ha) => some (hp, ha)
                    | _ => none))).set f.1 f.2 (.hill hp ha)
              | none => ((m.mapIds ρ).set t.1 t.2 (.ant i p a
                  (match (m.mapIds ρ).get t.1 t.2 with
                    | some (.hill hp ha) => some (hp, ha)
                    | _ => none))).remove f.1 f.2)
          | _ => (false, m.mapIds ρ)) := by
        unfold GameMap.moveEntity
        rw [isValidMove_mapIds, if_neg (by simp [hv])]
        dsimp only
        rw [if_neg hLcol]
      rw [hL, hR]
      have hth : (match (m.mapIds ρ).get t.1 t.2 with
          | some (.hill hp ha) => some (hp, ha)
          | _ => none) = (match m.get t.1 t.2 with
          | some (.hill hp ha) => some (hp, ha)
          | _ => none) := by
        rw [get_mapIds]
        cases m.get t.1 t.2 with
        | none => rfl
        | some e => cases e <;> rfl
      rw [hth, get_mapIds ρ m f.1 f.2]
      cases hsrc : m.get f.1 f.2 with
      | none => rfl
      | some src =>
        cases src with
        | hill p a => rfl
        | food => rfl
        | water => rfl
        | ant i p a hh =>
          dsimp only [Option.map, mapEntIds]
          have hset : (m.mapIds ρ).set t.1 t.2 (.ant (ρ i) p a
              (match m.get t.1 t.2 with
                | some (.hill hp ha) => some (hp, ha)
                | _ => none)) =
              (m.set t.1 t.2 (.ant i p a
                (match m.get t.1 t.2 with
                  | some (.hill hp ha) => some (hp, ha)
                  | _ => none))).mapIds ρ := by
            rw [set_mapIds]
            rfl
          rw [hset, get_mapIds]
          cases hb : (m.set t.1 t.2 (.ant i p a
              (match m.get t.1 t.2 with
                | some (.hill hp ha) => some (hp, ha)
                | _ => none))).get f.1 f.2 with
          | none =>
            dsimp only [Option.map, Option.bind, mapEntIds, Entity.onAntHill]
            rw [← remove_mapIds]
          | some e =>
            cases e with
            | ant i2 p2 a2 hh2 =>
              cases hh2 with
              | none =>
                dsimp only [Option.map, Option.bind, mapEntIds, Entity.onAntHill]
                rw [← remove_mapIds]
              | some pr =>
                obtain ⟨hp, ha⟩ := pr
                dsimp only [Option.map, Option.bind, mapEntIds, Entity.onAntHill]
                rw [show (Entity.hill hp ha) = mapEntIds ρ (.hill hp ha) from rfl,
                  ← set_mapIds]
                rfl
            | hill p2 a2 =>
              dsimp only [Option.map, Option.bind, mapEntIds, Entity.onAntHill]
              rw [← remove_mapIds]
            | food =>
              dsimp only [Option.map, Option.bind, mapEntIds, Entity.onAntHill]
              rw [← remove_mapIds]
            | water =>
              dsimp only [Option.map, Option.bind, mapEntIds, Entity.onAntHill]
              rw [← remove_mapIds]
  · have hv' : m.isValidMove f t = false := by
      rw [← Bool.not_eq_true]
      exact hv
    have hR : m.moveEntity f t = (false, m) := by
      unfold GameMap.moveEntity
      rw [if_pos (by simp [hv'])]
    have hL : (m.mapIds ρ).moveEntity f t = (false, m.mapIds ρ) := by
      unfold GameMap.moveEntity
      rw [isValidMove_mapIds, if_pos (by simp [hv'])]
    rw [hL, hR]

theorem moveAntsCore_mapIds (ρ : Nat → Nat) :
    ∀ (actions : List AntAction) (m : GameMap),
      moveAntsCore (m.mapIds ρ) actions = (moveAntsCore m actions).map (GameMap.mapIds ρ) := by
  intro actions
  induction actions with
  | nil => intro m; rfl
  | cons a rest ih =>
    intro m
    unfold moveAntsCore
    rw [List.foldlM_cons, List.foldlM_cons, get_mapIds]
    cases hget : m.get a.row a.col with
    | none => rfl
    | some e =>
      rw [moveEntity_mapIds]
      exact ih ((m.moveEntity (a.row, a.col) (moveTarget a)).2)

theorem razeHillsCore_mapIds (ρ : Nat → Nat) (rp lp : Nat) (m : GameMap)
    (sc : List Nat) :
    razeHillsCore rp lp (m.mapIds ρ) sc =
      ((razeHillsCore rp lp m sc).1.mapIds ρ, (razeHillsCore rp lp m sc).2) := by
  unfold razeHillsCore
  dsimp only
  have htr : (liveAnts (m.mapIds ρ)).filterMap (fun x : Entity × Nat × Nat =>
      match x.1.onAntHill with
      | some (hp, _) =>
        if x.1.player.getD 0 ≠ hp then some (hp, x.1.player.getD 0, x.2.1, x.2.2) else none
      | none => none) = (liveAnts m).filterMap (fun x : Entity × Nat × Nat =>
      match x.1.onAntHill with
      | some (hp, _) =>
        if x.1.player.getD 0 ≠ hp then some (hp, x.1.player.getD 0, x.2.1, x.2.2) else none
      | none => none) := by
    rw [liveAnts_mapIds, List.filterMap_map]
    have hfn : ((fun x : Entity × Nat × Nat =>
        match x.1.onAntHill with
        | some (hp, _) =>
          if x.1.player.getD 0 ≠ hp then some (hp, x.1.player.getD 0, x.2.1, x.2.2)
          else none
        | none => none) ∘ liftEnt ρ) = (fun x : Entity × Nat × Nat =>
        match x.1.onAntHill with
        | some (hp, _) =>
          if x.1.player.getD 0 ≠ hp then some (hp, x.1.player.getD 0, x.2.1, x.2.2)
          else none
        | none => none) := by
      funext x
      show (match (mapEntIds ρ x.1).onAntHill with
        | some (hp, _) =>
          if (mapEntIds ρ x.1).player.getD 0 ≠ hp then
            some (hp, (mapEntIds ρ x.1).player.getD 0, x.2.1, x.2.2)
          else none
        | none => none) = _
      rw [onAntHill_mapEntIds, player_mapEntIds]
    rw [hfn]
  rw [htr]
  have hgen : ∀ (L : List (Nat × Nat × Nat × Nat)) (mm : GameMap) (s : List Nat),
      L.foldl (fun acc y =>
        let scores1 := acc.2.set y.2.1 (acc.2.getD y.2.1 0 + rp)
        let scores2 := scores1.set y.1 (wsub (scores1.getD y.1 0) lp)
        (acc.1.modifyCell y.2.2.1 y.2.2.2 (·.setOnAntHill (y.1, false)), scores2))
        (mm.mapIds ρ, s) =
      ((L.foldl (fun acc y =>
        let scores1 := acc.2.set y.2.1 (acc.2.getD y.2.1 0 + rp)
        let scores2 := scores1.set y.1 (wsub (scores1.getD y.1 0) lp)
        (acc.1.modifyCell y.2.2.1 y.2.2.2 (·.setOnAntHill (y.1, false)), scores2))
        (mm, s)).1.mapIds ρ,
      (L.foldl (fun acc y =>
        let scores1 := acc.2.set y.2.1 (acc.2.getD y.2.1 0 + rp)
        let scores2 := scores1.set y.1 (wsub (scores1.getD y.1 0) lp)
        (acc.1.modifyCell y.2.2.1 y.2.2.2 (·.setOnAntHill (y.1, false)), scores2))
        (mm, s)).2) := by
    intro L
    induction L with
    | nil => intro mm s; rfl
    | cons y ys ih =>
      intro mm s
      rw [List.foldl_cons, List.foldl_cons]
      dsimp only
      rw [← modifyCell_mapIds ρ mm y.2.2.1 y.2.2.2 (·.setOnAntHill (y.1, false))
        (·.setOnAntHill (y.1, false)) (fun e => setOnAntHill_mapEntIds ρ e (y.1, false))]
      exact ih (mm.modifyCell y.2.2.1 y.2.2.2 (·.setOnAntHill (y.1, false))) _
  exact hgen _ m sc

theorem harvestOne_mapIds (ρ : Nat → Nat) (r2 : Nat) (m : GameMap)
    (hive : List Nat) (harvested : List (Nat × Nat)) (pos : Nat × Nat) :
    harvestOne r2 (m.mapIds ρ, hive, harvested) pos =
      ((harvestOne r2 (m, hive, harvested) pos).1.mapIds ρ,
        (harvestOne r2 (m, hive, harvested) pos).2) := by
  unfold harvestOne
  dsimp only
  rw [antsAroundFood_mapIds]
  cases he : (antsAroundFood m pos r2).isEmpty with
  | true => rfl
  | false =>
    cases hup : (((antsAroundFood m pos r2).map fun x => x.2.2).dedup.length == 1) with
    | true =>
      cases hfind : (antsAroundFood m pos r2).find?
          (fun x => !harvested.contains (x.1, x.2.1)) with
      | none => rfl
      | some a =>
        show ((m.mapIds ρ).remove pos.1 pos.2, _, _) = _
        rw [← remove_mapIds]
        rfl
    | false =>
      show ((m.mapIds ρ).remove pos.1 pos.2, _, _) = _
      rw [← remove_mapIds]
      rfl

theorem harvestFoodCore_mapIds (ρ : Nat → Nat) (r2 : Nat) (m : GameMap)
    (hive : List Nat) :
    harvestFoodCore r2 (m.mapIds ρ) hive =
      ((harvestFoodCore r2 m hive).1.mapIds ρ, (harvestFoodCore r2 m hive).2) := by
  unfold harvestFoodCore
  rw [food_mapIds]
  have hgen : ∀ (L : List (Nat × Nat)) (mm : GameMap) (hv : List Nat)
      (hr : List (Nat × Nat)),
      L.foldl (harvestOne r2) (mm.mapIds ρ, hv, hr) =
      ((L.foldl (harvestOne r2) (mm, hv, hr)).1.mapIds ρ,
        (L.foldl (harvestOne r2) (mm, hv, hr)).2) := by
    intro L
    induction L with
    | nil => intro mm hv hr; rfl
    | cons pos ps ih =>
      intro mm hv hr
      rw [List.foldl_cons, List.foldl_cons, harvestOne_mapIds]
      have := ih (harvestOne r2 (mm, hv, hr) pos).1
        (harvestOne r2 (mm, hv, hr) pos).2.1 (harvestOne r2 (mm, hv, hr) pos).2.2
      exact this
  exact hgen m.food m hive []

theorem mapM_opt_map {α β γ : Type} (f : α → β) (g : β → Option γ) :
    ∀ (l : List α), (l.map f).mapM g = l.mapM (fun a => g (f a)) := by
  intro l
  induction l with
  | nil => rfl
  | cons x xs ih => rw [List.map_cons, List.mapM_cons, List.mapM_cons, ih]

theorem mapM_opt_congr {α β : Type} (g1 g2 : α → Option β) :
    ∀ (l : List α), (∀ a ∈ l, g1 a = g2 a) → l.mapM g1 = l.mapM g2 := by
  intro l
  induction l with
  | nil => intro h; rfl
  | cons x xs ih =>
    intro h
    rw [List.mapM_cons, List.mapM_cons, h x (List.mem_cons_self x xs),
      ih (fun a ha => h a (List.mem_cons_of_mem x ha))]

theorem foldlM_opt_congr {α β : Type} (g1 g2 : β → α → Option β) :
    ∀ (l : List α), (∀ b a, a ∈ l → g1 b a = g2 b a) →
      ∀ (init : β), l.foldlM g1 init = l.foldlM g2 init := by
  intro l
  induction l with
  | nil => intro h init; rfl
  | cons x xs ih =>
    intro h init
    rw [List.foldlM_cons, List.foldlM_cons, h init x (List.mem_cons_self x xs)]
    cases g2 init x with
    | none => rfl
    | some b => exact ih (fun b a ha => h b a (List.mem_cons_of_mem x ha)) b

theorem lookupId_map {A B : Type} (ρ : Nat → Nat) (hρ : Function.Injective ρ)
    (h : A → B) (k : Nat) :
    ∀ (l : List (Nat × A)),
      lookupId (ρ k) (l.map (fun kv => (ρ kv.1, h kv.2))) = (lookupId k l).map h := by
  intro l
  induction l with
  | nil => rfl
  | cons kv rest ih =>
    obtain ⟨k', v⟩ := kv
    rw [List.map_cons]
    show (if ρ k == ρ k' then some (h v) else
      lookupId (ρ k) (rest.map (fun kv => (ρ kv.1, h kv.2)))) = _
    have hbeq : (ρ k == ρ k') = (k == k') := by
      by_cases hkk : k = k'
      · simp [hkk]
      · have hne : ρ k ≠ ρ k' := fun hc => hkk (hρ hc)
        simp [hkk, hne]
    rw [hbeq, ih]
    show _ = (if k == k' then some v else lookupId k rest).map h
    by_cases hkk : (k == k') = true
    · rw [if_pos hkk, if_pos hkk]
      rfl
    · rw [if_neg hkk, if_neg hkk]

theorem lookupId_mem {A : Type} (k : Nat) :
    ∀ (l : List (Nat × A)) (v : A), lookupId k l = some v → ∃ kv ∈ l, kv.2 = v := by
  intro l
  induction l with
  | nil => intro v h; exact absurd h (by simp [lookupId])
  | cons kv rest ih =>
    intro v h
    obtain ⟨k', w⟩ := kv
    rw [show lookupId k ((k', w) :: rest) =
      (if k == k' then some w else lookupId k rest) from rfl] at h
    by_cases hkk : (k == k') = true
    · rw [if_pos hkk, Option.some_inj] at h
      exact ⟨(k', w), List.mem_cons_self _ _, h⟩
    · rw [if_neg hkk] at h
      obtain ⟨kv2, hmem, hv⟩ := ih v h
      exact ⟨kv2, List.mem_cons_of_mem _ hmem, hv⟩

theorem mem_enemiesOf_shape (fov : List (Entity × Nat × Nat)) (p : Nat)
    (x : Entity × Nat × Nat) (h : x ∈ enemiesOf fov p) :
    ∃ i q al hh, x.1 = .ant i q al hh := by
  unfold enemiesOf at h
  rw [List.mem_filter] at h
  have hname : (x.1.name == "Ant") = true := by
    have h2 := h.2
    rw [Bool.and_eq_true, Bool.and_eq_true] at h2
    exact h2.1.1
  rw [beq_iff_eq] at hname
  cases hx : x.1 with
  | ant i q al hh => exact ⟨i, q, al, hh, rfl⟩
  | hill q a => rw [hx] at hname; exact absurd hname (by simp [Entity.name])
  | food => rw [hx] at hname; exact absurd hname (by simp [Entity.name])
  | water => rw [hx] at hname; exact absurd hname (by simp [Entity.name])

theorem foldl_modify_mapIds (ρ : Nat → Nat) :
    ∀ (L : List (Nat × Nat)) (m : GameMap),
      L.foldl (fun mm rc => mm.modifyCell rc.1 rc.2 (·.setAlive false)) (m.mapIds ρ) =
      (L.foldl (fun mm rc => mm.modifyCell rc.1 rc.2 (·.setAlive false)) m).mapIds ρ := by
  intro L
  induction L with
  | nil => intro m; rfl
  | cons rc rest ih =>
    intro m
    rw [List.foldl_cons, List.foldl_cons,
      ← modifyCell_mapIds ρ m rc.1 rc.2 (·.setAlive false) (·.setAlive false)
        (fun e => setAlive_mapEntIds ρ e false)]
    exact ih (m.modifyCell rc.1 rc.2 (·.setAlive false))

theorem lookup_emap_shape (m : GameMap) (r2 k : Nat) (aEn : List (Entity × Nat × Nat))
    (h : lookupId k ((liveAnts m).map fun y => (y.1.entityId,
      enemiesOf (m.fieldOfVision (y.2.1, y.2.2) r2) (y.1.player.getD 0))) = some aEn) :
    ∀ en ∈ aEn, ∃ i q al hh, en.1 = Entity.ant i q al hh := by
  obtain ⟨kv, hkvmem, hkv2⟩ := lookupId_mem k _ aEn h
  rw [List.mem_map] at hkvmem
  obtain ⟨y, hy, hkv⟩ := hkvmem
  intro en hen
  have haEn : aEn = enemiesOf (m.fieldOfVision (y.2.1, y.2.2) r2) (y.1.player.getD 0) := by
    rw [← hkv2, ← hkv]
  rw [haEn] at hen
  exact mem_enemiesOf_shape _ _ en hen

theorem attackCore_mapIds (ρ : Nat → Nat) (hρ : Function.Injective ρ)
    (m : GameMap) (r2 : Nat) :
    attackCore (m.mapIds ρ) r2 = (attackCore m r2).map (GameMap.mapIds ρ) := by
  show (((liveAnts (m.mapIds ρ)).foldlM
      (fun (acc : List (Nat × Nat)) (x : Entity × Nat × Nat) => do
        let aEnemies ← lookupId x.1.entityId ((liveAnts (m.mapIds ρ)).map fun (y : Entity × Nat × Nat) =>
          (y.1.entityId, enemiesOf ((m.mapIds ρ).fieldOfVision (y.2.1, y.2.2) r2)
            (y.1.player.getD 0)))
        let focus := aEnemies.length
        if focus == 0 then pure acc
        else do
          let focuses ← aEnemies.mapM fun (en : Entity × Nat × Nat) => do
            let l ← lookupId en.1.entityId ((liveAnts (m.mapIds ρ)).map fun (y : Entity × Nat × Nat) =>
              (y.1.entityId, enemiesOf ((m.mapIds ρ).fieldOfVision (y.2.1, y.2.2) r2)
                (y.1.player.getD 0)))
            pure l.length
          let minFocus ← focuses.min?
          if focus ≥ minFocus then pure (acc ++ [(x.2.1, x.2.2)]) else pure acc)
      ([] : List (Nat × Nat))).bind fun toKill =>
        pure (toKill.foldl (fun (mm : GameMap) (rc : Nat × Nat) => mm.modifyCell rc.1 rc.2 (·.setAlive false))
          (m.mapIds ρ))) =
    Option.map (GameMap.mapIds ρ)
      (((liveAnts m).foldlM
        (fun (acc : List (Nat × Nat)) (x : Entity × Nat × Nat) => do
          let aEnemies ← lookupId x.1.entityId ((liveAnts m).map fun (y : Entity × Nat × Nat) =>
            (y.1.entityId, enemiesOf (m.fieldOfVision (y.2.1, y.2.2) r2)
              (y.1.player.getD 0)))
          let focus := aEnemies.length
          if focus == 0 then pure acc
          else do
            let focuses ← aEnemies.mapM fun (en : Entity × Nat × Nat) => do
              let l ← lookupId en.1.entityId ((liveAnts m).map fun (y : Entity × Nat × Nat) =>
                (y.1.entityId, enemiesOf (m.fieldOfVision (y.2.1, y.2.2) r2)
                  (y.1.player.getD 0)))
              pure l.length
            let minFocus ← focuses.min?
            if focus ≥ minFocus then pure (acc ++ [(x.2.1, x.2.2)]) else pure acc)
        ([] : List (Nat × Nat))).bind fun toKill =>
          pure (toKill.foldl (fun (mm : GameMap) (rc : Nat × Nat) => mm.modifyCell rc.1 rc.2 (·.setAlive false)) m))
  rw [liveAnts_mapIds]
  have hemap : ((liveAnts m).map (liftEnt ρ)).map (fun (y : Entity × Nat × Nat) => (y.1.entityId,
      enemiesOf ((m.mapIds ρ).fieldOfVision (y.2.1, y.2.2) r2) (y.1.player.getD 0))) =
      ((liveAnts m).map (fun (y : Entity × Nat × Nat) => (y.1.entityId,
        enemiesOf (m.fieldOfVision (y.2.1, y.2.2) r2) (y.1.player.getD 0)))).map
      (fun kv => (ρ kv.1, List.map (liftEnt ρ) kv.2)) := by
    rw [List.map_map, List.map_map]
    apply List.map_congr_left
    intro x hx
    obtain ⟨i, p, hh, hshape⟩ := mem_liveAnts_shape m x hx
    show ((liftEnt ρ x).1.entityId, enemiesOf ((m.mapIds ρ).fieldOfVision
      ((liftEnt ρ x).2.1, (liftEnt ρ x).2.2) r2) ((liftEnt ρ x).1.player.getD 0)) = _
    rw [fieldOfVision_mapIds]
    show ((mapEntIds ρ x.1).entityId, enemiesOf ((m.fieldOfVision (x.2.1, x.2.2) r2).map
      (liftEnt ρ)) ((mapEntIds ρ x.1).player.getD 0)) = _
    rw [enemiesOf_map, player_mapEntIds]
    show _ = (ρ x.1.entityId, List.map (liftEnt ρ)
      (enemiesOf (m.fieldOfVision (x.2.1, x.2.2) r2) (x.1.player.getD 0)))
    rw [hshape]
    rfl
  rw [hemap, List.foldlM_map]
  have hfin : ∀ (o : Option (List (Nat × Nat))),
      (o.bind fun toKill =>
        pure (toKill.foldl (fun (mm : GameMap) (rc : Nat × Nat) => mm.modifyCell rc.1 rc.2 (·.setAlive false))
          (m.mapIds ρ))) =
      Option.map (GameMap.mapIds ρ)
        (o.bind fun toKill =>
          pure (toKill.foldl (fun (mm : GameMap) (rc : Nat × Nat) => mm.modifyCell rc.1 rc.2 (·.setAlive false)) m)) := by
    intro o
    cases o with
    | none => rfl
    | some tk =>
      show some (tk.foldl (fun (mm : GameMap) (rc : Nat × Nat) => mm.modifyCell rc.1 rc.2 (·.setAlive false))
        (m.mapIds ρ)) = some ((tk.foldl (fun mm rc =>
          mm.modifyCell rc.1 rc.2 (·.setAlive false)) m).mapIds ρ)
      rw [foldl_modify_mapIds]
  refine Eq.trans (congrArg (fun z : Option (List (Nat × Nat)) => z.bind fun toKill =>
    pure (toKill.foldl (fun (mm : GameMap) (rc : Nat × Nat) => mm.modifyCell rc.1 rc.2 (·.setAlive false))
      (m.mapIds ρ))) ?_) (hfin _)
  apply foldlM_opt_congr
  intro acc x hx
  obtain ⟨i, p, hh, hshape⟩ := mem_liveAnts_shape m x hx
  have hid : (liftEnt ρ x).1.entityId = ρ x.1.entityId := by
    rw [show (liftEnt ρ x).1 = mapEntIds ρ x.1 from rfl, hshape]
    rfl
  rw [hid, lookupId_map ρ hρ (List.map (liftEnt ρ)) x.1.entityId]
  cases hlk : lookupId x.1.entityId ((liveAnts m).map fun (y : Entity × Nat × Nat) => (y.1.entityId,
      enemiesOf (m.fieldOfVision (y.2.1, y.2.2) r2) (y.1.player.getD 0))) with
  | none => rfl
  | some aEn =>
    show (do
      let focus := (aEn.map (liftEnt ρ)).length
      if focus == 0 then pure acc
      else do
        let focuses ← (aEn.map (liftEnt ρ)).mapM fun (en : Entity × Nat × Nat) => do
          let l ← lookupId en.1.entityId (((liveAnts m).map (fun (y : Entity × Nat × Nat) => (y.1.entityId,
            enemiesOf (m.fieldOfVision (y.2.1, y.2.2) r2) (y.1.player.getD 0)))).map
              (fun kv => (ρ kv.1, List.map (liftEnt ρ) kv.2)))
          pure l.length
        let minFocus ← focuses.min?
        if focus ≥ minFocus then pure (acc ++ [((liftEnt ρ x).2.1, (liftEnt ρ x).2.2)])
        else pure acc) =
      (do
        let focus := aEn.length
        if focus == 0 then pure acc
        else do
          let focuses ← aEn.mapM fun (en : Entity × Nat × Nat) => do
            let l ← lookupId en.1.entityId ((liveAnts m).map fun (y : Entity × Nat × Nat) => (y.1.entityId,
              enemiesOf (m.fieldOfVision (y.2.1, y.2.2) r2) (y.1.player.getD 0)))
            pure l.length
          let minFocus ← focuses.min?
          if focus ≥ minFocus then pure (acc ++ [(x.2.1, x.2.2)]) else pure acc)
    rw [List.length_map]
    dsimp only
    cases hfz : (aEn.length == 0) with
    | true => rfl
    | false =>
      rw [mapM_opt_map]
      have hshape2 := lookup_emap_shape m r2 x.1.entityId aEn hlk
      have hmapm : aEn.mapM (fun (en : Entity × Nat × Nat) => do
          let l ← lookupId (liftEnt ρ en).1.entityId (((liveAnts m).map
            (fun (y : Entity × Nat × Nat) => (y.1.entityId, enemiesOf (m.fieldOfVision (y.2.1, y.2.2) r2)
              (y.1.player.getD 0)))).map (fun kv => (ρ kv.1, List.map (liftEnt ρ) kv.2)))
          pure l.length) =
        aEn.mapM (fun (en : Entity × Nat × Nat) => do
          let l ← lookupId en.1.entityId ((liveAnts m).map fun (y : Entity × Nat × Nat) => (y.1.entityId,
            enemiesOf (m.fieldOfVision (y.2.1, y.2.2) r2) (y.1.player.getD 0)))
          pure l.length) := by
        apply mapM_opt_congr
        intro en hen
        obtain ⟨i2, q2, al2, hh2, hsh⟩ := hshape2 en hen
        have hid2 : (liftEnt ρ en).1.entityId = ρ en.1.entityId := by
          rw [show (liftEnt ρ en).1 = mapEntIds ρ en.1 from rfl, hsh]
          rfl
        rw [hid2, lookupId_map ρ hρ (List.map (liftEnt ρ)) en.1.entityId]
        cases lookupId en.1.entityId ((liveAnts m).map fun (y : Entity × Nat × Nat) => (y.1.entityId,
            enemiesOf (m.fieldOfVision (y.2.1, y.2.2) r2) (y.1.player.getD 0))) with
        | none => rfl
        | some l =>
          show (pure ((l.map (liftEnt ρ)).length) : Option Nat) = pure l.length
          rw [List.length_map]
      rw [hmapm]
      rfl

@[simp] theorem relabel_map (ρ : Nat → Nat) (g : Game) :
    (Game.relabel ρ g).map = g.map.mapIds ρ := rfl

@[simp] theorem relabel_mapContents (ρ : Nat → Nat) (g : Game) :
    (Game.relabel ρ g).mapContents = g.mapContents := rfl

@[simp] theorem relabel_turn (ρ : Nat → Nat) (g : Game) :
    (Game.relabel ρ g).turn = g.turn := rfl

@[simp] theorem relabel_scores (ρ : Nat → Nat) (g : Game) :
    (Game.relabel ρ g).scores = g.scores := rfl

@[simp] theorem relabel_hive (ρ : Nat → Nat) (g : Game) :
    (Game.relabel ρ g).hive = g.hive := rfl

@[simp] theorem relabel_rng (ρ : Nat → Nat) (g : Game) :
    (Game.relabel ρ g).rng = g.rng := rfl

@[simp] theorem relabel_nextId (ρ : Nat → Nat) (g : Game) :
    (Game.relabel ρ g).nextId = g.nextId := rfl

@[simp] theorem relabel_started (ρ : Nat → Nat) (g : Game) :
    (Game.relabel ρ g).started = g.started := rfl

@[simp] theorem relabel_finished (ρ : Nat → Nat) (g : Game) :
    (Game.relabel ρ g).finished = g.finished := rfl

@[simp] theorem relabel_finishedReason (ρ : Nat → Nat) (g : Game) :
    (Game.relabel ρ g).finishedReason = g.finishedReason := rfl

@[simp] theorem relabel_fovRadius2 (ρ : Nat → Nat) (g : Game) :
    (Game.relabel ρ g).fovRadius2 = g.fovRadius2 := rfl

@[simp] theorem relabel_attackRadius2 (ρ : Nat → Nat) (g : Game) :
    (Game.relabel ρ g).attackRadius2 = g.attackRadius2 := rfl

@[simp] theorem relabel_foodRadius2 (ρ : Nat → Nat) (g : Game) :
    (Game.relabel ρ g).foodRadius2 = g.foodRadius2 := rfl

@[simp] theorem relabel_foodPerTurn (ρ : Nat → Nat) (g : Game) :
    (Game.relabel ρ g).foodPerTurn = g.foodPerTurn := rfl

@[simp] theorem relabel_cutoffThreshold (ρ : Nat → Nat) (g : Game) :
    (Game.relabel ρ g).cutoffThreshold = g.cutoffThreshold := rfl

@[simp] theorem relabel_turnsWithTooMuchFood (ρ : Nat → Nat) (g : Game) :
    (Game.relabel ρ g).turnsWithTooMuchFood = g.turnsWithTooMuchFood := rfl

@[simp] theorem relabel_pointsForRazingHill (ρ : Nat → Nat) (g : Game) :
    (Game.relabel ρ g).pointsForRazingHill = g.pointsForRazingHill := rfl

@[simp] theorem relabel_pointsForLosingHill (ρ : Nat → Nat) (g : Game) :
    (Game.relabel ρ g).pointsForLosingHill = g.pointsForLosingHill := rfl

@[simp] theorem relabel_maxTurns (ρ : Nat → Nat) (g : Game) :
    (Game.relabel ρ g).maxTurns = g.maxTurns := rfl

theorem relabel_liveAntHills (ρ : Nat → Nat) (g : Game) :
    (Game.relabel ρ g).liveAntHills = g.liveAntHills := by
  unfold Game.liveAntHills
  rw [relabel_map, antHills_mapIds]

theorem relabel_liveAntHillsPerPlayer (ρ : Nat → Nat) (g : Game) :
    (Game.relabel ρ g).liveAntHillsPerPlayer = g.liveAntHillsPerPlayer := by
  unfold Game.liveAntHillsPerPlayer
  rw [relabel_liveAntHills, relabel_map, mapIds_players]

theorem relabel_computeInitialScores (ρ : Nat → Nat) (g : Game) :
    (Game.relabel ρ g).computeInitialScores = Game.relabel ρ g.computeInitialScores := by
  unfold Game.computeInitialScores
  rw [relabel_liveAntHillsPerPlayer, relabel_scores]
  rfl

theorem relabel_spawnFood (ρ : Nat → Nat) (g : Game) (locs : List (Nat × Nat)) :
    (Game.relabel ρ g).spawnFood locs = Game.relabel ρ (g.spawnFood locs) := by
  unfold Game.spawnFood
  rw [relabel_map]
  have hfold : ∀ (L : List (Nat × Nat)) (mm : GameMap),
      L.foldl (fun acc rc => acc.set rc.1 rc.2 .food) (mm.mapIds ρ) =
      (L.foldl (fun acc rc => acc.set rc.1 rc.2 .food) mm).mapIds ρ := by
    intro L
    induction L with
    | nil => intro mm; rfl
    | cons rc rest ih =>
      intro mm
      rw [List.foldl_cons, List.foldl_cons, show (Entity.food) = mapEntIds ρ .food from rfl,
        ← set_mapIds]
      exact ih (mm.set rc.1 rc.2 (mapEntIds ρ .food))
  rw [hfold]
  rfl

theorem relabel_landAround (ρ : Nat → Nat) (m : GameMap) (r c : Nat) :
    (m.mapIds ρ).landAround r c = m.landAround r c := by
  unfold GameMap.landAround
  have hsome : ∀ (o : Option Entity), (Option.map (mapEntIds ρ) o).isSome = o.isSome := by
    intro o
    cases o <;> rfl
  simp only [mapIds_height, mapIds_width, get_mapIds, hsome]

theorem relabel_spawnFoodAroundHills (ρ : Nat → Nat) (g : Game) :
    (Game.relabel ρ g).spawnFoodAroundHills =
      Game.relabel ρ g.spawnFoodAroundHills := by
  unfold Game.spawnFoodAroundHills
  rw [relabel_liveAntHills, relabel_map, relabel_rng]
  have hpick : (fun (acc : List (Nat × Nat) × Rng) (hill : Nat × Nat × Nat) =>
      let ch := chooseMultiple ((g.map.mapIds ρ).landAround hill.2.1 hill.2.2) 3 acc.2
      (acc.1 ++ ch.1, ch.2)) = (fun (acc : List (Nat × Nat) × Rng)
        (hill : Nat × Nat × Nat) =>
      let ch := chooseMultiple (g.map.landAround hill.2.1 hill.2.2) 3 acc.2
      (acc.1 ++ ch.1, ch.2)) := by
    funext acc hill
    rw [relabel_landAround]
  rw [hpick]
  exact relabel_spawnFood ρ { g with rng := (g.liveAntHills.foldl
    (fun (acc : List (Nat × Nat) × Rng) (hill : Nat × Nat × Nat) =>
      let ch := chooseMultiple (g.map.landAround hill.2.1 hill.2.2) 3 acc.2
      (acc.1 ++ ch.1, ch.2)) ([], g.rng)).2 } _

theorem relabel_spawnAnts (ρ : Nat → Nat) :
    ∀ (l : List (Nat × Nat × Nat)) (g : Game),
      (Game.relabel ρ g).spawnAnts l = Game.relabel ρ (g.spawnAnts l) := by
  intro l
  induction l with
  | nil => intro g; rfl
  | cons hill rest ih =>
    intro g
    have hstep : (fun (gg : Game) (h : Nat × Nat × Nat) =>
        let m2 := gg.map.set h.2.1 h.2.2
          (.ant (gg.uuidSupply gg.nextId) h.1 true (some (h.1, true)))
        { gg with map := m2, nextId := gg.nextId + 1 }) (Game.relabel ρ g) hill =
        Game.relabel ρ ((fun (gg : Game) (h : Nat × Nat × Nat) =>
        let m2 := gg.map.set h.2.1 h.2.2
          (.ant (gg.uuidSupply gg.nextId) h.1 true (some (h.1, true)))
        { gg with map := m2, nextId := gg.nextId + 1 }) g hill) := by
      show ({ Game.relabel ρ g with
          map := (g.map.mapIds ρ).set hill.2.1 hill.2.2
            (.ant (ρ (g.uuidSupply g.nextId)) hill.1 true (some (hill.1, true)))
          nextId := g.nextId + 1 } : Game) = _
      rw [show (Entity.ant (ρ (g.uuidSupply g.nextId)) hill.1 true (some (hill.1, true))) =
        mapEntIds ρ (.ant (g.uuidSupply g.nextId) hill.1 true (some (hill.1, true))) from rfl,
        ← set_mapIds]
      rfl
    show ((fun (gg : Game) (h : Nat × Nat × Nat) =>
        let m2 := gg.map.set h.2.1 h.2.2
          (.ant (gg.uuidSupply gg.nextId) h.1 true (some (h.1, true)))
        { gg with map := m2, nextId := gg.nextId + 1 }) (Game.relabel ρ g) hill).spawnAnts
        rest = _
    rw [hstep]
    exact ih _

theorem relabel_spawnAntsAllHills (ρ : Nat → Nat) (g : Game) :
    (Game.relabel ρ g).spawnAntsAllHills = Game.relabel ρ g.spawnAntsAllHills := by
  unfold Game.spawnAntsAllHills
  rw [relabel_liveAntHills, relabel_spawnAnts]

theorem relabel_spawnAntsFromHive (ρ : Nat → Nat) (g : Game) :
    (Game.relabel ρ g).spawnAntsFromHive = Game.relabel ρ g.spawnAntsFromHive := by
  unfold Game.spawnAntsFromHive
  rw [relabel_liveAntHillsPerPlayer, relabel_map, mapIds_players]
  have hgen : ∀ (L : List Nat) (a b : Game), a = Game.relabel ρ b →
      L.foldl (fun gg p =>
        let availableFood := gg.hive.getD p 0
        if availableFood == 0 then gg
        else
          let ch := chooseMultiple (g.liveAntHillsPerPlayer.getD p []) availableFood gg.rng
          let hive2 := gg.hive.set p (gg.hive.getD p 0 - ch.1.length)
          let gg2 := { gg with rng := ch.2, hive := hive2 }
          gg2.spawnAnts ch.1) a =
      Game.relabel ρ (L.foldl (fun gg p =>
        let availableFood := gg.hive.getD p 0
        if availableFood == 0 then gg
        else
          let ch := chooseMultiple (g.liveAntHillsPerPlayer.getD p []) availableFood gg.rng
          let hive2 := gg.hive.set p (gg.hive.getD p 0 - ch.1.length)
          let gg2 := { gg with rng := ch.2, hive := hive2 }
          gg2.spawnAnts ch.1) b) := by
    intro L
    induction L with
    | nil => intro a b h; exact h
    | cons p ps ih =>
      intro a b h
      rw [List.foldl_cons, List.foldl_cons]
      refine ih _ _ ?_
      subst h
      show (if (b.hive.getD p 0 == 0) = true then Game.relabel ρ b else _) = _
      by_cases hz : (b.hive.getD p 0 == 0) = true
      · rw [if_pos hz, if_pos hz]
      · rw [if_neg hz, if_neg hz]
        dsimp only
        exact relabel_spawnAnts ρ _ { b with
          rng := (chooseMultiple (g.liveAntHillsPerPlayer.getD p []) (b.hive.getD p 0)
            b.rng).2
          hive := b.hive.set p (b.hive.getD p 0 -
            (chooseMultiple (g.liveAntHillsPerPlayer.getD p []) (b.hive.getD p 0)
              b.rng).1.length) }
  exact hgen (List.range g.map.players) (Game.relabel ρ g) g rfl

theorem relabel_moveAnts (ρ : Nat → Nat) (g : Game) (actions : List AntAction) :
    (Game.relabel ρ g).moveAnts actions =
      (g.moveAnts actions).map (Game.relabel ρ) := by
  unfold Game.moveAnts
  rw [relabel_map, moveAntsCore_mapIds]
  cases moveAntsCore g.map actions with
  | none => rfl
  | some m2 => rfl

theorem relabel_attack (ρ : Nat → Nat) (hρ : Function.Injective ρ) (g : Game) :
    (Game.relabel ρ g).attack = (g.attack).map (Game.relabel ρ) := by
  unfold Game.attack
  rw [relabel_map, relabel_attackRadius2, attackCore_mapIds ρ hρ]
  cases attackCore g.map g.attackRadius2 with
  | none => rfl
  | some m2 => rfl

theorem relabel_razeHills (ρ : Nat → Nat) (g : Game) :
    (Game.relabel ρ g).razeHills = Game.relabel ρ g.razeHills := by
  unfold Game.razeHills
  rw [relabel_map, relabel_scores, relabel_pointsForRazingHill, relabel_pointsForLosingHill,
    razeHillsCore_mapIds]
  rfl

theorem relabel_harvestFood (ρ : Nat → Nat) (g : Game) :
    (Game.relabel ρ g).harvestFood = Game.relabel ρ g.harvestFood := by
  unfold Game.harvestFood
  rw [relabel_map, relabel_hive, relabel_foodRadius2, harvestFoodCore_mapIds]
  rfl

theorem relabel_spawnFoodRandomly (ρ : Nat → Nat) (g : Game) :
    (Game.relabel ρ g).spawnFoodRandomly = Game.relabel ρ g.spawnFoodRandomly := by
  unfold Game.spawnFoodRandomly
  rw [relabel_map, relabel_foodPerTurn, food_mapIds, land_mapIds, relabel_rng]
  by_cases hle : g.foodPerTurn ≤ g.map.food.length
  · rw [if_pos hle, if_pos hle]
  · rw [if_neg hle, if_neg hle]
    dsimp only
    exact relabel_spawnFood ρ { g with
      rng := (chooseMultiple g.map.land (g.foodPerTurn - g.map.food.length) g.rng).2 } _

theorem relabel_removeDeadAnts (ρ : Nat → Nat) (g : Game) :
    (Game.relabel ρ g).removeDeadAnts = Game.relabel ρ g.removeDeadAnts := by
  unfold Game.removeDeadAnts
  rw [relabel_map, ants_mapIds, List.filterMap_map]
  have hfn : ((fun x : Entity × Nat × Nat =>
      if x.1.aliveFlag == some false then some (x.2.1, x.2.2) else none) ∘ liftEnt ρ) =
      (fun x : Entity × Nat × Nat =>
        if x.1.aliveFlag == some false then some (x.2.1, x.2.2) else none) := by
    funext x
    show (if (mapEntIds ρ x.1).aliveFlag == some false then some (x.2.1, x.2.2)
      else none) = _
    rw [aliveFlag_mapEntIds]
  rw [hfn]
  have hfold : ∀ (L : List (Nat × Nat)) (mm : GameMap),
      L.foldl (fun acc rc =>
        match (acc.get rc.1 rc.2).bind Entity.onAntHill with
        | some (hp, ha) => acc.set rc.1 rc.2 (.hill hp ha)
        | none => acc.remove rc.1 rc.2) (mm.mapIds ρ) =
      (L.foldl (fun acc rc =>
        match (acc.get rc.1 rc.2).bind Entity.onAntHill with
        | some (hp, ha) => acc.set rc.1 rc.2 (.hill hp ha)
        | none => acc.remove rc.1 rc.2) mm).mapIds ρ := by
    intro L
    induction L with
    | nil => intro mm; rfl
    | cons rc rest ih =>
      intro mm
      rw [List.foldl_cons, List.foldl_cons]
      have hstep : (match ((mm.mapIds ρ).get rc.1 rc.2).bind Entity.onAntHill with
          | some (hp, ha) => (mm.mapIds ρ).set rc.1 rc.2 (.hill hp ha)
          | none => (mm.mapIds ρ).remove rc.1 rc.2) =
          ((match (mm.get rc.1 rc.2).bind Entity.onAntHill with
          | some (hp, ha) => mm.set rc.1 rc.2 (.hill hp ha)
          | none => mm.remove rc.1 rc.2)).mapIds ρ := by
        rw [get_mapIds]
        cases hg : mm.get rc.1 rc.2 with
        | none =>
          show (mm.mapIds ρ).remove rc.1 rc.2 = _
          rw [← remove_mapIds]
          rfl
        | some e =>
          rw [show (Option.map (mapEntIds ρ) (some e)).bind Entity.onAntHill =
            e.onAntHill from by
              show (mapEntIds ρ e).onAntHill = e.onAntHill
              rw [onAntHill_mapEntIds],
            show (some e).bind Entity.onAntHill = e.onAntHill from rfl]
          show (match e.onAntHill with
            | some (hp, ha) => (mm.mapIds ρ).set rc.1 rc.2 (.hill hp ha)
            | none => (mm.mapIds ρ).remove rc.1 rc.2) =
            ((match e.onAntHill with
            | some (hp, ha) => mm.set rc.1 rc.2 (.hill hp ha)
            | none => mm.remove rc.1 rc.2)).mapIds ρ
          cases he : e.onAntHill with
          | none =>
            dsimp only
            exact (remove_mapIds ρ mm rc.1 rc.2).symm
          | some pr =>
            obtain ⟨hp, ha⟩ := pr
            dsimp only
            exact (set_mapIds ρ mm rc.1 rc.2 (.hill hp ha)).symm
      rw [hstep]
      exact ih _
  refine Eq.trans (congrArg (fun m2 => ({ g with
    map := m2
    uuidSupply := fun n => ρ (g.uuidSupply n) } : Game)) (hfold _ g.map)) ?_
  rfl

theorem relabel_checkForFoodNotBeingGathered (ρ : Nat → Nat) (g : Game) :
    (Game.relabel ρ g).checkForFoodNotBeingGathered =
      Game.relabel ρ g.checkForFoodNotBeingGathered := by
  unfold Game.checkForFoodNotBeingGathered
  rw [relabel_map, food_mapIds, ants_mapIds, List.length_map]
  by_cases hc : g.map.food.length + g.map.ants.length ≠ 0 ∧
      85 * (g.map.food.length + g.map.ants.length) ≤ 100 * g.map.food.length
  · rw [if_pos hc, if_pos hc]
    rfl
  · rw [if_neg hc, if_neg hc]
    rfl

theorem relabel_remainingPlayers (ρ : Nat → Nat) (g : Game) :
    (Game.relabel ρ g).remainingPlayers = g.remainingPlayers := by
  unfold Game.remainingPlayers
  rw [relabel_map, liveAnts_mapIds, List.map_map]
  have hfn : ((fun x : Entity × Nat × Nat => x.1.player.getD 0) ∘ liftEnt ρ) =
      (fun x : Entity × Nat × Nat => x.1.player.getD 0) := by
    funext x
    show (mapEntIds ρ x.1).player.getD 0 = _
    rw [player_mapEntIds]
  rw [hfn]

theorem relabel_rankStabilized (ρ : Nat → Nat) (g : Game) :
    (Game.relabel ρ g).rankStabilized = g.rankStabilized := by
  unfold Game.rankStabilized
  rw [relabel_pointsForRazingHill, relabel_pointsForLosingHill, relabel_map,
    mapIds_players, relabel_scores, relabel_liveAntHillsPerPlayer]

theorem relabel_checkForEndgame (ρ : Nat → Nat) (g : Game) :
    (Game.relabel ρ g).checkForEndgame = Game.relabel ρ g.checkForEndgame := by
  unfold Game.checkForEndgame
  rw [relabel_checkForFoodNotBeingGathered]
  simp only [relabel_cutoffThreshold, relabel_turnsWithTooMuchFood, relabel_maxTurns,
    relabel_turn, relabel_remainingPlayers, relabel_rankStabilized]
  by_cases h1 : (g.checkForFoodNotBeingGathered).cutoffThreshold ≤
      (g.checkForFoodNotBeingGathered).turnsWithTooMuchFood
  · rw [if_pos h1, if_pos h1]
    rfl
  · rw [if_neg h1, if_neg h1]
    by_cases h2 : ((g.checkForFoodNotBeingGathered).remainingPlayers == 1) = true
    · rw [if_pos h2, if_pos h2]
      rfl
    · rw [if_neg h2, if_neg h2]
      by_cases h3 : (g.checkForFoodNotBeingGathered).rankStabilized = true
      · rw [if_pos h3, if_pos h3]
        rfl
      · rw [if_neg h3, if_neg h3]
        by_cases h4 : (g.checkForFoodNotBeingGathered).maxTurns ≤
            (g.checkForFoodNotBeingGathered).turn
        · rw [if_pos h4, if_pos h4]
          rfl
        · rw [if_neg h4, if_neg h4]

theorem toStateEntity_mapEnt (ρ : Nat → Nat) (e : Entity) (r c : Nat) :
    toStateEntity (mapEntIds ρ e) r c = toStateEntity e r c := by
  cases e <;> rfl

theorem foldl_mem_congr {α β : Type} (f g : β → α → β) :
    ∀ (l : List α), (∀ b a, a ∈ l → f b a = g b a) →
      ∀ (init : β), l.foldl f init = l.foldl g init := by
  intro l
  induction l with
  | nil => intro h init; rfl
  | cons x xs ih =>
    intro h init
    rw [List.foldl_cons, List.foldl_cons, h init x (List.mem_cons_self x xs)]
    exact ih (fun b a ha => h b a (List.mem_cons_of_mem x ha)) _

theorem relabel_gameState (ρ : Nat → Nat) (g : Game) :
    (Game.relabel ρ g).gameState = GameState.relabel ρ g.gameState := by
  unfold Game.gameState GameState.relabel
  dsimp only
  rw [relabel_map, liveAnts_mapIds, mapIds_players, relabel_turn, relabel_scores,
    relabel_finished, relabel_finishedReason]
  have hants : (((liveAnts g.map).map (liftEnt ρ)).foldl
      (fun acc x => pushAt acc (x.1.player.getD 0) (toPlayerAnt (Game.relabel ρ g) x))
      (List.replicate g.map.players [])) =
      ((liveAnts g.map).foldl
        (fun acc x => pushAt acc (x.1.player.getD 0) (toPlayerAnt g x))
        (List.replicate g.map.players [])).map (List.map (PlayerAnt.relabel ρ)) := by
    rw [List.foldl_map,
      foldl_pushAt_map (PlayerAnt.relabel ρ)
        (fun x : Entity × Nat × Nat => x.1.player.getD 0) (toPlayerAnt g)
        (liveAnts g.map) (List.replicate g.map.players []),
      show (List.replicate g.map.players ([] : List PlayerAnt)).map
        (List.map (PlayerAnt.relabel ρ)) = List.replicate g.map.players [] from by simp]
    apply foldl_mem_congr
    intro acc x hx
    obtain ⟨i, p, hh, hshape⟩ := mem_liveAnts_shape g.map x hx
    have hkey : (liftEnt ρ x).1.player.getD 0 = x.1.player.getD 0 := by
      show (mapEntIds ρ x.1).player.getD 0 = _
      rw [player_mapEntIds]
    have hval : toPlayerAnt (Game.relabel ρ g) (liftEnt ρ x) =
        PlayerAnt.relabel ρ (toPlayerAnt g x) := by
      unfold toPlayerAnt PlayerAnt.relabel
      dsimp only
      rw [relabel_map, relabel_fovRadius2]
      show ({ id := (mapEntIds ρ x.1).entityId
              row := x.2.1
              col := x.2.2
              player := (mapEntIds ρ x.1).player.getD 0
              alive := (mapEntIds ρ x.1).aliveFlag.getD false
              fieldOfVision := ((g.map.mapIds ρ).fieldOfVision (x.2.1, x.2.2)
                g.fovRadius2).map fun y => toStateEntity y.1 y.2.1 y.2.2 } : PlayerAnt) = _
      rw [player_mapEntIds, aliveFlag_mapEntIds, fieldOfVision_mapIds, List.map_map]
      have hfov : ((fun (y : Entity × Nat × Nat) => toStateEntity y.1 y.2.1 y.2.2) ∘
          liftEnt ρ) = (fun (y : Entity × Nat × Nat) => toStateEntity y.1 y.2.1 y.2.2) := by
        funext y
        show toStateEntity (mapEntIds ρ y.1) y.2.1 y.2.2 = _
        rw [toStateEntity_mapEnt]
      rw [hfov, hshape]
      rfl
    rw [hkey, hval]
  rw [hants]

theorem parseCell_relabel (ρ s : Nat → Nat) (row : Nat) :
    ∀ (m : GameMap) (k : Nat) (cp : Nat × MapChar),
      parseCell (fun n => ρ (s n)) row (m.mapIds ρ, k) cp =
        ((parseCell s row (m, k) cp).1.mapIds ρ, (parseCell s row (m, k) cp).2) := by
  rintro m k ⟨col, ch⟩
  cases ch with
  | land => rfl
  | water =>
    show ((m.mapIds ρ).set row col .water, k) = _
    rw [show (Entity.water) = mapEntIds ρ .water from rfl, ← set_mapIds]
    rfl
  | food =>
    show ((m.mapIds ρ).set row col .food, k) = _
    rw [show (Entity.food) = mapEntIds ρ .food from rfl, ← set_mapIds]
    rfl
  | hill p =>
    show ((m.mapIds ρ).set row col (.hill p true), k) = _
    rw [show (Entity.hill p true) = mapEntIds ρ (.hill p true) from rfl, ← set_mapIds]
    rfl
  | ant p =>
    show ((m.mapIds ρ).set row col (.ant (ρ (s k)) p true none), k + 1) = _
    rw [show (Entity.ant (ρ (s k)) p true none) =
      mapEntIds ρ (.ant (s k) p true none) from rfl, ← set_mapIds]
    rfl
  | antOnHill p =>
    show ((m.mapIds ρ).set row col (.ant (ρ (s k)) p true (some (p, true))), k + 1) = _
    rw [show (Entity.ant (ρ (s k)) p true (some (p, true))) =
      mapEntIds ρ (.ant (s k) p true (some (p, true))) from rfl, ← set_mapIds]
    rfl

theorem parseMap_relabel (ρ s : Nat → Nat) (mc : MapContents) (n : Nat) :
    parseMap mc (fun k => ρ (s k)) n =
      ((parseMap mc s n).1.mapIds ρ, (parseMap mc s n).2) := by
  unfold parseMap
  have hinit : ((⟨mc.cols, mc.rows, mc.players,
      List.replicate (mc.rows * mc.cols) none⟩ : GameMap), n) =
      ((⟨mc.cols, mc.rows, mc.players,
        List.replicate (mc.rows * mc.cols) none⟩ : GameMap).mapIds ρ, n) := by
    unfold GameMap.mapIds
    rw [List.map_replicate]
    rfl
  refine foldl_rel
    (R := fun (a b : GameMap × Nat) => a = (b.1.mapIds ρ, b.2)) ?_ mc.cells.enum hinit
  intro a1 a2 rp h
  unfold parseRow
  refine foldl_rel
    (R := fun (a b : GameMap × Nat) => a = (b.1.mapIds ρ, b.2)) ?_ rp.2.enum h
  intro b1 b2 cp hb
  rw [hb]
  exact parseCell_relabel ρ s rp.1 b2.1 b2.2 cp

theorem relabel_update (ρ : Nat → Nat) (hρ : Function.Injective ρ) (g : Game)
    (actions : List AntAction) :
    (Game.relabel ρ g).update actions =
      (g.update actions).map (fun sg => (GameState.relabel ρ sg.1, Game.relabel ρ sg.2)) := by
  unfold Game.update
  rw [relabel_started, relabel_finished]
  by_cases hs : g.started = true
  · have hns : ¬(¬g.started = true) := by simp [hs]
    rw [if_neg hns, if_neg hns]
    by_cases hf : g.finished = true
    · rw [if_pos hf, if_pos hf]
      rfl
    · rw [if_neg hf, if_neg hf]
      dsimp only
      show ((Game.relabel ρ { g with turn := g.turn + 1 }).moveAnts actions).bind
        (fun g1 => Option.map (fun g2 =>
          ((g2.razeHills.spawnAntsFromHive.harvestFood.spawnFoodRandomly.checkForEndgame).gameState,
           (g2.razeHills.spawnAntsFromHive.harvestFood.spawnFoodRandomly.checkForEndgame).removeDeadAnts))
          g1.attack) =
        Option.map (fun sg => (GameState.relabel ρ sg.1, Game.relabel ρ sg.2))
          ((({ g with turn := g.turn + 1 } : Game).moveAnts actions).bind
            (fun g1 => Option.map (fun g2 =>
              ((g2.razeHills.spawnAntsFromHive.harvestFood.spawnFoodRandomly.checkForEndgame).gameState,
               (g2.razeHills.spawnAntsFromHive.harvestFood.spawnFoodRandomly.checkForEndgame).removeDeadAnts))
              g1.attack))
      rw [relabel_moveAnts ρ { g with turn := g.turn + 1 } actions]
      cases hmv : Game.moveAnts { g with turn := g.turn + 1 } actions with
      | none => rfl
      | some g1 =>
        show ((Game.relabel ρ g1).attack.map (fun g2 =>
            ((g2.razeHills.spawnAntsFromHive.harvestFood.spawnFoodRandomly.checkForEndgame).gameState,
             (g2.razeHills.spawnAntsFromHive.harvestFood.spawnFoodRandomly.checkForEndgame).removeDeadAnts))) =
          Option.map (fun sg => (GameState.relabel ρ sg.1, Game.relabel ρ sg.2))
            (g1.attack.map (fun g2 =>
              ((g2.razeHills.spawnAntsFromHive.harvestFood.spawnFoodRandomly.checkForEndgame).gameState,
               (g2.razeHills.spawnAntsFromHive.harvestFood.spawnFoodRandomly.checkForEndgame).removeDeadAnts)))
        rw [relabel_attack ρ hρ g1]
        cases hat : g1.attack with
        | none => rfl
        | some g2 =>
          show some
            ((((Game.relabel ρ g2).razeHills.spawnAntsFromHive.harvestFood.spawnFoodRandomly.checkForEndgame).gameState,
             ((Game.relabel ρ g2).razeHills.spawnAntsFromHive.harvestFood.spawnFoodRandomly.checkForEndgame).removeDeadAnts)) = _
          rw [relabel_razeHills, relabel_spawnAntsFromHive, relabel_harvestFood,
            relabel_spawnFoodRandomly, relabel_checkForEndgame, relabel_gameState,
            relabel_removeDeadAnts]
          rfl
  · have hps : (¬g.started = true) := hs
    rw [if_pos hps, if_pos hps]
    rfl

theorem relabel_start (ρ : Nat → Nat) (g : Game) :
    (Game.relabel ρ g).start =
      (GameState.relabel ρ g.start.1, Game.relabel ρ g.start.2) := by
  unfold Game.start
  dsimp only
  rw [relabel_mapContents, relabel_nextId, show (Game.relabel ρ g).uuidSupply =
    (fun n => ρ (g.uuidSupply n)) from rfl, parseMap_relabel ρ g.uuidSupply,
    relabel_map, mapIds_players]
  show ((Game.relabel ρ ({ g with
      turn := 0
      started := true
      finished := false
      finishedReason := none
      turnsWithTooMuchFood := 0
      hive := List.replicate g.map.players 0
      map := (parseMap g.mapContents g.uuidSupply g.nextId).1
      nextId := (parseMap g.mapContents g.uuidSupply g.nextId).2 } :
        Game)).computeInitialScores.spawnFoodAroundHills.spawnAntsAllHills.gameState,
    (Game.relabel ρ ({ g with
      turn := 0
      started := true
      finished := false
      finishedReason := none
      turnsWithTooMuchFood := 0
      hive := List.replicate g.map.players 0
      map := (parseMap g.mapContents g.uuidSupply g.nextId).1
      nextId := (parseMap g.mapContents g.uuidSupply g.nextId).2 } :
        Game)).computeInitialScores.spawnFoodAroundHills.spawnAntsAllHills) = _
  rw [relabel_computeInitialScores, relabel_spawnFoodAroundHills,
    relabel_spawnAntsAllHills, relabel_gameState]

theorem relabel_runStatesGo (ρ : Nat → Nat) (hρ : Function.Injective ρ) :
    ∀ (turns : List (List AntAction)) (g : Game) (acc : List GameState),
      runStatesGo (Game.relabel ρ g) turns (acc.map (GameState.relabel ρ)) =
        (runStatesGo g turns acc).map (List.map (GameState.relabel ρ)) := by
  intro turns
  induction turns with
  | nil => intro g acc; rfl
  | cons a rest ih =>
    intro g acc
    show (match (Game.relabel ρ g).update a with
      | none => none
      | some (st, g2) => runStatesGo g2 rest (acc.map (GameState.relabel ρ) ++ [st])) =
      Option.map (List.map (GameState.relabel ρ))
        (match g.update a with
        | none => none
        | some (st, g2) => runStatesGo g2 rest (acc ++ [st]))
    rw [relabel_update ρ hρ g a]
    cases hup : g.update a with
    | none => rfl
    | some sg =>
      obtain ⟨st, g2⟩ := sg
      show runStatesGo (Game.relabel ρ g2) rest
        (acc.map (GameState.relabel ρ) ++ [GameState.relabel ρ st]) = _
      rw [show acc.map (GameState.relabel ρ) ++ [GameState.relabel ρ st] =
        (acc ++ [st]).map (GameState.relabel ρ) from by simp]
      exact ih g2 (acc ++ [st])

theorem relabel_runStates (ρ : Nat → Nat) (hρ : Function.Injective ρ) (g : Game)
    (turns : List (List AntAction)) :
    (Game.relabel ρ g).runStates turns =
      (g.runStates turns).map (List.map (GameState.relabel ρ)) := by
  unfold Game.runStates
  rw [relabel_start]
  dsimp only
  exact relabel_runStatesGo ρ hρ turns g.start.2 [g.start.1]

theorem new_relabel (mc : MapContents) (fov atk fd rate mt sd : Nat) (s : Nat → Nat) :
    Game.new mc fov atk fd rate mt sd s =
      Game.relabel s (Game.new mc fov atk fd rate mt sd idSupply) := by
  have hp : parseMap mc s 0 =
      ((parseMap mc idSupply 0).1.mapIds s, (parseMap mc idSupply 0).2) :=
    parseMap_relabel s idSupply mc 0
  unfold Game.new Game.relabel
  dsimp only
  rw [hp]
  rfl

theorem eraseIds_relabelState (ρ : Nat → Nat) (st : GameState) :
    (GameState.relabel ρ st).eraseIds = st.eraseIds := by
  unfold GameState.relabel GameState.eraseIds
  dsimp only
  rw [List.map_map]
  have h : (List.map (fun a => ({ a with id := 0 } : PlayerAnt)) ∘
      List.map (PlayerAnt.relabel ρ)) =
      List.map (fun a => ({ a with id := 0 } : PlayerAnt)) := by
    funext l
    show (l.map (PlayerAnt.relabel ρ)).map (fun a => ({ a with id := 0 } : PlayerAnt)) = _
    rw [List.map_map]
    apply List.map_congr_left
    intro a _
    rfl
  rw [h]

/-- C9 counterexample: two games built from the same map contents, the same
radii/food-rate/max-turns parameters and the same seed — everything the claim
fixes — but living in processes with different UUID entropy produce different
observation streams: the single spawned ant's identifier is `0` in one run and
`100` in the other, because `Uuid::new_v4` draws from OS entropy, not from the
seeded RNG.  The claim asserts byte-identical streams including ant
identifiers. -/
theorem c9_counterexample :
    ((Game.new c6Contents 4 5 1 5 1500 0 idSupply).runStates []) ≠
      ((Game.new c6Contents 4 5 1 5 1500 0 shiftSupply).runStates []) ∧
    (((Game.new c6Contents 4 5 1 5 1500 0 idSupply).runStates []).getD []).map
      (fun st => (st.ants.getD 0 []).map (fun a => a.id)) = [[0]] ∧
    (((Game.new c6Contents 4 5 1 5 1500 0 shiftSupply).runStates []).getD []).map
      (fun st => (st.ants.getD 0 []).map (fun a => a.id)) = [[100]] := by
  have h1 : (((Game.new c6Contents 4 5 1 5 1500 0 idSupply).runStates []).getD []).map
      (fun st => (st.ants.getD 0 []).map (fun a => a.id)) = [[0]] := by decide
  have h2 : (((Game.new c6Contents 4 5 1 5 1500 0 shiftSupply).runStates []).getD []).map
      (fun st => (st.ants.getD 0 []).map (fun a => a.id)) = [[100]] := by decide
  refine ⟨?_, h1, h2⟩
  intro hcon
  rw [hcon, h2] at h1
  exact absurd h1 (by decide)

/-- C9 (amended): determinism up to ant identifiers.  Two games constructed
from the same map contents, the same radii/food-rate/max-turns parameters and
the same seed, driven by the same action sequence, produce identical
observation streams (and both fail at the same point, if they fail) AFTER
erasing the ant identifiers, for any two injective UUID entropy streams —
the ids themselves are v4 UUIDs drawn from process entropy outside the seeded
RNG, so only the id-erased streams coincide. -/
theorem c9_run_spec (mc : MapContents) (fov atk fd rate mt seed : Nat)
    (s1 s2 : Nat → Nat) (h1 : Function.Injective s1) (h2 : Function.Injective s2)
    (turns : List (List AntAction)) :
    ((Game.new mc fov atk fd rate mt seed s1).runStates turns).map
      (List.map GameState.eraseIds) =
    ((Game.new mc fov atk fd rate mt seed s2).runStates turns).map
      (List.map GameState.eraseIds) := by
  have key : ∀ (s : Nat → Nat), Function.Injective s →
      ((Game.new mc fov atk fd rate mt seed s).runStates turns).map
        (List.map GameState.eraseIds) =
      ((Game.new mc fov atk fd rate mt seed idSupply).runStates turns).map
        (List.map GameState.eraseIds) := by
    intro s hs
    rw [new_relabel, relabel_runStates s hs]
    cases hr : (Game.new mc fov atk fd rate mt seed idSupply).runStates turns with
    | none => rfl
    | some l =>
      show some ((l.map (GameState.relabel s)).map GameState.eraseIds) =
        some (l.map GameState.eraseIds)
      rw [List.map_map]
      refine congrArg some (List.map_congr_left ?_)
      intro st _
      exact eraseIds_relabelState s st
  rw [key s1 h1, key s2 h2]

/-- C9 witness: the amended theorem applied at concrete inputs — the `2×2`
one-hill fixture, one empty-action turn, and the two concrete injective
UUID streams of the counterexample. -/
theorem c9_witness :
    Function.Injective idSupply ∧ Function.Injective shiftSupply ∧
    ((Game.new c6Contents 4 5 1 5 1500 0 idSupply).runStates [[]]).map
      (List.map GameState.eraseIds) =
    ((Game.new c6Contents 4 5 1 5 1500 0 shiftSupply).runStates [[]]).map
      (List.map GameState.eraseIds) :=
  ⟨fun a b h => h, fun a b h => Nat.add_right_cancel h,
    c9_run_spec c6Contents 4 5 1 5 1500 0 idSupply shiftSupply
      (fun a b h => h) (fun a b h => Nat.add_right_cancel h) [[]]⟩
